import Mathlib

/-!
# terraform-provider-medusa: a shallow embedding

The Go sources under `internal/` are rendered as pure Lean functions.

* A Go `string` is a Lean `String`; a `[]byte` is represented by the string that
  holds the same bytes, so the conversion `string(b)` is the identity.
* A Go `int` is an `Int`.
* A Go `error` is `Option GoError`: `none` is the nil error.
* A pointer that may be nil is an `Option`.
* A call that may panic returns `Except Panic _`.
-/

namespace Medusa

/-! ## Go run-time notions -/

/-- Run-time panics that the embedded code can raise. -/
inductive Panic where
  /-- A method call or field access through a nil pointer or nil interface. -/
  | nilDereference
  /-- The panic of `reflect.Value.FieldByName` on a Value whose Kind is not Struct. -/
  | reflectNotStruct
  /-- The panic of `big.NewFloat` on a NaN argument. -/
  | bigFloatNaN
  /-- The explicit panic of `utils.GetClient`. -/
  | invalidClientType
  deriving DecidableEq, Repr

/-- A non-nil Go `error`, given by the text its `Error()` method returns. -/
structure GoError where
  Error : String
  deriving DecidableEq, Repr

/-! ## terraform-plugin-framework: diagnostics -/

/-- Severity of a diagnostic (`diag.Severity`). -/
inductive Severity where
  | error
  | warning
  deriving DecidableEq, Repr

/-- A diagnostic of the plugin framework: severity, summary and detail. -/
structure Diagnostic where
  severity : Severity
  summary : String
  detail : String
  deriving DecidableEq, Repr

/-- The constructor `diag.NewErrorDiagnostic(summary, detail)`. -/
def NewErrorDiagnostic (summary detail : String) : Diagnostic :=
  { severity := Severity.error, summary := summary, detail := detail }

/-! ## What `reflect` sees of a response value -/

/-- Dynamic content of a struct field, as far as the type assertion
`value.Interface().([]byte)` distinguishes it. -/
inductive FieldContent where
  /-- The field holds a `[]byte`; the argument is its bytes read as a string. -/
  | byteSlice (b : String)
  /-- The field holds a value of any other type. -/
  | otherType
  deriving DecidableEq, Repr

/-- One field of a struct, as `reflect.Value.FieldByName` resolves it. -/
structure StructField where
  name : String
  /-- Result of `CanInterface()`: false for a field reached through an unexported field. -/
  canInterface : Bool
  content : FieldContent
  deriving DecidableEq, Repr

/-- The `reflect.Value` of a Go value, by Kind. -/
inductive ReflectValue where
  /-- The zero Value (Kind Invalid): `reflect.ValueOf` of a nil interface. -/
  | zero
  /-- Kind Struct, with its fields. -/
  | structVal (fields : List StructField)
  /-- Kind Ptr, non-nil, with the Value of the pointee. -/
  | ptrTo (elem : ReflectValue)
  /-- Kind Ptr, nil. -/
  | nilPtr
  /-- Every other Kind (Int, String, Map, Func, ...). -/
  | otherKind
  deriving Repr

/-- The method `reflect.Value.Kind() == reflect.Ptr`. -/
def ReflectValue.isPtr : ReflectValue → Bool
  | .ptrTo _ => true
  | .nilPtr => true
  | _ => false

/-- The method `reflect.Value.Elem()` on a Value of Kind Ptr: the pointee, or the zero
Value for a nil pointer. -/
def ReflectValue.Elem : ReflectValue → ReflectValue
  | .ptrTo e => e
  | .nilPtr => .zero
  | v => v

/-- The method `reflect.Value.FieldByName(name)`: panics unless the Kind is Struct; on a
struct it yields the field of that name, or nothing (the zero Value) when there is none. -/
def ReflectValue.FieldByName (v : ReflectValue) (name : String) :
    Except Panic (Option StructField) :=
  match v with
  | .structVal fields => .ok (fields.find? (fun f => f.name == name))
  | _ => .error Panic.reflectNotStruct

/-- A value of the interface type `ApiResponse` (`errors.go`): what its `StatusCode()`
method does, and what `reflect.ValueOf` shows of it. -/
structure ApiResponse where
  StatusCode : Except Panic Int
  reflectValue : ReflectValue

namespace utils

/-! ## `internal/utils/errors.go` -/

/-- The function `readResponseBody` of `errors.go`. -/
def readResponseBody (input : ApiResponse) : Except Panic String :=
  let ref := input.reflectValue
  let ref := if ref.isPtr then ref.Elem else ref
  match ref.FieldByName "Body" with
  | .error p => .error p
  | .ok value =>
    match value with
    | some f =>
      if f.canInterface then
        match f.content with
        | .byteSlice fieldValue => .ok fieldValue
        | .otherType => .ok "(no response body)"
      else .ok "(no response body)"
    | none => .ok "(no response body)"

/-- The function `CheckCreateError` of `errors.go`. -/
def CheckCreateError (name : String) (response : ApiResponse) (err : Option GoError) :
    Except Panic (Option Diagnostic) :=
  match err with
  | some e =>
    .ok (some (NewErrorDiagnostic
      ("Error creating " ++ name)
      ("Could not create " ++ name ++ ", unexpected error: " ++ e.Error)))
  | none =>
    match response.StatusCode with
    | .error p => .error p
    | .ok code =>
      if code ≠ 200 then
        match readResponseBody response with
        | .error p => .error p
        | .ok body =>
          .ok (some (NewErrorDiagnostic
            ("Error creating " ++ name)
            ("Could not create " ++ name ++ ", status code: " ++ toString code
              ++ " (" ++ body ++ ")")))
      else .ok none

/-- The function `CheckGetError` of `errors.go`. -/
def CheckGetError (name : String) (id : String) (response : ApiResponse)
    (err : Option GoError) : Except Panic (Option Diagnostic) :=
  match err with
  | some e =>
    .ok (some (NewErrorDiagnostic
      ("Error retrieving " ++ name ++ " with id " ++ id)
      ("Could not retrieve " ++ name ++ " with id " ++ id ++ ", unexpected error: "
        ++ e.Error)))
  | none =>
    match response.StatusCode with
    | .error p => .error p
    | .ok code =>
      if code ≠ 200 then
        match readResponseBody response with
        | .error p => .error p
        | .ok body =>
          .ok (some (NewErrorDiagnostic
            ("Error retrieving " ++ name ++ " with id " ++ id)
            ("Could not retrieve " ++ name ++ " with id " ++ id ++ ", status code: "
              ++ toString code ++ " (" ++ body ++ ")")))
      else .ok none

/-- The function `CheckUpdateError` of `errors.go`. -/
def CheckUpdateError (name : String) (response : ApiResponse) (err : Option GoError) :
    Except Panic (Option Diagnostic) :=
  match err with
  | some e =>
    .ok (some (NewErrorDiagnostic
      ("Error updating " ++ name)
      ("Could not update " ++ name ++ ", unexpected error: " ++ e.Error)))
  | none =>
    match response.StatusCode with
    | .error p => .error p
    | .ok code =>
      if code ≠ 200 then
        match readResponseBody response with
        | .error p => .error p
        | .ok body =>
          .ok (some (NewErrorDiagnostic
            ("Error updating " ++ name)
            ("Could not update " ++ name ++ ", status code: " ++ toString code
              ++ " (" ++ body ++ ")")))
      else .ok none

/-- The function `CheckDeleteError` of `errors.go`. -/
def CheckDeleteError (name : String) (response : ApiResponse) (err : Option GoError) :
    Except Panic (Option Diagnostic) :=
  match err with
  | some e =>
    .ok (some (NewErrorDiagnostic
      ("Error deleting " ++ name)
      ("Could not delete " ++ name ++ ", unexpected error: " ++ e.Error)))
  | none =>
    match response.StatusCode with
    | .error p => .error p
    | .ok code =>
      if code ≠ 200 then
        match readResponseBody response with
        | .error p => .error p
        | .ok body =>
          .ok (some (NewErrorDiagnostic
            ("Error deleting " ++ name)
            ("Could not delete " ++ name ++ ", status code: " ++ toString code
              ++ " (" ++ body ++ ")")))
      else .ok none

end utils

/-! ## `net/http`: headers -/

/-- Go's `http.Header`, a `map[string][]string`: the entries of the map, with pairwise
distinct keys. The order of the list stands for the order in which `range` happens to
visit the map. -/
abbrev Header := List (String × List String)

/-- The predicate `validHeaderFieldByte` of `net/textproto`: the token characters of
RFC 7230. -/
def validHeaderFieldByte (c : Char) : Bool :=
  c.isAlphanum || "!#$%&'*+-.^_`|~".toList.contains c

/-- The canonicalisation loop of `net/textproto`: upper case for the first letter and for
each letter after a dash, lower case for the others. -/
def canonicalLetters (upper : Bool) : List Char → List Char
  | [] => []
  | c :: cs =>
    let c1 := if upper && c.isLower then c.toUpper
      else if !upper && c.isUpper then c.toLower else c
    c1 :: canonicalLetters (c1 == '-') cs

/-- The function `textproto.CanonicalMIMEHeaderKey`: a key that holds a byte that is not a
token character (a space included) is returned unchanged, every other key is put in
canonical form. -/
def CanonicalMIMEHeaderKey (s : String) : String :=
  if s.toList.all validHeaderFieldByte then String.mk (canonicalLetters true s.toList)
  else s

/-- The method `http.Header.Del`: `delete(h, CanonicalMIMEHeaderKey(key))`. -/
def Header.Del (h : Header) (key : String) : Header :=
  h.filter (fun entry => entry.1 != CanonicalMIMEHeaderKey key)

/-- Whether the map has an entry under exactly this key. -/
def Header.hasKey (h : Header) (key : String) : Bool :=
  h.any (fun entry => entry.1 == key)

/-- The values stored under exactly this key (Go's `h[key]`), if any. -/
def Header.lookup (h : Header) (key : String) : Option (List String) :=
  (h.find? (fun entry => entry.1 == key)).map (fun entry => entry.2)

namespace utils

/-! ## `internal/utils/client.go` -/

/-- The function `contains` of `client.go`. -/
def contains (keep : List String) (key : String) : Bool :=
  match keep with
  | [] => false
  | k :: rest => if k == key then true else contains rest key

/-- The loop `for key := range headers` of `CleanHeaders`, over the keys still to be
visited; a key whose entry was removed before it is reached is not produced. -/
def CleanHeaders.loop (keep : List String) : List String → Header → Header
  | [], headers => headers
  | key :: rest, headers =>
    if headers.hasKey key then
      if !contains keep key then CleanHeaders.loop keep rest (headers.Del key)
      else CleanHeaders.loop keep rest headers
    else CleanHeaders.loop keep rest headers

/-- The function `CleanHeaders` of `client.go`. -/
def CleanHeaders (headers : Header) (keep : List String) : Header :=
  CleanHeaders.loop keep (headers.map (fun entry => entry.1)) headers

end utils

/-! ## `internal/provider.go`: the recorder hook -/

/-- The headers of a `cassette.Interaction`. -/
structure Interaction where
  RequestHeaders : Header
  ResponseHeaders : Header
  deriving DecidableEq, Repr

/-- The closure `hook` of `WithRecorderClient`, run on every captured interaction
before it is persisted. -/
def WithRecorderClient.hook (i : Interaction) : Interaction :=
  let response := utils.CleanHeaders i.ResponseHeaders ["Content-Type"]
  let request := utils.CleanHeaders i.RequestHeaders []
  { RequestHeaders := request, ResponseHeaders := response }


/-! ## Numbers: `float32` and `big.Float` -/

/-- A Go `float32`, by value: a finite value (a rational that the format represents; the
two zeros are not told apart), an infinity, or NaN. -/
inductive Float32 where
  | finite (v : ℚ)
  | inf (negative : Bool)
  | nan
  deriving DecidableEq, Repr

/-- A `big.Float`, by value (its precision is not recorded): a finite value or an
infinity. There is no NaN among the values of `big.Float`. -/
inductive BigFloat where
  | finite (v : ℚ)
  | inf (negative : Bool)
  deriving DecidableEq, Repr

/-- The power `2 ^ e` for an integer exponent. -/
def pow2 (e : ℤ) : ℚ :=
  if 0 ≤ e then ((2 ^ e.toNat : ℕ) : ℚ) else ((2 ^ (-e).toNat : ℕ) : ℚ)⁻¹

/-- The integer nearest to a rational, ties going to the even one. -/
def roundHalfEven (q : ℚ) : ℤ :=
  let f := ⌊q⌋
  let r := q - f
  if r < 1 / 2 then f
  else if 1 / 2 < r then f + 1
  else if f % 2 = 0 then f else f + 1

/-- The exponent `e` with `2 ^ e ≤ a < 2 ^ (e + 1)`, for a positive rational `a`. -/
def floorLog2 (a : ℚ) : ℤ :=
  let e0 : ℤ := (Nat.log2 a.num.natAbs : ℤ) - (Nat.log2 a.den : ℤ)
  if a < pow2 e0 then e0 - 1 else e0

/-- The method `(*big.Float).Float32()`: the `float32` nearest to the value, ties to
even, with 24 bits of significand down to the exponent -149 of the denormals; a result of
magnitude `2 ^ 128` or more is an infinity. -/
def BigFloat.Float32 : BigFloat → Float32
  | .inf negative => .inf negative
  | .finite v =>
    if v = 0 then .finite 0
    else
      let a := |v|
      let u := max (floorLog2 a - 23) (-149)
      let r := (roundHalfEven (a / pow2 u) : ℚ) * pow2 u
      if pow2 128 ≤ r then .inf (decide (v < 0))
      else .finite (if v < 0 then -r else r)

/-- The call `big.NewFloat(float64(value))`: exact on every finite value and on the
infinities, a panic on NaN. -/
def NewFloat (value : Float32) : Except Panic BigFloat :=
  match value with
  | .finite v => .ok (.finite v)
  | .inf negative => .ok (.inf negative)
  | .nan => .error Panic.bigFloatNaN

/-! ## terraform-plugin-framework: attribute values -/

/-- A slice `[]T`: `none` is the nil slice. -/
abbrev Slice (α : Type) := Option (List α)

/-- The framework's `types.String`: null (the zero value), unknown, or a known string. -/
inductive TfString where
  | null
  | unknown
  | value (s : String)
  deriving DecidableEq, Repr

/-- The framework's `types.Bool`. -/
inductive TfBool where
  | null
  | unknown
  | value (b : Bool)
  deriving DecidableEq, Repr

/-- The framework's `types.Number`. -/
inductive TfNumber where
  | null
  | unknown
  | value (f : BigFloat)
  deriving DecidableEq, Repr

/-- The method `IsNull` of `types.String`. -/
def TfString.IsNull : TfString → Bool
  | .null => true
  | _ => false

/-- The method `IsUnknown` of `types.String`. -/
def TfString.IsUnknown : TfString → Bool
  | .unknown => true
  | _ => false

/-- The method `ValueString`: the known string, and `""` for a null or unknown value. -/
def TfString.ValueString : TfString → String
  | .value s => s
  | _ => ""

/-- The method `ValueStringPointer`: nil for a null value, otherwise a pointer to what
`ValueString` returns (so a pointer to `""` for an unknown value). -/
def TfString.ValueStringPointer (s : TfString) : Option String :=
  if s.IsNull then none else some s.ValueString

/-- The method `IsNull` of `types.Bool`. -/
def TfBool.IsNull : TfBool → Bool
  | .null => true
  | _ => false

/-- The method `IsUnknown` of `types.Bool`. -/
def TfBool.IsUnknown : TfBool → Bool
  | .unknown => true
  | _ => false

/-- The method `ValueBool`: the known value, and `false` for a null or unknown value. -/
def TfBool.ValueBool : TfBool → Bool
  | .value b => b
  | _ => false

/-- The method `ValueBoolPointer`: nil for a null value, otherwise a pointer to what
`ValueBool` returns (so a pointer to `false` for an unknown value). -/
def TfBool.ValueBoolPointer (b : TfBool) : Option Bool :=
  if b.IsNull then none else some b.ValueBool

/-- The method `IsNull` of `types.Number`. -/
def TfNumber.IsNull : TfNumber → Bool
  | .null => true
  | _ => false

/-- The method `IsUnknown` of `types.Number`. -/
def TfNumber.IsUnknown : TfNumber → Bool
  | .unknown => true
  | _ => false

/-- The method `ValueBigFloat`: the known value, nil otherwise. -/
def TfNumber.ValueBigFloat : TfNumber → Option BigFloat
  | .value f => some f
  | _ => none

namespace types

/-- The constructor `types.StringValue`. -/
def StringValue (s : String) : TfString := TfString.value s

/-- The constructor `types.StringPointerValue`: null for a nil pointer. -/
def StringPointerValue (p : Option String) : TfString :=
  match p with
  | none => TfString.null
  | some s => TfString.value s

/-- The constructor `types.BoolValue`. -/
def BoolValue (b : Bool) : TfBool := TfBool.value b

/-- The constructor `types.BoolPointerValue`: null for a nil pointer. -/
def BoolPointerValue (p : Option Bool) : TfBool :=
  match p with
  | none => TfBool.null
  | some b => TfBool.value b

/-- The constructor `types.NumberValue`. -/
def NumberValue (f : BigFloat) : TfNumber := TfNumber.value f

end types

namespace utils

/-! ## `internal/utils/types.go` -/

/-- The function `ConvertToStringSlice` of `types.go`. -/
def ConvertToStringSlice (slice : Slice TfString) : Slice String :=
  match slice with
  | none => none
  | some l => some (l.map (fun v => v.ValueString))

/-- The function `ConvertToPointerStringSlice` of `types.go`: a nil pointer for a nil
slice, otherwise a pointer to the converted elements. -/
def ConvertToPointerStringSlice (slice : Slice TfString) : Option (List String) :=
  match slice with
  | none => none
  | some l => some (l.map (fun v => v.ValueString))

/-- The function `ConvertToTerraformStringSlice` of `types.go`; its result is made with
`make` and is never nil. -/
def ConvertToTerraformStringSlice (input : Slice String) : Slice TfString :=
  some ((input.getD []).map (fun v => types.StringValue v))

/-- The function `ConvertToFloat32` of `types.go`. -/
def ConvertToFloat32 (n : TfNumber) : Float32 :=
  if n.IsUnknown || n.IsNull then Float32.finite 0
  else
    match n.ValueBigFloat with
    | some bigFloat => bigFloat.Float32
    | none => Float32.finite 0

/-- The function `ConvertToPointerFloat32` of `types.go`. -/
def ConvertToPointerFloat32 (n : TfNumber) : Option Float32 :=
  if n.IsUnknown || n.IsNull then none
  else
    match n.ValueBigFloat with
    | some bigFloat => some bigFloat.Float32
    | none => none

/-- The function `ConvertToTerraformNumber` of `types.go`. -/
def ConvertToTerraformNumber (value : Float32) : Except Panic TfNumber :=
  match NewFloat value with
  | .error p => .error p
  | .ok f => .ok (types.NumberValue f)

/-! ## `internal/utils/extractor.go` -/

/-- The function `ExtractIDs` of `extractor.go`. The argument is a pointer to a slice,
`none` for the nil pointer; the result starts as the nil slice and grows by `append`. -/
def ExtractIDs {T : Type} (items : Option (List T)) (getID : T → String) : Slice String :=
  match items with
  | none => none
  | some l => l.foldl (fun ids item => some (ids.getD [] ++ [getID item])) none

end utils


/-! ## The SDK `medusajs-go-sdk/medusa`: wire types

The request and payload types of the SDK, each with the fields the provider writes or
reads; the field types are the ones the provider's code fixes by its assignments. -/

namespace medusa

/-- The SDK type `FulfillmentProvider`. -/
structure FulfillmentProvider where
  Id : String
  deriving DecidableEq, Repr

/-- The SDK type `PaymentProvider`. -/
structure PaymentProvider where
  Id : String
  deriving DecidableEq, Repr

/-- The SDK type `Country`. -/
structure Country where
  Iso2 : String
  deriving DecidableEq, Repr

/-- The SDK type `Currency`. -/
structure Currency where
  Code : String
  deriving DecidableEq, Repr

/-- The SDK type `Region`. -/
structure Region where
  Id : String
  Name : String
  CurrencyCode : String
  TaxRate : Float32
  TaxCode : Option String
  IncludesTax : Option Bool
  FulfillmentProviders : Option (List FulfillmentProvider)
  PaymentProviders : Option (List PaymentProvider)
  Countries : Option (List Country)
  deriving DecidableEq, Repr

/-- The SDK type `AdminRegionsRes`. -/
structure AdminRegionsRes where
  Region : Region
  deriving DecidableEq, Repr

/-- The SDK type `AdminPostRegionsReq`, the body of a region creation. -/
structure AdminPostRegionsReq where
  Name : String
  CurrencyCode : String
  TaxRate : Float32
  PaymentProviders : Slice String
  FulfillmentProviders : Slice String
  Countries : Slice String
  TaxCode : Option String
  IncludesTax : Option Bool
  deriving DecidableEq, Repr

/-- The SDK type `AdminPostRegionsRegionReq`, the body of a region update: every field
is a pointer, nil for a field that is absent from the request. -/
structure AdminPostRegionsRegionReq where
  Name : Option String
  CurrencyCode : Option String
  TaxRate : Option Float32
  PaymentProviders : Option (List String)
  FulfillmentProviders : Option (List String)
  Countries : Option (List String)
  TaxCode : Option String
  IncludesTax : Option Bool
  deriving DecidableEq, Repr

/-- The SDK types `Store` and `ExtendedStore`, which carry the same fields as far as
the provider reads them. -/
structure Store where
  Id : String
  Name : String
  DefaultCurrencyCode : String
  Currencies : Option (List Currency)
  SwapLinkTemplate : Option String
  PaymentLinkTemplate : Option String
  InviteLinkTemplate : Option String
  deriving DecidableEq, Repr

/-- The SDK type `AdminStoresRes`, the payload of a store update. -/
structure AdminStoresRes where
  Store : Store
  deriving DecidableEq, Repr

/-- The SDK type `AdminExtendedStoresRes`, the payload of a store read. -/
structure AdminExtendedStoresRes where
  Store : Store
  deriving DecidableEq, Repr

/-- The SDK type `AdminPostStoreReq`, the body of a store update. -/
structure AdminPostStoreReq where
  Name : Option String
  DefaultCurrencyCode : Option String
  Currencies : Option (List String)
  SwapLinkTemplate : Option String
  PaymentLinkTemplate : Option String
  InviteLinkTemplate : Option String
  deriving DecidableEq, Repr

/-- The SDK type `ProductCategory`. -/
structure ProductCategory where
  Id : String
  Name : String
  Description : Option String
  Handle : String
  IsInternal : Bool
  IsActive : Bool
  ParentCategoryId : Option String
  deriving DecidableEq, Repr

/-- The SDK type `AdminProductCategoriesCategoryRes`. -/
structure AdminProductCategoriesCategoryRes where
  ProductCategory : ProductCategory
  deriving DecidableEq, Repr

/-- The SDK type `AdminPostProductCategoriesReq`. -/
structure AdminPostProductCategoriesReq where
  Name : String
  Description : Option String
  Handle : Option String
  IsInternal : Option Bool
  IsActive : Option Bool
  ParentCategoryId : Option String
  deriving DecidableEq, Repr

/-- The SDK type `AdminPostProductCategoriesCategoryReq`. -/
structure AdminPostProductCategoriesCategoryReq where
  Name : Option String
  Description : Option String
  Handle : Option String
  IsInternal : Option Bool
  IsActive : Option Bool
  ParentCategoryId : Option String
  deriving DecidableEq, Repr

/-- The SDK type `SalesChannel`. -/
structure SalesChannel where
  Id : String
  Name : String
  Description : Option String
  IsDisabled : Bool
  deriving DecidableEq, Repr

/-- The SDK type `AdminSalesChannelsRes`. -/
structure AdminSalesChannelsRes where
  SalesChannel : SalesChannel
  deriving DecidableEq, Repr

/-- The SDK type `AdminPostSalesChannelsReq`. -/
structure AdminPostSalesChannelsReq where
  Name : String
  Description : Option String
  IsDisabled : Option Bool
  deriving DecidableEq, Repr

/-- The SDK type `AdminPostSalesChannelsSalesChannelReq`. -/
structure AdminPostSalesChannelsSalesChannelReq where
  Name : Option String
  Description : Option String
  IsDisabled : Option Bool
  deriving DecidableEq, Repr

/-- The SDK type `ShippingProfile`. -/
structure ShippingProfile where
  Id : String
  Name : String
  /-- The field `Type`. -/
  Type_ : String
  deriving DecidableEq, Repr

/-- The SDK type `AdminShippingProfilesRes`. -/
structure AdminShippingProfilesRes where
  ShippingProfile : ShippingProfile
  deriving DecidableEq, Repr

/-- The SDK type `AdminPostShippingProfilesReq`. -/
structure AdminPostShippingProfilesReq where
  Name : String
  /-- The field `Type`. -/
  Type_ : String
  deriving DecidableEq, Repr

/-- The SDK type `AdminPostShippingProfilesProfileReq`. -/
structure AdminPostShippingProfilesProfileReq where
  Name : Option String
  /-- The field `Type`. -/
  Type_ : Option String
  deriving DecidableEq, Repr

/-- The SDK type `ProductCollection`. -/
structure ProductCollection where
  Id : String
  Title : String
  Handle : Option String
  deriving DecidableEq, Repr

/-- The SDK type `AdminCollectionsRes`. -/
structure AdminCollectionsRes where
  Collection : ProductCollection
  deriving DecidableEq, Repr

/-- The SDK type `AdminPostCollectionsReq`. -/
structure AdminPostCollectionsReq where
  Title : String
  Handle : Option String
  deriving DecidableEq, Repr

/-- The SDK type `AdminPostCollectionsCollectionReq`. -/
structure AdminPostCollectionsCollectionReq where
  Title : Option String
  Handle : Option String
  deriving DecidableEq, Repr

/-- The SDK type `CustomerGroup`. -/
structure CustomerGroup where
  Id : String
  Name : String
  deriving DecidableEq, Repr

/-- The SDK type `AdminCustomerGroupsRes`. -/
structure AdminCustomerGroupsRes where
  CustomerGroup : CustomerGroup
  deriving DecidableEq, Repr

/-- The SDK type `AdminPostCustomerGroupsReq`. -/
structure AdminPostCustomerGroupsReq where
  Name : String
  deriving DecidableEq, Repr

/-- The SDK type `AdminPostCustomerGroupsGroupReq`. -/
structure AdminPostCustomerGroupsGroupReq where
  Name : Option String
  deriving DecidableEq, Repr

/-- The payload of a delete answer, which the provider never reads. -/
structure DeleteRes where
  deriving DecidableEq, Repr

end medusa


/-! ## `internal/region_model.go` -/

/-- The struct `regionResourceModel`. -/
structure regionResourceModel where
  ID : TfString
  Name : TfString
  CurrencyCode : TfString
  TaxRate : TfNumber
  PaymentProviders : Slice TfString
  FulfillmentProviders : Slice TfString
  Countries : Slice TfString
  TaxCode : TfString
  IncludesTax : TfBool
  deriving DecidableEq, Repr

/-- The method `regionResourceModel.toCreateInput`. -/
def regionResourceModel.toCreateInput (m : regionResourceModel) :
    medusa.AdminPostRegionsReq :=
  { Name := m.Name.ValueString
    CurrencyCode := m.CurrencyCode.ValueString
    TaxRate := utils.ConvertToFloat32 m.TaxRate
    PaymentProviders := utils.ConvertToStringSlice m.PaymentProviders
    FulfillmentProviders := utils.ConvertToStringSlice m.FulfillmentProviders
    Countries := utils.ConvertToStringSlice m.Countries
    TaxCode := m.TaxCode.ValueStringPointer
    IncludesTax := m.IncludesTax.ValueBoolPointer }

/-- The method `regionResourceModel.toUpdateInput`. -/
def regionResourceModel.toUpdateInput (m : regionResourceModel) :
    medusa.AdminPostRegionsRegionReq :=
  { Name := m.Name.ValueStringPointer
    CurrencyCode := m.CurrencyCode.ValueStringPointer
    TaxRate := utils.ConvertToPointerFloat32 m.TaxRate
    PaymentProviders := utils.ConvertToPointerStringSlice m.PaymentProviders
    FulfillmentProviders := utils.ConvertToPointerStringSlice m.FulfillmentProviders
    Countries := utils.ConvertToPointerStringSlice m.Countries
    TaxCode := m.TaxCode.ValueStringPointer
    IncludesTax := m.IncludesTax.ValueBoolPointer }

/-- The method `regionResourceModel.fromRemote`: the model after the call, and the error
returned. It panics when the tax rate of the payload is NaN. -/
def regionResourceModel.fromRemote (m : regionResourceModel)
    (c : Option medusa.AdminRegionsRes) :
    Except Panic (regionResourceModel × Option GoError) :=
  match c with
  | none => .ok (m, some { Error := "region is nil" })
  | some c =>
    let fulfillmentIDs := utils.ExtractIDs c.Region.FulfillmentProviders (fun fp => fp.Id)
    let paymentIDs := utils.ExtractIDs c.Region.PaymentProviders (fun pp => pp.Id)
    let countryIDs := utils.ExtractIDs c.Region.Countries (fun country => country.Iso2)
    match utils.ConvertToTerraformNumber c.Region.TaxRate with
    | .error p => .error p
    | .ok taxRate =>
      .ok ({ m with
              ID := types.StringValue c.Region.Id
              Name := types.StringValue c.Region.Name
              CurrencyCode := types.StringValue c.Region.CurrencyCode
              FulfillmentProviders := utils.ConvertToTerraformStringSlice fulfillmentIDs
              PaymentProviders := utils.ConvertToTerraformStringSlice paymentIDs
              Countries := utils.ConvertToTerraformStringSlice countryIDs
              TaxRate := taxRate
              TaxCode := types.StringPointerValue c.Region.TaxCode
              IncludesTax := types.BoolPointerValue c.Region.IncludesTax }, none)

/-! ## `internal/store_model.go` -/

/-- The struct `storeResourceModel`. -/
structure storeResourceModel where
  ID : TfString
  Name : TfString
  DefaultCurrencyCode : TfString
  Currencies : Slice TfString
  SwapLinkTemplate : TfString
  PaymentLinkTemplate : TfString
  InviteLinkTemplate : TfString
  deriving DecidableEq, Repr

/-- The method `storeResourceModel.toUpdateInput`. -/
def storeResourceModel.toUpdateInput (m : storeResourceModel) : medusa.AdminPostStoreReq :=
  { Name := m.Name.ValueStringPointer
    DefaultCurrencyCode := m.DefaultCurrencyCode.ValueStringPointer
    Currencies := utils.ConvertToPointerStringSlice m.Currencies
    SwapLinkTemplate := m.SwapLinkTemplate.ValueStringPointer
    PaymentLinkTemplate := m.PaymentLinkTemplate.ValueStringPointer
    InviteLinkTemplate := m.InviteLinkTemplate.ValueStringPointer }

/-- The method `storeResourceModel.toDeleteInput`: the three link templates are written
as nil, the fields not named in the literal have their zero value, nil. -/
def storeResourceModel.toDeleteInput (_m : storeResourceModel) : medusa.AdminPostStoreReq :=
  { Name := none
    DefaultCurrencyCode := none
    Currencies := none
    SwapLinkTemplate := none
    PaymentLinkTemplate := none
    InviteLinkTemplate := none }

/-- The method `storeResourceModel.fromGetRemote`. -/
def storeResourceModel.fromGetRemote (m : storeResourceModel)
    (c : Option medusa.AdminExtendedStoresRes) : storeResourceModel × Option GoError :=
  match c with
  | none => (m, some { Error := "store is nil" })
  | some c =>
    let currencyCodes := utils.ExtractIDs c.Store.Currencies (fun currency => currency.Code)
    ({ m with
        ID := types.StringValue c.Store.Id
        Name := types.StringValue c.Store.Name
        DefaultCurrencyCode := types.StringValue c.Store.DefaultCurrencyCode
        Currencies := utils.ConvertToTerraformStringSlice currencyCodes
        SwapLinkTemplate := types.StringPointerValue c.Store.SwapLinkTemplate
        PaymentLinkTemplate := types.StringPointerValue c.Store.PaymentLinkTemplate
        InviteLinkTemplate := types.StringPointerValue c.Store.InviteLinkTemplate }, none)

/-- The method `storeResourceModel.fromUpdateRemote`. -/
def storeResourceModel.fromUpdateRemote (m : storeResourceModel)
    (c : Option medusa.AdminStoresRes) : storeResourceModel × Option GoError :=
  match c with
  | none => (m, some { Error := "store is nil" })
  | some c =>
    let currencyCodes := utils.ExtractIDs c.Store.Currencies (fun currency => currency.Code)
    ({ m with
        ID := types.StringValue c.Store.Id
        Name := types.StringValue c.Store.Name
        DefaultCurrencyCode := types.StringValue c.Store.DefaultCurrencyCode
        Currencies := utils.ConvertToTerraformStringSlice currencyCodes
        SwapLinkTemplate := types.StringPointerValue c.Store.SwapLinkTemplate
        PaymentLinkTemplate := types.StringPointerValue c.Store.PaymentLinkTemplate
        InviteLinkTemplate := types.StringPointerValue c.Store.InviteLinkTemplate }, none)

/-! ## `internal/product_category_model.go` -/

/-- The struct `productCategoryResourceModel`. -/
structure productCategoryResourceModel where
  ID : TfString
  Name : TfString
  Description : TfString
  Handle : TfString
  IsInternal : TfBool
  IsActive : TfBool
  ParentCategoryId : TfString
  deriving DecidableEq, Repr

/-- The method `productCategoryResourceModel.toCreateInput`. -/
def productCategoryResourceModel.toCreateInput (m : productCategoryResourceModel) :
    medusa.AdminPostProductCategoriesReq :=
  { Name := m.Name.ValueString
    Description := m.Description.ValueStringPointer
    Handle := m.Handle.ValueStringPointer
    IsInternal := m.IsInternal.ValueBoolPointer
    IsActive := m.IsActive.ValueBoolPointer
    ParentCategoryId := m.ParentCategoryId.ValueStringPointer }

/-- The method `productCategoryResourceModel.toUpdateInput`. -/
def productCategoryResourceModel.toUpdateInput (m : productCategoryResourceModel) :
    medusa.AdminPostProductCategoriesCategoryReq :=
  { Name := m.Name.ValueStringPointer
    Description := m.Description.ValueStringPointer
    Handle := m.Handle.ValueStringPointer
    IsInternal := m.IsInternal.ValueBoolPointer
    IsActive := m.IsActive.ValueBoolPointer
    ParentCategoryId := m.ParentCategoryId.ValueStringPointer }

/-- The method `productCategoryResourceModel.fromRemote`. -/
def productCategoryResourceModel.fromRemote (m : productCategoryResourceModel)
    (c : Option medusa.AdminProductCategoriesCategoryRes) :
    productCategoryResourceModel × Option GoError :=
  match c with
  | none => (m, some { Error := "product_category is nil" })
  | some c =>
    ({ m with
        ID := types.StringValue c.ProductCategory.Id
        Name := types.StringValue c.ProductCategory.Name
        Description := types.StringPointerValue c.ProductCategory.Description
        Handle := types.StringPointerValue (some c.ProductCategory.Handle)
        IsInternal := types.BoolValue c.ProductCategory.IsInternal
        IsActive := types.BoolValue c.ProductCategory.IsActive
        ParentCategoryId := types.StringPointerValue c.ProductCategory.ParentCategoryId },
      none)

/-! ## `internal/sales_channel_model.go` -/

/-- The struct `salesChannelResourceModel`. -/
structure salesChannelResourceModel where
  ID : TfString
  Name : TfString
  Description : TfString
  IsDisabled : TfBool
  deriving DecidableEq, Repr

/-- The method `salesChannelResourceModel.toCreateInput`. -/
def salesChannelResourceModel.toCreateInput (m : salesChannelResourceModel) :
    medusa.AdminPostSalesChannelsReq :=
  { Name := m.Name.ValueString
    Description := m.Description.ValueStringPointer
    IsDisabled := m.IsDisabled.ValueBoolPointer }

/-- The method `salesChannelResourceModel.toUpdateInput`. -/
def salesChannelResourceModel.toUpdateInput (m : salesChannelResourceModel) :
    medusa.AdminPostSalesChannelsSalesChannelReq :=
  { Name := m.Name.ValueStringPointer
    Description := m.Description.ValueStringPointer
    IsDisabled := m.IsDisabled.ValueBoolPointer }

/-- The method `salesChannelResourceModel.fromRemote`. -/
def salesChannelResourceModel.fromRemote (m : salesChannelResourceModel)
    (c : Option medusa.AdminSalesChannelsRes) :
    salesChannelResourceModel × Option GoError :=
  match c with
  | none => (m, some { Error := "sales_channel is nil" })
  | some c =>
    ({ m with
        ID := types.StringValue c.SalesChannel.Id
        Name := types.StringValue c.SalesChannel.Name
        Description := types.StringPointerValue c.SalesChannel.Description
        IsDisabled := types.BoolValue c.SalesChannel.IsDisabled }, none)

/-! ## `internal/shipping_profile_model.go` -/

/-- The struct `shippingProfileResourceModel`. -/
structure shippingProfileResourceModel where
  ID : TfString
  Name : TfString
  /-- The field `Type`. -/
  Type_ : TfString
  deriving DecidableEq, Repr

/-- The method `shippingProfileResourceModel.toCreateInput`. -/
def shippingProfileResourceModel.toCreateInput (m : shippingProfileResourceModel) :
    medusa.AdminPostShippingProfilesReq :=
  { Name := m.Name.ValueString
    Type_ := m.Type_.ValueString }

/-- The method `shippingProfileResourceModel.toUpdateInput`. -/
def shippingProfileResourceModel.toUpdateInput (m : shippingProfileResourceModel) :
    medusa.AdminPostShippingProfilesProfileReq :=
  { Name := m.Name.ValueStringPointer
    Type_ := m.Type_.ValueStringPointer }

/-- The method `shippingProfileResourceModel.fromRemote`. -/
def shippingProfileResourceModel.fromRemote (m : shippingProfileResourceModel)
    (c : Option medusa.AdminShippingProfilesRes) :
    shippingProfileResourceModel × Option GoError :=
  match c with
  | none => (m, some { Error := "shipping_profile is nil" })
  | some c =>
    ({ m with
        ID := types.StringValue c.ShippingProfile.Id
        Name := types.StringValue c.ShippingProfile.Name
        Type_ := types.StringValue c.ShippingProfile.Type_ }, none)

/-! ## `internal/product_collection_model.go` -/

/-- The struct `productCollectionResourceModel`. -/
structure productCollectionResourceModel where
  ID : TfString
  Title : TfString
  Handle : TfString
  deriving DecidableEq, Repr

/-- The method `productCollectionResourceModel.toCreateInput`. -/
def productCollectionResourceModel.toCreateInput (m : productCollectionResourceModel) :
    medusa.AdminPostCollectionsReq :=
  { Title := m.Title.ValueString
    Handle := m.Handle.ValueStringPointer }

/-- The method `productCollectionResourceModel.toUpdateInput`. -/
def productCollectionResourceModel.toUpdateInput (m : productCollectionResourceModel) :
    medusa.AdminPostCollectionsCollectionReq :=
  { Title := m.Title.ValueStringPointer
    Handle := m.Handle.ValueStringPointer }

/-- The method `productCollectionResourceModel.fromRemote`. -/
def productCollectionResourceModel.fromRemote (m : productCollectionResourceModel)
    (c : Option medusa.AdminCollectionsRes) :
    productCollectionResourceModel × Option GoError :=
  match c with
  | none => (m, some { Error := "product_collection is nil" })
  | some c =>
    ({ m with
        ID := types.StringValue c.Collection.Id
        Title := types.StringValue c.Collection.Title
        Handle := types.StringPointerValue c.Collection.Handle }, none)

/-! ## `internal/customer_group_model.go` -/

/-- The struct `customerGroupResourceModel`. -/
structure customerGroupResourceModel where
  ID : TfString
  Name : TfString
  deriving DecidableEq, Repr

/-- The method `customerGroupResourceModel.toCreateInput`. -/
def customerGroupResourceModel.toCreateInput (m : customerGroupResourceModel) :
    medusa.AdminPostCustomerGroupsReq :=
  { Name := m.Name.ValueString }

/-- The method `customerGroupResourceModel.toUpdateInput`. -/
def customerGroupResourceModel.toUpdateInput (m : customerGroupResourceModel) :
    medusa.AdminPostCustomerGroupsGroupReq :=
  { Name := m.Name.ValueStringPointer }

/-- The method `customerGroupResourceModel.fromRemote`. -/
def customerGroupResourceModel.fromRemote (m : customerGroupResourceModel)
    (c : Option medusa.AdminCustomerGroupsRes) :
    customerGroupResourceModel × Option GoError :=
  match c with
  | none => (m, some { Error := "customer_group is nil" })
  | some c =>
    ({ m with
        ID := types.StringValue c.CustomerGroup.Id
        Name := types.StringValue c.CustomerGroup.Name }, none)


/-! ## The SDK client -/

namespace medusa

/-- The part of `http.Response` that the SDK's response wrappers expose. -/
structure HTTPResponse where
  StatusCode : Int
  Status : String
  deriving DecidableEq, Repr

/-- A response wrapper of the SDK (`PostRegionsResponse`, `GetStoreResponse`, ...), as
`oapi-codegen` generates it: the raw body, the HTTP response and the decoded payload of
a 200 answer. -/
structure ClientResponse (P : Type) where
  Body : String
  HTTPResponse : Option HTTPResponse
  JSON200 : Option P

/-- The generated method `StatusCode()` of a response wrapper: the status code of the HTTP
response, and 0 when there is none. -/
def ClientResponse.StatusCode {P : Type} (r : ClientResponse P) : Int :=
  match r.HTTPResponse with
  | some h => h.StatusCode
  | none => 0

/-- What a method of the client returns: a pointer to a response wrapper and an error. -/
abbrev Answer (P : Type) := Option (ClientResponse P) × Option GoError

/-- The methods of `ClientWithResponsesInterface` that the resources call, each with its
arguments other than the context and the nil `params`; the index is the payload type of
the answer. -/
inductive RemoteCall : Type → Type 1 where
  | PostRegionsWithResponse (body : AdminPostRegionsReq) : RemoteCall AdminRegionsRes
  | GetRegionsRegionWithResponse (id : String) : RemoteCall AdminRegionsRes
  | PostRegionsRegionWithResponse (id : String) (body : AdminPostRegionsRegionReq) :
      RemoteCall AdminRegionsRes
  | DeleteRegionsRegionWithResponse (id : String) : RemoteCall DeleteRes
  | PostStoreWithResponse (body : AdminPostStoreReq) : RemoteCall AdminStoresRes
  | GetStoreWithResponse : RemoteCall AdminExtendedStoresRes
  | PostSalesChannelsWithResponse (body : AdminPostSalesChannelsReq) :
      RemoteCall AdminSalesChannelsRes
  | GetSalesChannelsSalesChannelWithResponse (id : String) : RemoteCall AdminSalesChannelsRes
  | PostSalesChannelsSalesChannelWithResponse (id : String)
      (body : AdminPostSalesChannelsSalesChannelReq) : RemoteCall AdminSalesChannelsRes
  | DeleteSalesChannelsSalesChannelWithResponse (id : String) : RemoteCall DeleteRes
  | PostCollectionsWithResponse (body : AdminPostCollectionsReq) :
      RemoteCall AdminCollectionsRes
  | GetCollectionsCollectionWithResponse (id : String) : RemoteCall AdminCollectionsRes
  | PostCollectionsCollectionWithResponse (id : String)
      (body : AdminPostCollectionsCollectionReq) : RemoteCall AdminCollectionsRes
  | DeleteCollectionsCollectionWithResponse (id : String) : RemoteCall DeleteRes
  | PostProductCategoriesWithResponse (body : AdminPostProductCategoriesReq) :
      RemoteCall AdminProductCategoriesCategoryRes
  | GetProductCategoriesCategoryWithResponse (id : String) :
      RemoteCall AdminProductCategoriesCategoryRes
  | PostProductCategoriesCategoryWithResponse (id : String)
      (body : AdminPostProductCategoriesCategoryReq) :
      RemoteCall AdminProductCategoriesCategoryRes
  | DeleteProductCategoriesCategoryWithResponse (id : String) : RemoteCall DeleteRes
  | PostShippingProfilesWithResponse (body : AdminPostShippingProfilesReq) :
      RemoteCall AdminShippingProfilesRes
  | GetShippingProfilesProfileWithResponse (id : String) :
      RemoteCall AdminShippingProfilesRes
  | PostShippingProfilesProfileWithResponse (id : String)
      (body : AdminPostShippingProfilesProfileReq) : RemoteCall AdminShippingProfilesRes
  | DeleteShippingProfilesProfileWithResponse (id : String) : RemoteCall DeleteRes
  | PostCustomerGroupsWithResponse (body : AdminPostCustomerGroupsReq) :
      RemoteCall AdminCustomerGroupsRes
  | GetCustomerGroupsGroupWithResponse (id : String) : RemoteCall AdminCustomerGroupsRes
  | PostCustomerGroupsGroupWithResponse (id : String)
      (body : AdminPostCustomerGroupsGroupReq) : RemoteCall AdminCustomerGroupsRes
  | DeleteCustomerGroupsCustomerGroupWithResponse (id : String) : RemoteCall DeleteRes

/-- A call together with its payload type, as an entry of the list of calls issued. -/
structure IssuedCall where
  Payload : Type
  call : RemoteCall Payload

/-- An implementation of `ClientWithResponsesInterface`: what it answers to each call. -/
structure ClientWithResponsesInterface where
  send : {P : Type} → RemoteCall P → Answer P

/-- A pointer to a response wrapper, seen as a value of the interface `ApiResponse`: on the
nil pointer the method `StatusCode()`, which has a value receiver, panics. -/
def asApiResponse {P : Type} (content : Option (ClientResponse P)) : ApiResponse :=
  match content with
  | none => { StatusCode := .error Panic.nilDereference, reflectValue := ReflectValue.nilPtr }
  | some r =>
    { StatusCode := .ok r.StatusCode
      reflectValue := ReflectValue.ptrTo (ReflectValue.structVal
        [{ name := "Body", canInterface := true, content := FieldContent.byteSlice r.Body },
         { name := "HTTPResponse", canInterface := true, content := FieldContent.otherType },
         { name := "JSON200", canInterface := true, content := FieldContent.otherType }]) }

end medusa

/-! ## terraform-plugin-framework: diagnostics, state and requests -/

namespace diag

/-- The method `Diagnostics.HasError`. -/
def HasError (diags : List Diagnostic) : Bool :=
  diags.any (fun d => d.severity == Severity.error)

/-- The method `Diagnostics.Append`: each new diagnostic is added at the end unless an
equal one is already in the collection. -/
def Append (diags : List Diagnostic) (new : List Diagnostic) : List Diagnostic :=
  new.foldl (fun acc d => if acc.contains d then acc else acc ++ [d]) diags

/-- The method `Diagnostics.AddError`. -/
def AddError (diags : List Diagnostic) (summary detail : String) : List Diagnostic :=
  Append diags [NewErrorDiagnostic summary detail]

end diag

namespace tfsdk

/-- The conversions of the framework between the raw plan or state that the host
supplies and a model struct `M`: what `Plan.Get` and `State.Get` decode, with the
diagnostics they return, and what `State.Set` encodes. -/
structure Codec (Raw M : Type) where
  Get : Raw → List Diagnostic × M
  Set : M → List Diagnostic × Raw

/-- The method `State.Set`: the state is replaced unless the encoding reports an error. -/
def StateSet {Raw M : Type} (codec : Codec Raw M) (state : Raw) (val : M) :
    List Diagnostic × Raw :=
  let r := codec.Set val
  if diag.HasError r.1 then (r.1, state) else (r.1, r.2)

end tfsdk

namespace resource

/-- The data of `resource.CreateRequest` that the resources read. -/
structure CreateRequest (Raw : Type) where
  Plan : Raw

/-- The data of `resource.ReadRequest` that the resources read. -/
structure ReadRequest (Raw : Type) where
  State : Raw

/-- The data of `resource.UpdateRequest` that the resources read. -/
structure UpdateRequest (Raw : Type) where
  Plan : Raw
  State : Raw

/-- The data of `resource.DeleteRequest` that the resources read. -/
structure DeleteRequest (Raw : Type) where
  State : Raw

/-- The response of a resource operation (`CreateResponse`, `ReadResponse`,
`UpdateResponse`, `DeleteResponse`): the state reported to the host, which the host
fills in before the call, and the diagnostics. -/
structure Response (Raw : Type) where
  State : Raw
  Diagnostics : List Diagnostic

end resource

/-- What a resource operation leaves behind: the response, and the remote calls it
issued, in order. -/
structure Outcome (Raw : Type) where
  resp : resource.Response Raw
  calls : List medusa.IssuedCall


/-! ## The resources: `internal/*_resource.go`

The seven resource files repeat one pattern for `Create`, `Read`, `Update` and `Delete`.
`ResourceKind` holds what differs from file to file; the four operations are written
once over it. -/

/-- What one resource file fixes: the entity name given to the classifiers and used in the
decode diagnostics of `Create` and `Update`, the title used in the decode diagnostic of
`Read`, the model struct, the client method each operation calls with its arguments, and
the decoder each operation applies to the payload. -/
structure ResourceKind where
  name : String
  title : String
  Model : Type
  CreatePayload : Type
  ReadPayload : Type
  UpdatePayload : Type
  DeletePayload : Type
  ID : Model → TfString
  createCall : Model → medusa.RemoteCall CreatePayload
  readCall : Model → medusa.RemoteCall ReadPayload
  updateCall : Model → medusa.RemoteCall UpdatePayload
  deleteCall : Model → medusa.RemoteCall DeletePayload
  fromCreate : Model → Option CreatePayload → Except Panic (Model × Option GoError)
  fromRead : Model → Option ReadPayload → Except Panic (Model × Option GoError)
  fromUpdate : Model → Option UpdatePayload → Except Panic (Model × Option GoError)

/-- The method `Create` of a resource. `client` is the field `r.client`, nil when the
resource was never configured. -/
def ResourceKind.Create (K : ResourceKind) {Raw : Type} (codec : tfsdk.Codec Raw K.Model)
    (client : Option medusa.ClientWithResponsesInterface)
    (req : resource.CreateRequest Raw) (resp : resource.Response Raw) :
    Except Panic (Outcome Raw) :=
  let got := codec.Get req.Plan
  let plan := got.2
  let resp : resource.Response Raw :=
    { resp with Diagnostics := diag.Append resp.Diagnostics got.1 }
  if diag.HasError resp.Diagnostics then .ok { resp := resp, calls := [] }
  else
    match client with
    | none => .error Panic.nilDereference
    | some c =>
      let call := K.createCall plan
      let answer := c.send call
      match utils.CheckCreateError K.name (medusa.asApiResponse answer.1) answer.2 with
      | .error p => .error p
      | .ok (some d) =>
        .ok { resp := { resp with Diagnostics := diag.Append resp.Diagnostics [d] }
              calls := [{ Payload := K.CreatePayload, call := call }] }
      | .ok none =>
        match answer.1 with
        | none => .error Panic.nilDereference
        | some content =>
          match K.fromCreate plan content.JSON200 with
          | .error p => .error p
          | .ok (_, some err) =>
            let diags := diag.AddError resp.Diagnostics
              ("Error creating " ++ K.name)
              ("Could not create " ++ K.name ++ ", unexpected error: " ++ err.Error)
            .ok { resp := { resp with Diagnostics := diags }
                  calls := [{ Payload := K.CreatePayload, call := call }] }
          | .ok (plan, none) =>
            let set := tfsdk.StateSet codec resp.State plan
            .ok { resp := { State := set.2
                            Diagnostics := diag.Append resp.Diagnostics set.1 }
                  calls := [{ Payload := K.CreatePayload, call := call }] }

/-- The method `Read` of a resource. -/
def ResourceKind.Read (K : ResourceKind) {Raw : Type} (codec : tfsdk.Codec Raw K.Model)
    (client : Option medusa.ClientWithResponsesInterface)
    (req : resource.ReadRequest Raw) (resp : resource.Response Raw) :
    Except Panic (Outcome Raw) :=
  let got := codec.Get req.State
  let state := got.2
  let resp : resource.Response Raw :=
    { resp with Diagnostics := diag.Append resp.Diagnostics got.1 }
  if diag.HasError resp.Diagnostics then .ok { resp := resp, calls := [] }
  else
    match client with
    | none => .error Panic.nilDereference
    | some c =>
      let call := K.readCall state
      let answer := c.send call
      match utils.CheckGetError K.name (K.ID state).ValueString
          (medusa.asApiResponse answer.1) answer.2 with
      | .error p => .error p
      | .ok (some d) =>
        .ok { resp := { resp with Diagnostics := diag.Append resp.Diagnostics [d] }
              calls := [{ Payload := K.ReadPayload, call := call }] }
      | .ok none =>
        match answer.1 with
        | none => .error Panic.nilDereference
        | some content =>
          match K.fromRead state content.JSON200 with
          | .error p => .error p
          | .ok (state, some err) =>
            let diags := diag.AddError resp.Diagnostics
              ("Error reading " ++ K.title)
              ("Could not read " ++ K.title ++ " " ++ (K.ID state).ValueString ++ ": "
                ++ err.Error)
            .ok { resp := { resp with Diagnostics := diags }
                  calls := [{ Payload := K.ReadPayload, call := call }] }
          | .ok (state, none) =>
            let set := tfsdk.StateSet codec resp.State state
            .ok { resp := { State := set.2
                            Diagnostics := diag.Append resp.Diagnostics set.1 }
                  calls := [{ Payload := K.ReadPayload, call := call }] }

/-- The method `Update` of a resource. -/
def ResourceKind.Update (K : ResourceKind) {Raw : Type} (codec : tfsdk.Codec Raw K.Model)
    (client : Option medusa.ClientWithResponsesInterface)
    (req : resource.UpdateRequest Raw) (resp : resource.Response Raw) :
    Except Panic (Outcome Raw) :=
  let got := codec.Get req.Plan
  let plan := got.2
  let resp : resource.Response Raw :=
    { resp with Diagnostics := diag.Append resp.Diagnostics got.1 }
  if diag.HasError resp.Diagnostics then .ok { resp := resp, calls := [] }
  else
    match client with
    | none => .error Panic.nilDereference
    | some c =>
      let call := K.updateCall plan
      let answer := c.send call
      match utils.CheckUpdateError K.name (medusa.asApiResponse answer.1) answer.2 with
      | .error p => .error p
      | .ok (some d) =>
        .ok { resp := { resp with Diagnostics := diag.Append resp.Diagnostics [d] }
              calls := [{ Payload := K.UpdatePayload, call := call }] }
      | .ok none =>
        match answer.1 with
        | none => .error Panic.nilDereference
        | some content =>
          match K.fromUpdate plan content.JSON200 with
          | .error p => .error p
          | .ok (_, some err) =>
            let diags := diag.AddError resp.Diagnostics
              ("Error creating " ++ K.name)
              ("Could not create " ++ K.name ++ ", unexpected error: " ++ err.Error)
            .ok { resp := { resp with Diagnostics := diags }
                  calls := [{ Payload := K.UpdatePayload, call := call }] }
          | .ok (plan, none) =>
            let set := tfsdk.StateSet codec resp.State plan
            .ok { resp := { State := set.2
                            Diagnostics := diag.Append resp.Diagnostics set.1 }
                  calls := [{ Payload := K.UpdatePayload, call := call }] }

/-- The method `Delete` of a resource. -/
def ResourceKind.Delete (K : ResourceKind) {Raw : Type} (codec : tfsdk.Codec Raw K.Model)
    (client : Option medusa.ClientWithResponsesInterface)
    (req : resource.DeleteRequest Raw) (resp : resource.Response Raw) :
    Except Panic (Outcome Raw) :=
  let got := codec.Get req.State
  let state := got.2
  let resp : resource.Response Raw :=
    { resp with Diagnostics := diag.Append resp.Diagnostics got.1 }
  if diag.HasError resp.Diagnostics then .ok { resp := resp, calls := [] }
  else
    match client with
    | none => .error Panic.nilDereference
    | some c =>
      let call := K.deleteCall state
      let answer := c.send call
      match utils.CheckDeleteError K.name (medusa.asApiResponse answer.1) answer.2 with
      | .error p => .error p
      | .ok (some d) =>
        .ok { resp := { resp with Diagnostics := diag.Append resp.Diagnostics [d] }
              calls := [{ Payload := K.DeletePayload, call := call }] }
      | .ok none =>
        .ok { resp := resp, calls := [{ Payload := K.DeletePayload, call := call }] }

/-- The value of type `any` that the provider hands to a resource as `ProviderData`: a
client, or a value of some other type. -/
inductive ProviderData where
  | client (c : medusa.ClientWithResponsesInterface)
  | other

namespace utils

/-- The function `GetClient` of `client.go`. -/
def GetClient (data : ProviderData) : Except Panic medusa.ClientWithResponsesInterface :=
  match data with
  | .client c => .ok c
  | .other => .error Panic.invalidClientType

end utils

/-- The method `Configure` of a resource: the field `r.client` after the call, given the
field before it and `req.ProviderData`, nil when the provider is not configured yet. -/
def ResourceKind.Configure (_K : ResourceKind)
    (client : Option medusa.ClientWithResponsesInterface)
    (providerData : Option ProviderData) :
    Except Panic (Option medusa.ClientWithResponsesInterface) :=
  match providerData with
  | none => .ok client
  | some data =>
    match utils.GetClient data with
    | .error p => .error p
    | .ok c => .ok (some c)


/-- The resource of `region_resource.go`. -/
def regionResource : ResourceKind where
  name := "region"
  title := "Region"
  Model := regionResourceModel
  CreatePayload := medusa.AdminRegionsRes
  ReadPayload := medusa.AdminRegionsRes
  UpdatePayload := medusa.AdminRegionsRes
  DeletePayload := medusa.DeleteRes
  ID := fun m => m.ID
  createCall := fun plan => medusa.RemoteCall.PostRegionsWithResponse plan.toCreateInput
  readCall := fun state => medusa.RemoteCall.GetRegionsRegionWithResponse state.ID.ValueString
  updateCall := fun plan =>
    medusa.RemoteCall.PostRegionsRegionWithResponse plan.ID.ValueString plan.toUpdateInput
  deleteCall := fun state =>
    medusa.RemoteCall.DeleteRegionsRegionWithResponse state.ID.ValueString
  fromCreate := fun plan c => plan.fromRemote c
  fromRead := fun state c => state.fromRemote c
  fromUpdate := fun plan c => plan.fromRemote c

/-- The resource of `store_resource.go`: `Create`, `Update` and `Delete` all call
`PostStoreWithResponse`, and `Read` calls `GetStoreWithResponse` without an id. -/
def storeResource : ResourceKind where
  name := "store"
  title := "Store"
  Model := storeResourceModel
  CreatePayload := medusa.AdminStoresRes
  ReadPayload := medusa.AdminExtendedStoresRes
  UpdatePayload := medusa.AdminStoresRes
  DeletePayload := medusa.AdminStoresRes
  ID := fun m => m.ID
  createCall := fun plan => medusa.RemoteCall.PostStoreWithResponse plan.toUpdateInput
  readCall := fun _ => medusa.RemoteCall.GetStoreWithResponse
  updateCall := fun plan => medusa.RemoteCall.PostStoreWithResponse plan.toUpdateInput
  deleteCall := fun state => medusa.RemoteCall.PostStoreWithResponse state.toDeleteInput
  fromCreate := fun plan c => .ok (plan.fromUpdateRemote c)
  fromRead := fun state c => .ok (state.fromGetRemote c)
  fromUpdate := fun plan c => .ok (plan.fromUpdateRemote c)

/-- The resource of `sales_channel_resource.go`. -/
def salesChannelResource : ResourceKind where
  name := "sales_channel"
  title := "Sales Channel"
  Model := salesChannelResourceModel
  CreatePayload := medusa.AdminSalesChannelsRes
  ReadPayload := medusa.AdminSalesChannelsRes
  UpdatePayload := medusa.AdminSalesChannelsRes
  DeletePayload := medusa.DeleteRes
  ID := fun m => m.ID
  createCall := fun plan => medusa.RemoteCall.PostSalesChannelsWithResponse plan.toCreateInput
  readCall := fun state =>
    medusa.RemoteCall.GetSalesChannelsSalesChannelWithResponse state.ID.ValueString
  updateCall := fun plan =>
    medusa.RemoteCall.PostSalesChannelsSalesChannelWithResponse plan.ID.ValueString
      plan.toUpdateInput
  deleteCall := fun state =>
    medusa.RemoteCall.DeleteSalesChannelsSalesChannelWithResponse state.ID.ValueString
  fromCreate := fun plan c => .ok (plan.fromRemote c)
  fromRead := fun state c => .ok (state.fromRemote c)
  fromUpdate := fun plan c => .ok (plan.fromRemote c)

/-- The resource of `product_collection_resource.go`. -/
def productCollectionResource : ResourceKind where
  name := "product_collection"
  title := "Product Collection"
  Model := productCollectionResourceModel
  CreatePayload := medusa.AdminCollectionsRes
  ReadPayload := medusa.AdminCollectionsRes
  UpdatePayload := medusa.AdminCollectionsRes
  DeletePayload := medusa.DeleteRes
  ID := fun m => m.ID
  createCall := fun plan => medusa.RemoteCall.PostCollectionsWithResponse plan.toCreateInput
  readCall := fun state =>
    medusa.RemoteCall.GetCollectionsCollectionWithResponse state.ID.ValueString
  updateCall := fun plan =>
    medusa.RemoteCall.PostCollectionsCollectionWithResponse plan.ID.ValueString
      plan.toUpdateInput
  deleteCall := fun state =>
    medusa.RemoteCall.DeleteCollectionsCollectionWithResponse state.ID.ValueString
  fromCreate := fun plan c => .ok (plan.fromRemote c)
  fromRead := fun state c => .ok (state.fromRemote c)
  fromUpdate := fun plan c => .ok (plan.fromRemote c)

/-- The resource of `product_category_resource.go`. -/
def productCategoryResource : ResourceKind where
  name := "product_category"
  title := "Product Category"
  Model := productCategoryResourceModel
  CreatePayload := medusa.AdminProductCategoriesCategoryRes
  ReadPayload := medusa.AdminProductCategoriesCategoryRes
  UpdatePayload := medusa.AdminProductCategoriesCategoryRes
  DeletePayload := medusa.DeleteRes
  ID := fun m => m.ID
  createCall := fun plan =>
    medusa.RemoteCall.PostProductCategoriesWithResponse plan.toCreateInput
  readCall := fun state =>
    medusa.RemoteCall.GetProductCategoriesCategoryWithResponse state.ID.ValueString
  updateCall := fun plan =>
    medusa.RemoteCall.PostProductCategoriesCategoryWithResponse plan.ID.ValueString
      plan.toUpdateInput
  deleteCall := fun state =>
    medusa.RemoteCall.DeleteProductCategoriesCategoryWithResponse state.ID.ValueString
  fromCreate := fun plan c => .ok (plan.fromRemote c)
  fromRead := fun state c => .ok (state.fromRemote c)
  fromUpdate := fun plan c => .ok (plan.fromRemote c)

/-- The resource of `shipping_profile_resource.go`. -/
def shippingProfileResource : ResourceKind where
  name := "shipping_profile"
  title := "Shipping Profile"
  Model := shippingProfileResourceModel
  CreatePayload := medusa.AdminShippingProfilesRes
  ReadPayload := medusa.AdminShippingProfilesRes
  UpdatePayload := medusa.AdminShippingProfilesRes
  DeletePayload := medusa.DeleteRes
  ID := fun m => m.ID
  createCall := fun plan =>
    medusa.RemoteCall.PostShippingProfilesWithResponse plan.toCreateInput
  readCall := fun state =>
    medusa.RemoteCall.GetShippingProfilesProfileWithResponse state.ID.ValueString
  updateCall := fun plan =>
    medusa.RemoteCall.PostShippingProfilesProfileWithResponse plan.ID.ValueString
      plan.toUpdateInput
  deleteCall := fun state =>
    medusa.RemoteCall.DeleteShippingProfilesProfileWithResponse state.ID.ValueString
  fromCreate := fun plan c => .ok (plan.fromRemote c)
  fromRead := fun state c => .ok (state.fromRemote c)
  fromUpdate := fun plan c => .ok (plan.fromRemote c)

/-- The resource of `customer_group_resource.go`. -/
def customerGroupResource : ResourceKind where
  name := "customer_group"
  title := "Customer Group"
  Model := customerGroupResourceModel
  CreatePayload := medusa.AdminCustomerGroupsRes
  ReadPayload := medusa.AdminCustomerGroupsRes
  UpdatePayload := medusa.AdminCustomerGroupsRes
  DeletePayload := medusa.DeleteRes
  ID := fun m => m.ID
  createCall := fun plan => medusa.RemoteCall.PostCustomerGroupsWithResponse plan.toCreateInput
  readCall := fun state =>
    medusa.RemoteCall.GetCustomerGroupsGroupWithResponse state.ID.ValueString
  updateCall := fun plan =>
    medusa.RemoteCall.PostCustomerGroupsGroupWithResponse plan.ID.ValueString
      plan.toUpdateInput
  deleteCall := fun state =>
    medusa.RemoteCall.DeleteCustomerGroupsCustomerGroupWithResponse state.ID.ValueString
  fromCreate := fun plan c => .ok (plan.fromRemote c)
  fromRead := fun state c => .ok (state.fromRemote c)
  fromUpdate := fun plan c => .ok (plan.fromRemote c)

/-- The seven entity kinds for which the repository has a resource file. -/
def resourceKinds : List ResourceKind :=
  [regionResource, storeResource, salesChannelResource, productCollectionResource,
   productCategoryResource, shippingProfileResource, customerGroupResource]


/-! ## `net/http`: clients and transports -/

/-- The method `http.Header.Set`: the entry under the canonical form of the key is replaced
by the single value. -/
def Header.Set (h : Header) (key value : String) : Header :=
  h.filter (fun entry => entry.1 != CanonicalMIMEHeaderKey key)
    ++ [(CanonicalMIMEHeaderKey key, [value])]

/-- The values of `http.RoundTripper` that the provider assembles. -/
inductive RoundTripper where
  /-- The nil interface value. -/
  | nil
  /-- The transport `http.DefaultTransport`. -/
  | DefaultTransport
  /-- The round tripper of `retryablehttp`'s `StandardClient()`, for a retry client with
  this `RetryMax`. -/
  | retryable (RetryMax : Int)
  /-- The `LogTransport` of `debug.go` around an inner transport. -/
  | LogTransport (transport : RoundTripper)
  /-- The recorder of `go-vcr` for a cassette and a mode; it is its own transport. -/
  | recorder (CassetteName : String) (Mode : Int)
  deriving DecidableEq, Repr

/-- An `http.Client`, by its transport. -/
structure HttpClient where
  Transport : RoundTripper
  deriving DecidableEq, Repr

/-- The function `NewDebugTransport` of `debug.go`. -/
def NewDebugTransport (innerTransport : RoundTripper) : RoundTripper :=
  RoundTripper.LogTransport innerTransport

/-! ## The SDK: building a client, and the login call -/

namespace medusa

/-- The SDK type `PostTokenJSONRequestBody`. -/
structure PostTokenJSONRequestBody where
  Email : String
  Password : String
  deriving DecidableEq, Repr

/-- The payload of a 200 answer to `PostToken`, with the field the provider reads. -/
structure AdminBearerAuthRes where
  AccessToken : Option String
  deriving DecidableEq, Repr

/-- The generated method `Status()` of a response wrapper: the status text of the HTTP
response, and `http.StatusText(0)`, the empty string, when there is none. -/
def ClientResponse.Status {P : Type} (r : ClientResponse P) : String :=
  match r.HTTPResponse with
  | some h => h.Status
  | none => ""

/-- The SDK struct `Client`, which `ClientWithResponses` wraps: the server URL, the HTTP
client that performs the requests (nil until one is set) and the request editors, each a
change to the headers of an outgoing request. -/
structure Client where
  Server : String
  /-- The field `Client`. -/
  Client_ : Option HttpClient
  RequestEditors : List (Header → Header)

/-- The SDK type `ClientOption`: a change to the client under construction, and an error. -/
abbrev ClientOption := Client → Client × Option GoError

/-- The SDK option `WithHTTPClient`. -/
def WithHTTPClient (doer : HttpClient) : ClientOption :=
  fun c => ({ c with Client_ := some doer }, none)

/-- The SDK option `WithRequestEditorFn`. -/
def WithRequestEditorFn (fn : Header → Header) : ClientOption :=
  fun c => ({ c with RequestEditors := c.RequestEditors ++ [fn] }, none)

/-- The loop of `NewClient` over its options, which stops at the first error. -/
def applyOptions : List ClientOption → Client → Client × Option GoError
  | [], c => (c, none)
  | o :: rest, c =>
    match o c with
    | (_, some err) => (c, some err)
    | (c, none) => applyOptions rest c

/-- The SDK functions `NewClient` and `NewClientWithResponses`, as `oapi-codegen`
generates them: the options are applied to a client that holds the server URL, a slash is
added to a URL that does not end in one, and a client left without an HTTP client gets
`&http.Client{}`, whose transport is nil. -/
def NewClientWithResponses (server : String) (opts : List ClientOption) :
    Option Client × Option GoError :=
  match applyOptions opts { Server := server, Client_ := none, RequestEditors := [] } with
  | (_, some err) => (none, some err)
  | (client, none) =>
    let client :=
      if client.Server.toList.getLast? = some '/' then client
      else { client with Server := client.Server ++ "/" }
    let client :=
      match client.Client_ with
      | none => { client with Client_ := some { Transport := RoundTripper.nil } }
      | some _ => client
    (some client, none)

/-- The headers of an outgoing request after the request editors of the client. -/
def Client.editedHeaders (c : Client) (h : Header) : Header :=
  c.RequestEditors.foldl (fun acc fn => fn acc) h

/-- What a call of the SDK method `PostTokenWithResponse` comes to. The method builds the
request first and fails without sending anything when that fails: the body does not
marshal because `types.Email` rejects the address, the URL does not parse, a request
editor fails, or the HTTP client refuses the URL. Otherwise the request is sent, and the
exchange gives an answer, a response or a transport error. -/
inductive PostTokenResult where
  | notSent (err : GoError)
  | sent (answer : Answer AdminBearerAuthRes)

/-- What `PostTokenWithResponse` returns to its caller: the error when the request was
not sent, otherwise the answer of the exchange. -/
def PostTokenResult.answer : PostTokenResult → Answer AdminBearerAuthRes
  | .notSent err => (none, some err)
  | .sent answer => answer

/-- The request of the call left the process. -/
def PostTokenResult.isSent : PostTokenResult → Bool
  | .notSent _ => false
  | .sent _ => true

/-- What the SDK and the remote side make of the login call `PostTokenWithResponse`
issued by a given client with a given body. -/
abbrev TokenEndpoint := Client → PostTokenJSONRequestBody → PostTokenResult

end medusa

namespace securityprovider

/-- The method `Intercept` of the bearer-token security provider of `oapi-codegen`:
`req.Header.Set("Authorization", "Bearer " + token)`. -/
def Intercept (token : String) (h : Header) : Header :=
  h.Set "Authorization" ("Bearer " ++ token)

end securityprovider

/-! ## `internal/provider.go` -/

/-- The struct `medusaProvider`. -/
structure medusaProvider where
  httpClient : HttpClient
  deriving DecidableEq, Repr

/-- The type `OptionFunc`: a change to the provider under construction. -/
abbrev OptionFunc := medusaProvider → medusaProvider

/-- The function `WithRetryableClient`. -/
def WithRetryableClient (retries : Int) : OptionFunc :=
  fun _p => { httpClient := { Transport := RoundTripper.retryable retries } }

/-- The function `WithDebugClient`. -/
def WithDebugClient : OptionFunc :=
  fun p => { httpClient := { Transport := NewDebugTransport p.httpClient.Transport } }

/-- The option that `WithRecorderClient` returns: the HTTP client becomes the default
client of the recorder. -/
def WithRecorderClient (file : String) (mode : Int) : OptionFunc :=
  fun _p => { httpClient := { Transport := RoundTripper.recorder file mode } }

/-- The function `New`. -/
def New (opts : List OptionFunc) : medusaProvider :=
  opts.foldl (fun p opt => opt p) { httpClient := { Transport := RoundTripper.DefaultTransport } }

/-- The struct `medusaProviderModel`. -/
structure medusaProviderModel where
  URL : TfString
  Email : TfString
  Password : TfString
  deriving DecidableEq, Repr

/-- The function `login`. `client` is nil when the client could not be created. -/
def login (post : medusa.TokenEndpoint) (client : Option medusa.Client)
    (credentials : medusa.PostTokenJSONRequestBody) : Except Panic (String × Option GoError) :=
  match client with
  | none => .error Panic.nilDereference
  | some c =>
    let answer := (post c credentials).answer
    match answer.2 with
    | some err => .ok ("", some err)
    | none =>
      match answer.1 with
      | none => .error Panic.nilDereference
      | some resp =>
        if resp.StatusCode ≠ 200 then
          .ok ("", some { Error := "login failed: " ++ resp.Status })
        else
          match resp.JSON200 with
          | none => .error Panic.nilDereference
          | some payload =>
            match payload.AccessToken with
            | none => .error Panic.nilDereference
            | some token => .ok (token, none)

namespace provider

/-- The data of `provider.ConfigureRequest` that the provider reads. -/
structure ConfigureRequest (Raw : Type) where
  Config : Raw

/-- The response `provider.ConfigureResponse`: the diagnostics, and the values handed to
the data sources and to the resources, nil while unset. -/
structure ConfigureResponse where
  Diagnostics : List Diagnostic
  DataSourceData : Option medusa.Client
  ResourceData : Option medusa.Client

end provider

/-- A login call: the client on which `PostTokenWithResponse` is called and the body it
is given. -/
structure LoginCall where
  client : medusa.Client
  body : medusa.PostTokenJSONRequestBody

/-- What `Configure` leaves behind: the response, the calls of `PostTokenWithResponse`
it made, and among these the remote calls, those whose request was sent. -/
structure ConfigureOutcome where
  resp : provider.ConfigureResponse
  logins : List LoginCall
  calls : List LoginCall

/-- The url, email and password that `Configure` works with: the value of the environment
variable, replaced by the configuration's value when that attribute is not null. `env` is
`os.Getenv`. -/
def Configure.settings (env : String → String) (config : medusaProviderModel) :
    String × String × String :=
  let url := env "MEDUSA_URL"
  let email := env "MEDUSA_ADMIN_EMAIL"
  let password := env "MEDUSA_ADMIN_PASSWORD"
  let url := if !config.URL.IsNull then config.URL.ValueString else url
  let email := if !config.Email.IsNull then config.Email.ValueString else email
  let password := if !config.Password.IsNull then config.Password.ValueString else password
  (url, email, password)

/-- The method `medusaProvider.Configure`. `env` is `os.Getenv`, `post` what the SDK and
the remote side make of the login call, `Get` the decoding `req.Config.Get` of the
framework. Two checks of the
source have no branch here: the second `resp.Diagnostics.HasError()`, before which no
diagnostic is added, and the error of `NewSecurityProviderBearerToken`, which is always
nil. The receiver is not read: the body never mentions `p.httpClient`. -/
def medusaProvider.Configure (_p : medusaProvider) {Raw : Type} (env : String → String)
    (post : medusa.TokenEndpoint) (Get : Raw → List Diagnostic × medusaProviderModel)
    (req : provider.ConfigureRequest Raw) (resp : provider.ConfigureResponse) :
    Except Panic ConfigureOutcome :=
  let got := Get req.Config
  let config := got.2
  let resp : provider.ConfigureResponse :=
    { resp with Diagnostics := diag.Append resp.Diagnostics got.1 }
  if diag.HasError resp.Diagnostics then .ok { resp := resp, logins := [], calls := [] }
  else
    let settings := Configure.settings env config
    let url := settings.1
    let email := settings.2.1
    let password := settings.2.2
    let created := medusa.NewClientWithResponses url []
    let client := created.1
    let resp : provider.ConfigureResponse :=
      match created.2 with
      | some err =>
        let diags := diag.AddError resp.Diagnostics "Unable to Create Medusa API Client"
          err.Error
        { resp with Diagnostics := diags }
      | none => resp
    let credentials : medusa.PostTokenJSONRequestBody := { Email := email, Password := password }
    match login post client credentials with
    | .error p => .error p
    | .ok (token, loginErr) =>
      let logins : List LoginCall :=
        match client with
        | some c => [{ client := c, body := credentials }]
        | none => []
      let calls : List LoginCall :=
        logins.filter (fun call => (post call.client call.body).isSent)
      let resp : provider.ConfigureResponse :=
        match loginErr with
        | some err =>
          let diags := diag.AddError resp.Diagnostics "Unable to Login to Medusa API"
            err.Error
          { resp with Diagnostics := diags }
        | none => resp
      let created := medusa.NewClientWithResponses url
        [medusa.WithRequestEditorFn (securityprovider.Intercept token)]
      match created.2 with
      | some err =>
        let diags := diag.AddError resp.Diagnostics "Unable to Create Medusa API Client"
          ("An unexpected error occurred when creating the Medusa API client. "
            ++ "If the error is not clear, please contact the provider developers.\n\n"
            ++ "Medusa Error: " ++ err.Error)
        .ok { resp := { resp with Diagnostics := diags }, logins := logins, calls := calls }
      | none =>
        .ok { resp := { resp with DataSourceData := created.1, ResourceData := created.1 }
              logins := logins, calls := calls }


/-! ## The entity kinds, one by one -/

/-- The seven entity kinds. -/
inductive EntityKind where
  | region
  | store
  | salesChannel
  | productCollection
  | productCategory
  | shippingProfile
  | customerGroup
  deriving DecidableEq, Repr

/-- The resource of an entity kind. -/
def EntityKind.resource : EntityKind → ResourceKind
  | .region => regionResource
  | .store => storeResource
  | .salesChannel => salesChannelResource
  | .productCollection => productCollectionResource
  | .productCategory => productCategoryResource
  | .shippingProfile => shippingProfileResource
  | .customerGroup => customerGroupResource

/-- The payload of a create answer and the payload of a read answer carry the same entity
values: they are equal, and for the store, whose two payloads are of different types,
their `Store` fields are equal. -/
def sameEntity : (k : EntityKind) → k.resource.CreatePayload → k.resource.ReadPayload → Prop
  | .region => fun (c r : medusa.AdminRegionsRes) => c = r
  | .store => fun (c : medusa.AdminStoresRes) (r : medusa.AdminExtendedStoresRes) =>
      c.Store = r.Store
  | .salesChannel => fun (c r : medusa.AdminSalesChannelsRes) => c = r
  | .productCollection => fun (c r : medusa.AdminCollectionsRes) => c = r
  | .productCategory => fun (c r : medusa.AdminProductCategoriesCategoryRes) => c = r
  | .shippingProfile => fun (c r : medusa.AdminShippingProfilesRes) => c = r
  | .customerGroup => fun (c r : medusa.AdminCustomerGroupsRes) => c = r


/-! ## `internal/debug.go` -/

/-- The constant `logRequestTemplate` with its one verb `%s` filled in, as `fmt.Sprintf`
and `log.Printf` do for a byte slice or an error. -/
def logRequestTemplate (arg : String) : String :=
  "DEBUG:\n---[ REQUEST ]--------------------------------------------------------\n"
    ++ arg ++ "\n----------------------------------------------------------------------\n"

/-- The constant `logResponseTemplate` with its one verb `%s` filled in. -/
def logResponseTemplate (arg : String) : String :=
  "DEBUG:\n---[ RESPONSE ]-------------------------------------------------------\n"
    ++ arg ++ "\n----------------------------------------------------------------------\n"

/-- One message written by the debug transport: by `tflog.Info` or by `log.Printf`. -/
inductive LogEntry where
  | tflogInfo (msg : String)
  | logPrintf (msg : String)
  deriving DecidableEq, Repr

namespace http

/-- The body of a request or of a response, an `io.ReadCloser`, by what reading it to the
end gives: the bytes it still delivers, and the error, if any, with which reading ends in
place of `io.EOF`. A message without body (a nil body, or `http.NoBody`) has the empty
stream. -/
structure Body where
  unread : String
  failure : Option GoError
  deriving DecidableEq, Repr

/-- An `http.Request` as the debug transport meets it: its head (method, URL and headers)
as written on the wire, and its body. -/
structure Request where
  head : String
  Body : Body
  deriving DecidableEq, Repr

/-- An `http.Response` as the debug transport meets it: its head (status line and
headers) as written on the wire, and its body. -/
structure Response where
  head : String
  Body : Body
  deriving DecidableEq, Repr

end http

namespace httputil

/-- The function `drainBody` of `net/http/httputil`: it reads the body to the end and
returns two readers over the bytes read; when reading fails it returns a nil reader, the
body as reading left it, with its bytes consumed, and the error. -/
def drainBody (b : http.Body) : Option http.Body × http.Body × Option GoError :=
  match b.failure with
  | some err => (none, { unread := "", failure := some err }, some err)
  | none =>
    (some { unread := b.unread, failure := none }, { unread := b.unread, failure := none },
      none)

/-- The function `DumpRequestOut` with the body included: the text of the request, or the
error of reading its body, and the request as the call leaves it, with the reader over
the bytes read for a body, or, after a failed read, the body as reading left it. -/
def DumpRequestOut (req : http.Request) : Except GoError String × http.Request :=
  match drainBody req.Body with
  | (_, body, some err) => (.error err, { req with Body := body })
  | (save, body, none) => (.ok (req.head ++ body.unread), { req with Body := save.getD body })

/-- The function `DumpResponse` with the body included: the text of the response, or the
error of reading its body, and the response as the call leaves it. -/
def DumpResponse (resp : http.Response) : Except GoError String × http.Response :=
  match drainBody resp.Body with
  | (_, body, some err) => (.error err, { resp with Body := body })
  | (save, body, none) =>
    (.ok (resp.head ++ body.unread), { resp with Body := save.getD body })

end httputil

/-- The function `logRequest`: the messages it writes, and the request as it leaves it. -/
def logRequest (r : http.Request) : List LogEntry × http.Request :=
  match httputil.DumpRequestOut r with
  | (.error _, r) => ([], r)
  | (.ok body, r) =>
    ([LogEntry.tflogInfo (logRequestTemplate body),
      LogEntry.logPrintf (logRequestTemplate body)], r)

/-- The function `logResponse`: the messages it writes, and the response as it leaves it.
`DumpResponse` is reached with the response pointer `r` when `err` is nil, and
dereferences it. -/
def logResponse (r : Option http.Response) (err : Option GoError) :
    Except Panic (List LogEntry × Option http.Response) :=
  match err with
  | some e =>
    .ok ([LogEntry.tflogInfo (logResponseTemplate e.Error),
          LogEntry.logPrintf (logResponseTemplate e.Error)], r)
  | none =>
    match r with
    | none => .error Panic.nilDereference
    | some r =>
      match httputil.DumpResponse r with
      | (.error _, r) => .ok ([], some r)
      | (.ok body, r) =>
        .ok ([LogEntry.tflogInfo (logResponseTemplate body),
              LogEntry.logPrintf (logResponseTemplate body)], some r)

/-- What a call of `LogTransport.RoundTrip` leaves behind: the response and the error it
returns, the requests with which it called the inner transport, in order, each as it was
at the call, and the messages it wrote. -/
structure RoundTripOutcome where
  response : Option http.Response
  err : Option GoError
  innerCalls : List http.Request
  log : List LogEntry
  deriving DecidableEq, Repr

/-- The method `LogTransport.RoundTrip`. `env` is the process environment read by
`os.Getenv`, `transport` the field `c.transport`, `none` for the nil interface, otherwise
what the inner transport answers to a request, and `request` the request, a non-nil
pointer. The request and the response are pointers: the inner transport gets the request
as `logRequest` left it, and the caller the response as `logResponse` left it. -/
def LogTransport.RoundTrip (env : String → String)
    (transport : Option (http.Request → Option http.Response × Option GoError))
    (request : http.Request) : Except Panic RoundTripOutcome :=
  let logged := if env "SB_DEBUG" ≠ "" then logRequest request else ([], request)
  match transport with
  | none => .error Panic.nilDereference
  | some inner =>
    let answer := inner logged.2
    if env "SB_DEBUG" ≠ "" then
      match logResponse answer.1 answer.2 with
      | .error p => .error p
      | .ok (more, response) =>
        .ok { response := response, err := answer.2, innerCalls := [logged.2]
              log := logged.1 ++ more }
    else
      .ok { response := answer.1, err := answer.2, innerCalls := [logged.2]
            log := logged.1 }

/-! ## `internal/provider.go`: the resources registered, and the options as data -/

/-- The method `Resources` of the provider: the resources whose constructors it lists. -/
def medusaProvider.Resources (_p : medusaProvider) : List ResourceKind :=
  [regionResource]

/-- The options of `provider.go`, as data. -/
inductive ProviderOption where
  | WithRetryableClient (retries : Int)
  | WithDebugClient
  | WithRecorderClient (file : String) (mode : Int)
  deriving DecidableEq, Repr

/-- The `OptionFunc` that an option stands for. -/
def ProviderOption.apply : ProviderOption → OptionFunc
  | .WithRetryableClient retries => Medusa.WithRetryableClient retries
  | .WithDebugClient => Medusa.WithDebugClient
  | .WithRecorderClient file mode => Medusa.WithRecorderClient file mode

/-- The options that put a new HTTP client in place of the one built so far. -/
def ProviderOption.replaces : ProviderOption → Bool
  | .WithRetryableClient _ => true
  | .WithDebugClient => false
  | .WithRecorderClient _ _ => true

/-- A transport has the retry layer: it is the retrying round tripper, or a debug
transport around a transport that has it. -/
def RoundTripper.retries : RoundTripper → Bool
  | .retryable _ => true
  | .LogTransport t => t.retries
  | _ => false

/-- A transport has the debug-logging layer. -/
def RoundTripper.logs : RoundTripper → Bool
  | .LogTransport _ => true
  | _ => false

/-- A transport has the recording layer: it is the recorder, or a debug transport around
a transport that has it. -/
def RoundTripper.records : RoundTripper → Bool
  | .recorder _ _ => true
  | .LogTransport t => t.records
  | _ => false

/-! ## The generic classifier of the specification -/

/-- The one classifier of which the specification says the four functions of `errors.go`
are instances, written after the specification: `gerund` and `verb` are the two forms of
the verb phrase and `subject` is what the texts name. A transport error gives a
diagnostic that carries its message; otherwise a status other than 200 gives a diagnostic
that carries the status and the body; otherwise there is no diagnostic. -/
def genericClassifier (gerund verb subject : String) (response : ApiResponse)
    (err : Option GoError) : Except Panic (Option Diagnostic) :=
  match err with
  | some e =>
    .ok (some (NewErrorDiagnostic
      ("Error " ++ gerund ++ " " ++ subject)
      ("Could not " ++ verb ++ " " ++ subject ++ ", unexpected error: " ++ e.Error)))
  | none =>
    match response.StatusCode with
    | .error p => .error p
    | .ok code =>
      if code ≠ 200 then
        match utils.readResponseBody response with
        | .error p => .error p
        | .ok body =>
          .ok (some (NewErrorDiagnostic
            ("Error " ++ gerund ++ " " ++ subject)
            ("Could not " ++ verb ++ " " ++ subject ++ ", status code: " ++ toString code
              ++ " (" ++ body ++ ")")))
      else .ok none

/-! ## Identifiers in payloads and calls -/

/-- The identifier that the payload of a create answer carries. -/
def EntityKind.createdId : (k : EntityKind) → k.resource.CreatePayload → String
  | .region => fun (c : medusa.AdminRegionsRes) => c.Region.Id
  | .store => fun (c : medusa.AdminStoresRes) => c.Store.Id
  | .salesChannel => fun (c : medusa.AdminSalesChannelsRes) => c.SalesChannel.Id
  | .productCollection => fun (c : medusa.AdminCollectionsRes) => c.Collection.Id
  | .productCategory => fun (c : medusa.AdminProductCategoriesCategoryRes) =>
      c.ProductCategory.Id
  | .shippingProfile => fun (c : medusa.AdminShippingProfilesRes) => c.ShippingProfile.Id
  | .customerGroup => fun (c : medusa.AdminCustomerGroupsRes) => c.CustomerGroup.Id

/-- The identifier that the payload of a read answer carries. -/
def EntityKind.readId : (k : EntityKind) → k.resource.ReadPayload → String
  | .region => fun (c : medusa.AdminRegionsRes) => c.Region.Id
  | .store => fun (c : medusa.AdminExtendedStoresRes) => c.Store.Id
  | .salesChannel => fun (c : medusa.AdminSalesChannelsRes) => c.SalesChannel.Id
  | .productCollection => fun (c : medusa.AdminCollectionsRes) => c.Collection.Id
  | .productCategory => fun (c : medusa.AdminProductCategoriesCategoryRes) =>
      c.ProductCategory.Id
  | .shippingProfile => fun (c : medusa.AdminShippingProfilesRes) => c.ShippingProfile.Id
  | .customerGroup => fun (c : medusa.AdminCustomerGroupsRes) => c.CustomerGroup.Id

/-- The identifier that the payload of an update answer carries. -/
def EntityKind.updatedId : (k : EntityKind) → k.resource.UpdatePayload → String
  | .region => fun (c : medusa.AdminRegionsRes) => c.Region.Id
  | .store => fun (c : medusa.AdminStoresRes) => c.Store.Id
  | .salesChannel => fun (c : medusa.AdminSalesChannelsRes) => c.SalesChannel.Id
  | .productCollection => fun (c : medusa.AdminCollectionsRes) => c.Collection.Id
  | .productCategory => fun (c : medusa.AdminProductCategoriesCategoryRes) =>
      c.ProductCategory.Id
  | .shippingProfile => fun (c : medusa.AdminShippingProfilesRes) => c.ShippingProfile.Id
  | .customerGroup => fun (c : medusa.AdminCustomerGroupsRes) => c.CustomerGroup.Id

/-- The identifier that a call of the client passes to the remote side as its `id`
argument; `none` for the methods that take no identifier. -/
def medusa.RemoteCall.id? {P : Type} : medusa.RemoteCall P → Option String
  | .PostRegionsWithResponse _ => none
  | .GetRegionsRegionWithResponse id => some id
  | .PostRegionsRegionWithResponse id _ => some id
  | .DeleteRegionsRegionWithResponse id => some id
  | .PostStoreWithResponse _ => none
  | .GetStoreWithResponse => none
  | .PostSalesChannelsWithResponse _ => none
  | .GetSalesChannelsSalesChannelWithResponse id => some id
  | .PostSalesChannelsSalesChannelWithResponse id _ => some id
  | .DeleteSalesChannelsSalesChannelWithResponse id => some id
  | .PostCollectionsWithResponse _ => none
  | .GetCollectionsCollectionWithResponse id => some id
  | .PostCollectionsCollectionWithResponse id _ => some id
  | .DeleteCollectionsCollectionWithResponse id => some id
  | .PostProductCategoriesWithResponse _ => none
  | .GetProductCategoriesCategoryWithResponse id => some id
  | .PostProductCategoriesCategoryWithResponse id _ => some id
  | .DeleteProductCategoriesCategoryWithResponse id => some id
  | .PostShippingProfilesWithResponse _ => none
  | .GetShippingProfilesProfileWithResponse id => some id
  | .PostShippingProfilesProfileWithResponse id _ => some id
  | .DeleteShippingProfilesProfileWithResponse id => some id
  | .PostCustomerGroupsWithResponse _ => none
  | .GetCustomerGroupsGroupWithResponse id => some id
  | .PostCustomerGroupsGroupWithResponse id _ => some id
  | .DeleteCustomerGroupsCustomerGroupWithResponse id => some id


/-! ## Sample data -/

/-- A codec whose raw plan and state are the model struct itself, decoded and encoded
without diagnostics. -/
def plainCodec (M : Type) : tfsdk.Codec M M where
  Get := fun raw => ([], raw)
  Set := fun m => ([], m)

/-- A client that answers every call with status 404 and the body `not found`. -/
def notFoundClient : medusa.ClientWithResponsesInterface where
  send := fun _ =>
    (some { Body := "not found"
            HTTPResponse := some { StatusCode := 404, Status := "404 Not Found" }
            JSON200 := none }, none)

/-- A client that answers every call with status 200, an empty body and no decoded
payload. -/
def emptyOkClient : medusa.ClientWithResponsesInterface where
  send := fun _ =>
    (some { Body := ""
            HTTPResponse := some { StatusCode := 200, Status := "200 OK" }
            JSON200 := none }, none)

/-- A region as it stands in the state after a successful create. -/
def sampleRegion : regionResourceModel where
  ID := TfString.value "reg_1"
  Name := TfString.value "EU"
  CurrencyCode := TfString.value "eur"
  TaxRate := TfNumber.value (BigFloat.finite 20)
  PaymentProviders := some [TfString.value "manual"]
  FulfillmentProviders := some [TfString.value "manual"]
  Countries := some [TfString.value "de", TfString.value "fr"]
  TaxCode := TfString.null
  IncludesTax := TfBool.null

/-- A store whose link templates are set. -/
def sampleStore : storeResourceModel where
  ID := TfString.value "store_1"
  Name := TfString.value "Shop"
  DefaultCurrencyCode := TfString.value "eur"
  Currencies := some [TfString.value "eur"]
  SwapLinkTemplate := TfString.value "https://shop.test/swap"
  PaymentLinkTemplate := TfString.value "https://shop.test/pay"
  InviteLinkTemplate := TfString.value "https://shop.test/invite"


/-- A remote side that refuses every login with status 401. -/
def unauthorizedEndpoint : medusa.TokenEndpoint :=
  fun _ _ => medusa.PostTokenResult.sent
    (some { Body := "Unauthorized"
            HTTPResponse := some { StatusCode := 401, Status := "401 Unauthorized" }
            JSON200 := none }, none)

/-- A remote side that answers every login with status 200 and the token `tok_1`. -/
def grantingEndpoint : medusa.TokenEndpoint :=
  fun _ _ => medusa.PostTokenResult.sent
    (some { Body := ""
            HTTPResponse := some { StatusCode := 200, Status := "200 OK" }
            JSON200 := some { AccessToken := some "tok_1" } }, none)

/-- A remote side that answers every login with status 200 and a body that is not decoded
into a payload. -/
def undecodedEndpoint : medusa.TokenEndpoint :=
  fun _ _ => medusa.PostTokenResult.sent
    (some { Body := "<html></html>"
            HTTPResponse := some { StatusCode := 200, Status := "200 OK" }
            JSON200 := none }, none)

/-- A remote side that answers every login with status 200 and a payload without token. -/
def tokenlessEndpoint : medusa.TokenEndpoint :=
  fun _ _ => medusa.PostTokenResult.sent
    (some { Body := ""
            HTTPResponse := some { StatusCode := 200, Status := "200 OK" }
            JSON200 := some { AccessToken := none } }, none)

/-- What the SDK makes of a login whose e-mail address is empty: `types.Email` fails to
marshal, so no request is sent; any other login is granted the token `tok_1`. -/
def emailCheckingEndpoint : medusa.TokenEndpoint :=
  fun c body =>
    if body.Email = "" then
      medusa.PostTokenResult.notSent
        { Error := "json: error calling MarshalJSON for type types.Email: "
            ++ "email: failed to pass regex validation" }
    else grantingEndpoint c body

/-- An error diagnostic of the framework for a configuration that does not decode. -/
def invalidConfig : Diagnostic :=
  NewErrorDiagnostic "Value Conversion Error" "the configuration does not fit the schema"

/-- A provider configuration with the three attributes set. -/
def sampleConfig : medusaProviderModel where
  URL := TfString.value "https://shop.test"
  Email := TfString.value "admin@shop.test"
  Password := TfString.value "secret"

/-- An environment in which no variable is set. -/
def emptyEnv : String → String := fun _ => ""

/-- The client that `NewClientWithResponses` builds without options for the url of
`sampleConfig`. -/
def sampleLoginClient : medusa.Client where
  Server := "https://shop.test/"
  Client_ := some { Transport := RoundTripper.nil }
  RequestEditors := []


/-- An environment that sets the three variables of the provider. -/
def sampleEnv : String → String := fun name =>
  if name = "MEDUSA_URL" then "https://env.test"
  else if name = "MEDUSA_ADMIN_EMAIL" then "env@shop.test"
  else if name = "MEDUSA_ADMIN_PASSWORD" then "envsecret"
  else ""

/-- The payload with which the remote side answers for the region `reg_1`. -/
def sampleRegionPayload : medusa.AdminRegionsRes where
  Region :=
    { Id := "reg_1", Name := "EU", CurrencyCode := "eur", TaxRate := Float32.finite 20
      TaxCode := none, IncludesTax := none
      FulfillmentProviders := some [{ Id := "manual" }]
      PaymentProviders := some [{ Id := "manual" }]
      Countries := some [{ Iso2 := "de" }, { Iso2 := "fr" }] }

/-- A client that answers the create and the read of a region with status 200 and
`sampleRegionPayload`, and every other call with a transport error. -/
def regionEchoClient : medusa.ClientWithResponsesInterface where
  send := fun call =>
    match call with
    | .PostRegionsWithResponse _ =>
      (some { Body := "", HTTPResponse := some { StatusCode := 200, Status := "200 OK" }
              JSON200 := some sampleRegionPayload }, none)
    | .GetRegionsRegionWithResponse _ =>
      (some { Body := "", HTTPResponse := some { StatusCode := 200, Status := "200 OK" }
              JSON200 := some sampleRegionPayload }, none)
    | _ => (none, some { Error := "connection refused" })


/-- A plan for a region that is still to be created: the id is unknown, and the declared
name differs from what the remote side will answer. -/
def sampleRegionPlan : regionResourceModel :=
  { sampleRegion with ID := TfString.unknown, Name := TfString.value "Europe" }


/-- A region all of whose attributes are known. -/
def knownRegion : regionResourceModel :=
  { sampleRegion with TaxCode := TfString.value "VAT", IncludesTax := TfBool.value true }

/-- A remote region that echoes the create request of `knownRegion`. -/
def knownRegionEcho : medusa.Region where
  Id := "reg_7"
  Name := "EU"
  CurrencyCode := "eur"
  TaxRate := Float32.finite 20
  TaxCode := some "VAT"
  IncludesTax := some true
  FulfillmentProviders := some [{ Id := "manual" }]
  PaymentProviders := some [{ Id := "manual" }]
  Countries := some [{ Iso2 := "de" }, { Iso2 := "fr" }]


/-- The rationals that a `float32` represents exactly: `m * 2 ^ e` with a significand
`|m| < 2 ^ 24` and an exponent `-149 ≤ e ≤ 104`. -/
def Float32.Represents (v : ℚ) : Prop :=
  ∃ m e : ℤ, |m| < 2 ^ 24 ∧ -149 ≤ e ∧ e ≤ 104 ∧ v = m * pow2 e

/-- The number that a configuration declares by writing `0.1`: the `big.Float` with 512
bits of significand nearest to one tenth. -/
def declaredTenth : ℚ :=
  10726246343954077679659219998564676901983492656473914702178849154977411224058837581441499438533522742152025486549188840683003106249557255957146919204867277
    / 2 ^ 515


/-- A store as the remote side reports it. -/
def sampleRemoteStore : medusa.Store where
  Id := "store_1"
  Name := "Shop"
  DefaultCurrencyCode := "eur"
  Currencies := some [{ Code := "eur" }, { Code := "usd" }]
  SwapLinkTemplate := some "https://shop.test/swap"
  PaymentLinkTemplate := none
  InviteLinkTemplate := none



/-- An environment in which `SB_DEBUG` is set. -/
def debugEnv : String → String := fun name => if name = "SB_DEBUG" then "1" else ""

/-- A request without body. -/
def sampleRequest : http.Request where
  head := "GET /admin/store HTTP/1.1\r\nHost: shop.test\r\n\r\n"
  Body := { unread := "", failure := none }

/-- An inner transport that answers every request with a response whose body reads to
the end. -/
def sampleInner : http.Request → Option http.Response × Option GoError :=
  fun _ =>
    (some { head := "HTTP/1.1 200 OK\r\n\r\n"
            Body := { unread := "store_1", failure := none } }, none)

/-- An inner transport that answers every request with a nil response and a nil error. -/
def silentInner : http.Request → Option http.Response × Option GoError :=
  fun _ => (none, none)

/-- An inner transport that answers every request with a response whose body breaks off
after some bytes. -/
def brokenInner : http.Request → Option http.Response × Option GoError :=
  fun _ =>
    (some { head := "HTTP/1.1 200 OK\r\n\r\n"
            Body := { unread := "store_", failure := some { Error := "unexpected EOF" } } },
      none)




/-! ## Theorems -/

/-- In a list of fields with pairwise distinct names, looking a member up by its name
finds that member. -/
theorem find_field_of_mem (fields : List StructField) (f : StructField)
    (hnodup : (fields.map (fun g => g.name)).Nodup) (hf : f ∈ fields) :
    fields.find? (fun g => g.name == f.name) = some f := by
  induction fields with
  | nil => cases hf
  | cons g rest ih =>
    rw [List.map_cons, List.nodup_cons] at hnodup
    rcases List.mem_cons.mp hf with h | h
    · subst h
      simp [List.find?]
    · have hne : g.name ≠ f.name := by
        intro heq
        exact hnodup.1 (heq ▸ List.mem_map_of_mem (fun g => g.name) h)
      have hb : (g.name == f.name) = false := by simpa using hne
      rw [List.find?_cons, hb]
      exact ih hnodup.2 h

/-- On a struct, or a pointer to a struct, that has a readable `Body` field holding the
bytes `b`, `readResponseBody` returns `b`. -/
theorem readResponseBody_of_body (response : ApiResponse) (fields : List StructField)
    (b : String)
    (hv : response.reflectValue = ReflectValue.structVal fields ∨
      response.reflectValue = ReflectValue.ptrTo (ReflectValue.structVal fields))
    (hnodup : (fields.map (fun g => g.name)).Nodup)
    (hf : ({ name := "Body", canInterface := true, content := FieldContent.byteSlice b }
      : StructField) ∈ fields) :
    utils.readResponseBody response = Except.ok b := by
  have hfind := find_field_of_mem fields _ hnodup hf
  rcases hv with h | h <;>
    simp [utils.readResponseBody, h, ReflectValue.isPtr, ReflectValue.Elem,
      ReflectValue.FieldByName, hfind]

/-- C1: each of the four classifiers returns no diagnostic exactly when the transport
error is nil and the response's `StatusCode()` is 200. -/
theorem classifier_silent_iff (name id : String) (response : ApiResponse)
    (err : Option GoError) :
    (utils.CheckCreateError name response err = Except.ok none ↔
      err = none ∧ response.StatusCode = Except.ok 200) ∧
    (utils.CheckGetError name id response err = Except.ok none ↔
      err = none ∧ response.StatusCode = Except.ok 200) ∧
    (utils.CheckUpdateError name response err = Except.ok none ↔
      err = none ∧ response.StatusCode = Except.ok 200) ∧
    (utils.CheckDeleteError name response err = Except.ok none ↔
      err = none ∧ response.StatusCode = Except.ok 200) := by
  refine ⟨?_, ?_, ?_, ?_⟩
  all_goals
    cases err with
    | some e =>
      simp [utils.CheckCreateError, utils.CheckGetError, utils.CheckUpdateError,
        utils.CheckDeleteError]
    | none =>
      cases hs : response.StatusCode with
      | error p =>
        simp [utils.CheckCreateError, utils.CheckGetError, utils.CheckUpdateError,
          utils.CheckDeleteError, hs]
      | ok code =>
        by_cases hc : code = 200
        · simp [utils.CheckCreateError, utils.CheckGetError, utils.CheckUpdateError,
            utils.CheckDeleteError, hs, hc]
        · cases hb : utils.readResponseBody response <;>
            simp [utils.CheckCreateError, utils.CheckGetError, utils.CheckUpdateError,
              utils.CheckDeleteError, hs, hc, hb]

/-- C2: with a nil transport error and a status code `s` other than 200, on a response
(a struct or a pointer to a struct) whose `Body` field holds the bytes `b`, each
classifier returns exactly one error-severity diagnostic, with its own summary and a
detail that embeds `s` in decimal and `b` (the empty string for an empty body);
`CheckGetError` also embeds the id. -/
theorem classifier_status_diagnostic (name id : String) (response : ApiResponse)
    (s : Int) (fields : List StructField) (b : String)
    (hs : response.StatusCode = Except.ok s) (hne : s ≠ 200)
    (hv : response.reflectValue = ReflectValue.structVal fields ∨
      response.reflectValue = ReflectValue.ptrTo (ReflectValue.structVal fields))
    (hnodup : (fields.map (fun g => g.name)).Nodup)
    (hf : ({ name := "Body", canInterface := true, content := FieldContent.byteSlice b }
      : StructField) ∈ fields) :
    utils.CheckCreateError name response none = Except.ok (some
      { severity := Severity.error
        summary := "Error creating " ++ name
        detail := "Could not create " ++ name ++ ", status code: " ++ toString s
          ++ " (" ++ b ++ ")" }) ∧
    utils.CheckUpdateError name response none = Except.ok (some
      { severity := Severity.error
        summary := "Error updating " ++ name
        detail := "Could not update " ++ name ++ ", status code: " ++ toString s
          ++ " (" ++ b ++ ")" }) ∧
    utils.CheckDeleteError name response none = Except.ok (some
      { severity := Severity.error
        summary := "Error deleting " ++ name
        detail := "Could not delete " ++ name ++ ", status code: " ++ toString s
          ++ " (" ++ b ++ ")" }) ∧
    utils.CheckGetError name id response none = Except.ok (some
      { severity := Severity.error
        summary := "Error retrieving " ++ name ++ " with id " ++ id
        detail := "Could not retrieve " ++ name ++ " with id " ++ id ++ ", status code: "
          ++ toString s ++ " (" ++ b ++ ")" }) := by
  have hb := readResponseBody_of_body response fields b hv hnodup hf
  simp [utils.CheckCreateError, utils.CheckUpdateError, utils.CheckDeleteError,
    utils.CheckGetError, hs, hne, hb, NewErrorDiagnostic]

/-- Witness for C2: a 404 answer, a pointer to a struct whose body is `not found`, for
the entity `region` with id `reg_1`. -/
theorem classifier_status_diagnostic_witness :
    utils.CheckCreateError "region"
        { StatusCode := Except.ok 404
          reflectValue := ReflectValue.ptrTo (ReflectValue.structVal
            [{ name := "Body", canInterface := true,
               content := FieldContent.byteSlice "not found" },
             { name := "HTTPResponse", canInterface := true,
               content := FieldContent.otherType }]) } none
      = Except.ok (some
        { severity := Severity.error
          summary := "Error creating region"
          detail := "Could not create region, status code: 404 (not found)" }) := by
  have h := (classifier_status_diagnostic "region" "reg_1"
    { StatusCode := Except.ok 404
      reflectValue := ReflectValue.ptrTo (ReflectValue.structVal
        [{ name := "Body", canInterface := true,
           content := FieldContent.byteSlice "not found" },
         { name := "HTTPResponse", canInterface := true,
           content := FieldContent.otherType }]) }
    404 _ "not found" rfl (by decide) (Or.inr rfl) (by decide) (by simp)).1
  simpa using h

/-- C3: with a non-nil transport error `e`, each classifier returns the diagnostic that
names the operation and the entity and embeds `e.Error()`; the result is the same for
every response argument, a nil response included. -/
theorem classifier_transport_error (name id : String) (e : GoError)
    (response : ApiResponse) :
    utils.CheckCreateError name response (some e) = Except.ok (some
      { severity := Severity.error
        summary := "Error creating " ++ name
        detail := "Could not create " ++ name ++ ", unexpected error: " ++ e.Error }) ∧
    utils.CheckGetError name id response (some e) = Except.ok (some
      { severity := Severity.error
        summary := "Error retrieving " ++ name ++ " with id " ++ id
        detail := "Could not retrieve " ++ name ++ " with id " ++ id
          ++ ", unexpected error: " ++ e.Error }) ∧
    utils.CheckUpdateError name response (some e) = Except.ok (some
      { severity := Severity.error
        summary := "Error updating " ++ name
        detail := "Could not update " ++ name ++ ", unexpected error: " ++ e.Error }) ∧
    utils.CheckDeleteError name response (some e) = Except.ok (some
      { severity := Severity.error
        summary := "Error deleting " ++ name
        detail := "Could not delete " ++ name ++ ", unexpected error: " ++ e.Error }) ∧
    (∀ other : ApiResponse,
      utils.CheckCreateError name other (some e)
        = utils.CheckCreateError name response (some e) ∧
      utils.CheckGetError name id other (some e)
        = utils.CheckGetError name id response (some e) ∧
      utils.CheckUpdateError name other (some e)
        = utils.CheckUpdateError name response (some e) ∧
      utils.CheckDeleteError name other (some e)
        = utils.CheckDeleteError name response (some e)) := by
  simp [utils.CheckCreateError, utils.CheckGetError, utils.CheckUpdateError,
    utils.CheckDeleteError, NewErrorDiagnostic]

/-- On a struct or a pointer to a struct, `readResponseBody` returns a string, and the
sentinel when no field is named `Body`. -/
theorem readResponseBody_struct_without_body (response : ApiResponse)
    (fields : List StructField)
    (hv : response.reflectValue = ReflectValue.structVal fields ∨
      response.reflectValue = ReflectValue.ptrTo (ReflectValue.structVal fields))
    (hno : ∀ f ∈ fields, f.name ≠ "Body") :
    utils.readResponseBody response = Except.ok "(no response body)" := by
  have hfind : fields.find? (fun f => f.name == "Body") = none := by
    rw [List.find?_eq_none]
    intro f hf
    simpa using hno f hf
  rcases hv with h | h <;>
    simp [utils.readResponseBody, h, ReflectValue.isPtr, ReflectValue.Elem,
      ReflectValue.FieldByName, hfind]

/-- C4, at the failing inputs: on a nil pointer, and on a value of a non-struct type,
neither of which has a field named `Body`, `readResponseBody` panics instead of returning
the sentinel, and so does the classifier that calls it. -/
theorem readResponseBody_panics_off_struct :
    utils.readResponseBody
        { StatusCode := Except.ok 500, reflectValue := ReflectValue.otherKind }
      = Except.error Panic.reflectNotStruct ∧
    utils.readResponseBody
        { StatusCode := Except.ok 500, reflectValue := ReflectValue.nilPtr }
      = Except.error Panic.reflectNotStruct ∧
    utils.CheckCreateError "region"
        { StatusCode := Except.ok 500, reflectValue := ReflectValue.otherKind } none
      = Except.error Panic.reflectNotStruct := by
  refine ⟨rfl, rfl, rfl⟩


/-- The helper `contains` decides membership in the allow-list. -/
theorem contains_iff_mem (keep : List String) (key : String) :
    utils.contains keep key = true ↔ key ∈ keep := by
  induction keep with
  | nil => simp [utils.contains]
  | cons k rest ih =>
    by_cases h : k = key
    · simp [utils.contains, h]
    · have h2 : ¬ key = k := fun h3 => h h3.symm
      simp [utils.contains, h, h2, ih]

/-- The loop of `CleanHeaders` only removes entries. -/
theorem CleanHeaders_loop_sublist (keep : List String) (keys : List String) (h : Header)
    (entry : String × List String) (he : entry ∈ utils.CleanHeaders.loop keep keys h) :
    entry ∈ h := by
  induction keys generalizing h with
  | nil => simpa [utils.CleanHeaders.loop] using he
  | cons key rest ih =>
    unfold utils.CleanHeaders.loop at he
    split at he
    · split at he
      · exact (List.mem_filter.mp (ih _ he)).1
      · exact ih _ he
    · exact ih _ he

/-- Visiting keys that are all in canonical form, the loop of `CleanHeaders` leaves no
visited key that is outside the allow-list. -/
theorem CleanHeaders_loop_canonical (keep : List String) (keys : List String) (h : Header)
    (hcanon : ∀ k ∈ keys, CanonicalMIMEHeaderKey k = k)
    (entry : String × List String) (he : entry ∈ utils.CleanHeaders.loop keep keys h)
    (hk : entry.1 ∈ keys) : entry.1 ∈ keep := by
  induction keys generalizing h with
  | nil => cases hk
  | cons key rest ih =>
    have hrest : ∀ k ∈ rest, CanonicalMIMEHeaderKey k = k :=
      fun k hk2 => hcanon k (List.mem_cons_of_mem _ hk2)
    unfold utils.CleanHeaders.loop at he
    split at he
    · split at he
      · have hin := CleanHeaders_loop_sublist keep rest _ entry he
        have hne : entry.1 ≠ key := by
          have := (List.mem_filter.mp hin).2
          rw [hcanon key (List.mem_cons_self _ _)] at this
          simpa using this
        rcases List.mem_cons.mp hk with h1 | h1
        · exact absurd h1 hne
        · exact ih _ hrest he h1
      · rename_i hkeep
        rcases List.mem_cons.mp hk with h1 | h1
        · rw [h1]
          apply (contains_iff_mem keep key).mp
          simpa using hkeep
        · exact ih _ hrest he h1
    · rename_i hno
      have hin := CleanHeaders_loop_sublist keep rest _ entry he
      have hne : entry.1 ≠ key := by
        intro heq
        apply hno
        simp only [Header.hasKey, List.any_eq_true]
        exact ⟨entry, hin, by simp [heq]⟩
      rcases List.mem_cons.mp hk with h1 | h1
      · exact absurd h1 hne
      · exact ih _ hrest he h1

/-- On a header set whose names are all in canonical form, every name that remains in
`CleanHeaders(h, keep...)` is an element of `keep`. -/
theorem CleanHeaders_canonical_subset (h : Header) (keep : List String)
    (hcanon : ∀ entry ∈ h, CanonicalMIMEHeaderKey entry.1 = entry.1)
    (entry : String × List String) (he : entry ∈ utils.CleanHeaders h keep) :
    entry.1 ∈ keep := by
  have hin := CleanHeaders_loop_sublist keep _ h entry he
  refine CleanHeaders_loop_canonical keep _ h ?_ entry he
    (List.mem_map_of_mem (fun e => e.1) hin)
  intro k hk
  obtain ⟨e, he2, rfl⟩ := List.mem_map.mp hk
  exact hcanon e he2

/-- An allow-listed entry survives the loop of `CleanHeaders` when no visited key outside
the allow-list has the entry's name as its canonical form. -/
theorem CleanHeaders_loop_retains (keep : List String) (keys : List String) (h : Header)
    (entry : String × List String) (he : entry ∈ h)
    (hsafe : ∀ k ∈ keys, k ∉ keep → CanonicalMIMEHeaderKey k ≠ entry.1) :
    entry ∈ utils.CleanHeaders.loop keep keys h := by
  induction keys generalizing h with
  | nil => simpa [utils.CleanHeaders.loop] using he
  | cons key rest ih =>
    have hrest : ∀ k ∈ rest, k ∉ keep → CanonicalMIMEHeaderKey k ≠ entry.1 :=
      fun k hk2 => hsafe k (List.mem_cons_of_mem _ hk2)
    unfold utils.CleanHeaders.loop
    split
    · split
      · rename_i hkeep
        have hnot : key ∉ keep := by
          intro hmem
          have := (contains_iff_mem keep key).mpr hmem
          simp [this] at hkeep
        have hne := hsafe key (List.mem_cons_self _ _) hnot
        apply ih _ _ hrest
        unfold Header.Del
        apply List.mem_filter.mpr
        refine ⟨he, ?_⟩
        simpa using fun heq => hne heq.symm
      · exact ih _ he hrest
    · exact ih _ he hrest

/-- On a header set whose names are all in canonical form, every header whose name is
in `keep` is still present in `CleanHeaders(h, keep...)` with the values it had. -/
theorem CleanHeaders_canonical_retains (h : Header) (keep : List String)
    (hcanon : ∀ entry ∈ h, CanonicalMIMEHeaderKey entry.1 = entry.1)
    (entry : String × List String) (he : entry ∈ h) (hk : entry.1 ∈ keep) :
    entry ∈ utils.CleanHeaders h keep := by
  refine CleanHeaders_loop_retains keep _ h entry he ?_
  intro k hk2 hnot heq
  obtain ⟨e, he2, rfl⟩ := List.mem_map.mp hk2
  rw [hcanon e he2] at heq
  exact hnot (heq ▸ hk)

/-- C5, at the failing input: a header stored under the name `authorization`, which is
not in canonical form, stays in the result of `CleanHeaders` although the allow-list is
empty; the recorder hook therefore persists the request with its bearer token, and a
response header `set-cookie` next to `Content-Type`. -/
theorem CleanHeaders_leaves_noncanonical_name :
    utils.CleanHeaders [("authorization", ["Bearer secret"])] []
      = [("authorization", ["Bearer secret"])] ∧
    WithRecorderClient.hook
        { RequestHeaders := [("authorization", ["Bearer secret"])]
          ResponseHeaders := [("Content-Type", ["application/json"]),
            ("set-cookie", ["sid=1"])] }
      = { RequestHeaders := [("authorization", ["Bearer secret"])]
          ResponseHeaders := [("Content-Type", ["application/json"]),
            ("set-cookie", ["sid=1"])] } := by
  constructor <;> decide

/-- C6, at the failing input: next to a header named `content-type`, the allow-listed
header `Content-Type` is removed by `CleanHeaders`, and by the recorder hook. -/
theorem CleanHeaders_drops_allowed_header :
    Header.lookup [("Content-Type", ["application/json"]), ("content-type", ["text/plain"])]
        "Content-Type" = some ["application/json"] ∧
    utils.CleanHeaders
        [("Content-Type", ["application/json"]), ("content-type", ["text/plain"])]
        ["Content-Type"]
      = [("content-type", ["text/plain"])] ∧
    Header.lookup (WithRecorderClient.hook
        { RequestHeaders := []
          ResponseHeaders := [("Content-Type", ["application/json"]),
            ("content-type", ["text/plain"])] }).ResponseHeaders
        "Content-Type" = none := by
  refine ⟨?_, ?_, ?_⟩ <;> decide


/-- A diagnostic returned by a classifier has error severity. -/
theorem classifier_severity (name id : String) (response : ApiResponse)
    (err : Option GoError) (d : Diagnostic)
    (h : utils.CheckCreateError name response err = Except.ok (some d) ∨
      utils.CheckGetError name id response err = Except.ok (some d) ∨
      utils.CheckUpdateError name response err = Except.ok (some d) ∨
      utils.CheckDeleteError name response err = Except.ok (some d)) :
    d.severity = Severity.error := by
  rcases h with h | h | h | h
  all_goals
    cases err with
    | some e =>
      simp only [utils.CheckCreateError, utils.CheckGetError, utils.CheckUpdateError,
        utils.CheckDeleteError, Except.ok.injEq, Option.some.injEq] at h
      rw [← h]
      rfl
    | none =>
      simp only [utils.CheckCreateError, utils.CheckGetError, utils.CheckUpdateError,
        utils.CheckDeleteError] at h
      split at h
      · cases h
      · split at h
        · split at h
          · cases h
          · simp only [Except.ok.injEq, Option.some.injEq] at h
            rw [← h]
            rfl
        · cases h

/-- Appending one error diagnostic to a collection that holds no error adds it at the
end. -/
theorem Append_error_of_no_error (prior : List Diagnostic) (d : Diagnostic)
    (hprior : diag.HasError prior = false) (hd : d.severity = Severity.error) :
    diag.Append prior [d] = prior ++ [d] := by
  have hnot : prior.contains d = false := by
    rw [Bool.eq_false_iff]
    intro hc
    have hmem : d ∈ prior := by simpa using hc
    have : diag.HasError prior = true := by
      simp only [diag.HasError, List.any_eq_true]
      exact ⟨d, hmem, by simp [hd]⟩
    rw [hprior] at this
    cases this
  have hmem : d ∉ prior := by simpa using hnot
  simp [diag.Append, hmem]


/-- C7: for each of the seven entity kinds and each of `Create`, `Read`, `Update` and
`Delete`: when the remote call is reached (decoding the plan or state reported no error)
and the classifier returns a diagnostic `d` for its answer, the operation issues that one
call, adds exactly `d` to the diagnostics and leaves the reported state as the host
supplied it; so `Read` on a not-found answer does not remove the entity from state. -/
theorem operation_surfaces_classifier_diagnostic (K : ResourceKind)
    (_hK : K ∈ resourceKinds) {Raw : Type} (codec : tfsdk.Codec Raw K.Model)
    (c : medusa.ClientWithResponsesInterface) (resp : resource.Response Raw)
    (d : Diagnostic) :
    (∀ req : resource.CreateRequest Raw,
      diag.HasError (diag.Append resp.Diagnostics (codec.Get req.Plan).1) = false →
      utils.CheckCreateError K.name
          (medusa.asApiResponse (c.send (K.createCall (codec.Get req.Plan).2)).1)
          (c.send (K.createCall (codec.Get req.Plan).2)).2 = Except.ok (some d) →
      K.Create codec (some c) req resp = Except.ok
        { resp :=
            { State := resp.State
              Diagnostics := diag.Append resp.Diagnostics (codec.Get req.Plan).1 ++ [d] }
          calls := [{ Payload := K.CreatePayload
                      call := K.createCall (codec.Get req.Plan).2 }] }) ∧
    (∀ req : resource.ReadRequest Raw,
      diag.HasError (diag.Append resp.Diagnostics (codec.Get req.State).1) = false →
      utils.CheckGetError K.name (K.ID (codec.Get req.State).2).ValueString
          (medusa.asApiResponse (c.send (K.readCall (codec.Get req.State).2)).1)
          (c.send (K.readCall (codec.Get req.State).2)).2 = Except.ok (some d) →
      K.Read codec (some c) req resp = Except.ok
        { resp :=
            { State := resp.State
              Diagnostics := diag.Append resp.Diagnostics (codec.Get req.State).1 ++ [d] }
          calls := [{ Payload := K.ReadPayload
                      call := K.readCall (codec.Get req.State).2 }] }) ∧
    (∀ req : resource.UpdateRequest Raw,
      diag.HasError (diag.Append resp.Diagnostics (codec.Get req.Plan).1) = false →
      utils.CheckUpdateError K.name
          (medusa.asApiResponse (c.send (K.updateCall (codec.Get req.Plan).2)).1)
          (c.send (K.updateCall (codec.Get req.Plan).2)).2 = Except.ok (some d) →
      K.Update codec (some c) req resp = Except.ok
        { resp :=
            { State := resp.State
              Diagnostics := diag.Append resp.Diagnostics (codec.Get req.Plan).1 ++ [d] }
          calls := [{ Payload := K.UpdatePayload
                      call := K.updateCall (codec.Get req.Plan).2 }] }) ∧
    (∀ req : resource.DeleteRequest Raw,
      diag.HasError (diag.Append resp.Diagnostics (codec.Get req.State).1) = false →
      utils.CheckDeleteError K.name
          (medusa.asApiResponse (c.send (K.deleteCall (codec.Get req.State).2)).1)
          (c.send (K.deleteCall (codec.Get req.State).2)).2 = Except.ok (some d) →
      K.Delete codec (some c) req resp = Except.ok
        { resp :=
            { State := resp.State
              Diagnostics := diag.Append resp.Diagnostics (codec.Get req.State).1 ++ [d] }
          calls := [{ Payload := K.DeletePayload
                      call := K.deleteCall (codec.Get req.State).2 }] }) := by
  refine ⟨?_, ?_, ?_, ?_⟩
  · intro req hno hd
    have hsev := classifier_severity K.name "" _ _ d (Or.inl hd)
    simp only [ResourceKind.Create, hno, hd, Append_error_of_no_error _ d hno hsev]
    rfl
  · intro req hno hd
    have hsev := classifier_severity K.name _ _ _ d (Or.inr (Or.inl hd))
    simp only [ResourceKind.Read, hno, hd, Append_error_of_no_error _ d hno hsev]
    rfl
  · intro req hno hd
    have hsev := classifier_severity K.name "" _ _ d (Or.inr (Or.inr (Or.inl hd)))
    simp only [ResourceKind.Update, hno, hd, Append_error_of_no_error _ d hno hsev]
    rfl
  · intro req hno hd
    have hsev := classifier_severity K.name "" _ _ d (Or.inr (Or.inr (Or.inr hd)))
    simp only [ResourceKind.Delete, hno, hd, Append_error_of_no_error _ d hno hsev]
    rfl

/-- Witness for C7: `Read` of the region `reg_1` against a client that answers 404
reports the one classifier diagnostic and leaves the state as supplied. -/
theorem operation_surfaces_classifier_diagnostic_witness :
    regionResource.Read (plainCodec regionResourceModel) (some notFoundClient)
        { State := sampleRegion } { State := sampleRegion, Diagnostics := [] }
      = Except.ok
        { resp :=
            { State := sampleRegion
              Diagnostics :=
                [{ severity := Severity.error
                   summary := "Error retrieving region with id reg_1"
                   detail := "Could not retrieve region with id reg_1, status code: 404 "
                     ++ "(not found)" }] }
          calls := [{ Payload := medusa.AdminRegionsRes
                      call := medusa.RemoteCall.GetRegionsRegionWithResponse "reg_1" }] } :=
  (operation_surfaces_classifier_diagnostic regionResource (by simp [resourceKinds])
    (plainCodec regionResourceModel) notFoundClient
    { State := sampleRegion, Diagnostics := [] }
    { severity := Severity.error
      summary := "Error retrieving region with id reg_1"
      detail := "Could not retrieve region with id reg_1, status code: 404 "
        ++ "(not found)" }).2.1
    { State := sampleRegion } (by decide) rfl


/-- C8: for each decoder and every non-nil payload, the outcome of decoding is the same
whatever the model held before, every attribute being overwritten from the payload; a
model is produced, without error, for every payload (for a region, every payload whose
tax rate is a number, NaN making `big.NewFloat` panic). -/
theorem decode_overwrites_every_attribute :
    (∀ (m₁ m₂ : regionResourceModel) (c : medusa.AdminRegionsRes),
      regionResourceModel.fromRemote m₁ (some c)
        = regionResourceModel.fromRemote m₂ (some c)) ∧
    (∀ (m : regionResourceModel) (c : medusa.AdminRegionsRes),
      c.Region.TaxRate ≠ Float32.nan →
      ∃ decoded, regionResourceModel.fromRemote m (some c) = Except.ok (decoded, none)) ∧
    (∀ (m₁ m₂ : storeResourceModel) (c : medusa.AdminExtendedStoresRes),
      storeResourceModel.fromGetRemote m₁ (some c)
        = storeResourceModel.fromGetRemote m₂ (some c) ∧
      (storeResourceModel.fromGetRemote m₁ (some c)).2 = none) ∧
    (∀ (m₁ m₂ : storeResourceModel) (c : medusa.AdminStoresRes),
      storeResourceModel.fromUpdateRemote m₁ (some c)
        = storeResourceModel.fromUpdateRemote m₂ (some c) ∧
      (storeResourceModel.fromUpdateRemote m₁ (some c)).2 = none) ∧
    (∀ (m₁ m₂ : productCategoryResourceModel)
        (c : medusa.AdminProductCategoriesCategoryRes),
      productCategoryResourceModel.fromRemote m₁ (some c)
        = productCategoryResourceModel.fromRemote m₂ (some c) ∧
      (productCategoryResourceModel.fromRemote m₁ (some c)).2 = none) ∧
    (∀ (m₁ m₂ : salesChannelResourceModel) (c : medusa.AdminSalesChannelsRes),
      salesChannelResourceModel.fromRemote m₁ (some c)
        = salesChannelResourceModel.fromRemote m₂ (some c) ∧
      (salesChannelResourceModel.fromRemote m₁ (some c)).2 = none) ∧
    (∀ (m₁ m₂ : shippingProfileResourceModel) (c : medusa.AdminShippingProfilesRes),
      shippingProfileResourceModel.fromRemote m₁ (some c)
        = shippingProfileResourceModel.fromRemote m₂ (some c) ∧
      (shippingProfileResourceModel.fromRemote m₁ (some c)).2 = none) ∧
    (∀ (m₁ m₂ : productCollectionResourceModel) (c : medusa.AdminCollectionsRes),
      productCollectionResourceModel.fromRemote m₁ (some c)
        = productCollectionResourceModel.fromRemote m₂ (some c) ∧
      (productCollectionResourceModel.fromRemote m₁ (some c)).2 = none) ∧
    (∀ (m₁ m₂ : customerGroupResourceModel) (c : medusa.AdminCustomerGroupsRes),
      customerGroupResourceModel.fromRemote m₁ (some c)
        = customerGroupResourceModel.fromRemote m₂ (some c) ∧
      (customerGroupResourceModel.fromRemote m₁ (some c)).2 = none) := by
  refine ⟨?_, ?_, ?_, ?_, ?_, ?_, ?_, ?_, ?_⟩
  · intro m₁ m₂ c
    simp only [regionResourceModel.fromRemote]
  · intro m c hnan
    simp only [regionResourceModel.fromRemote, utils.ConvertToTerraformNumber, NewFloat]
    cases h : c.Region.TaxRate with
    | finite v => exact ⟨_, rfl⟩
    | inf negative => exact ⟨_, rfl⟩
    | nan => exact absurd h hnan
  · intro m₁ m₂ c
    exact ⟨rfl, rfl⟩
  · intro m₁ m₂ c
    exact ⟨rfl, rfl⟩
  · intro m₁ m₂ c
    exact ⟨rfl, rfl⟩
  · intro m₁ m₂ c
    exact ⟨rfl, rfl⟩
  · intro m₁ m₂ c
    exact ⟨rfl, rfl⟩
  · intro m₁ m₂ c
    exact ⟨rfl, rfl⟩
  · intro m₁ m₂ c
    exact ⟨rfl, rfl⟩

/-- Witness for C8: decoding the payload of the region `reg_1` with tax rate 20 over the
sample region yields a model. -/
theorem decode_overwrites_every_attribute_witness :
    ∃ decoded, regionResourceModel.fromRemote sampleRegion (some
      { Region :=
        { Id := "reg_2", Name := "UK", CurrencyCode := "gbp", TaxRate := Float32.finite 20
          TaxCode := none, IncludesTax := some true
          FulfillmentProviders := some [{ Id := "manual" }]
          PaymentProviders := none
          Countries := some [{ Iso2 := "gb" }] } }) = Except.ok (decoded, none) :=
  decode_overwrites_every_attribute.2.1 sampleRegion _ (by decide)


/-- The `float32` nearest to 16777217, which is `2 ^ 24 + 1`, is 16777216. -/
theorem Float32_of_16777217 :
    (BigFloat.finite 16777217).Float32 = Float32.finite 16777216 := by
  have t24 : Int.toNat 24 = 24 := rfl
  have t128 : Int.toNat 128 = 128 := rfl
  have hp1 : pow2 1 = 2 := by norm_num [pow2]
  have hp128 : pow2 128 = 2 ^ 128 := by norm_num [pow2, t128]
  have hlog : floorLog2 16777217 = 24 := by
    norm_num [floorLog2, pow2, Nat.log2, t24]
  have habs : |(16777217 : ℚ)| = 16777217 := by norm_num
  have hfloor : ⌊(16777217 : ℚ) / 2⌋ = 8388608 := by
    rw [Int.floor_eq_iff]
    norm_num
  have hround : roundHalfEven (16777217 / 2) = 8388608 := by
    norm_num [roundHalfEven, hfloor]
  simp only [BigFloat.Float32, habs, hlog]
  norm_num [hp1, hp128, hround]

/-- C9 fails as stated: an unknown `name` is not left absent but sent as the empty
string, an unknown `includes_tax` is sent as `false`, an unknown element of a list is
sent as the empty string, and the declared tax rate 16777217 is sent as 16777216. -/
theorem toUpdateInput_unknown_is_sent :
    (regionResourceModel.toUpdateInput
      { sampleRegion with Name := TfString.unknown }).Name = some "" ∧
    (regionResourceModel.toUpdateInput
      { sampleRegion with IncludesTax := TfBool.unknown }).IncludesTax = some false ∧
    (regionResourceModel.toUpdateInput
      { sampleRegion with Countries := some [TfString.value "de", TfString.unknown] }
      ).Countries = some ["de", ""] ∧
    (regionResourceModel.toUpdateInput
      { sampleRegion with TaxRate := TfNumber.value (BigFloat.finite 16777217) }).TaxRate
      = some (Float32.finite 16777216) := by
  refine ⟨rfl, rfl, rfl, ?_⟩
  simp [regionResourceModel.toUpdateInput, utils.ConvertToPointerFloat32,
    TfNumber.IsUnknown, TfNumber.IsNull, TfNumber.ValueBigFloat, Float32_of_16777217]


/-- Converting a list of known strings yields those strings, in order. -/
theorem ValueString_map_value (ss : List String) :
    (ss.map TfString.value).map (fun v => v.ValueString) = ss := by
  induction ss with
  | nil => rfl
  | cons s rest ih =>
    simp only [List.map_cons, ih]
    rfl

/-- C9, amended: for a region model whose string and bool attributes are not unknown,
`toUpdateInput` leaves a field absent exactly when the attribute is not set (null; for
`tax_rate` null or unknown; for a list attribute the nil list), and otherwise populates
it with the declared value: the known string or bool itself, for a list of known strings
those strings in order, and for `tax_rate` the `float32` nearest to the declared
number. -/
theorem toUpdateInput_absent_iff_not_set (m : regionResourceModel)
    (hName : m.Name ≠ TfString.unknown) (hCurrency : m.CurrencyCode ≠ TfString.unknown)
    (hTaxCode : m.TaxCode ≠ TfString.unknown)
    (hIncludesTax : m.IncludesTax ≠ TfBool.unknown) :
    ((m.toUpdateInput.Name = none ↔ m.Name = TfString.null) ∧
      ∀ s, m.Name = TfString.value s → m.toUpdateInput.Name = some s) ∧
    ((m.toUpdateInput.CurrencyCode = none ↔ m.CurrencyCode = TfString.null) ∧
      ∀ s, m.CurrencyCode = TfString.value s → m.toUpdateInput.CurrencyCode = some s) ∧
    ((m.toUpdateInput.TaxRate = none ↔
        m.TaxRate = TfNumber.null ∨ m.TaxRate = TfNumber.unknown) ∧
      ∀ f, m.TaxRate = TfNumber.value f → m.toUpdateInput.TaxRate = some f.Float32) ∧
    ((m.toUpdateInput.PaymentProviders = none ↔ m.PaymentProviders = none) ∧
      ∀ ss : List String, m.PaymentProviders = some (ss.map TfString.value) →
        m.toUpdateInput.PaymentProviders = some ss) ∧
    ((m.toUpdateInput.FulfillmentProviders = none ↔ m.FulfillmentProviders = none) ∧
      ∀ ss : List String, m.FulfillmentProviders = some (ss.map TfString.value) →
        m.toUpdateInput.FulfillmentProviders = some ss) ∧
    ((m.toUpdateInput.Countries = none ↔ m.Countries = none) ∧
      ∀ ss : List String, m.Countries = some (ss.map TfString.value) →
        m.toUpdateInput.Countries = some ss) ∧
    ((m.toUpdateInput.TaxCode = none ↔ m.TaxCode = TfString.null) ∧
      ∀ s, m.TaxCode = TfString.value s → m.toUpdateInput.TaxCode = some s) ∧
    ((m.toUpdateInput.IncludesTax = none ↔ m.IncludesTax = TfBool.null) ∧
      ∀ b, m.IncludesTax = TfBool.value b → m.toUpdateInput.IncludesTax = some b) := by
  have hstr : ∀ t : TfString, t ≠ TfString.unknown →
      (t.ValueStringPointer = none ↔ t = TfString.null) ∧
      ∀ s, t = TfString.value s → t.ValueStringPointer = some s := by
    intro t ht
    cases t with
    | null => simp [TfString.ValueStringPointer, TfString.IsNull]
    | unknown => exact absurd rfl ht
    | value s => simp [TfString.ValueStringPointer, TfString.IsNull, TfString.ValueString]
  have hlist : ∀ l : Slice TfString,
      (utils.ConvertToPointerStringSlice l = none ↔ l = none) ∧
      ∀ ss : List String, l = some (ss.map TfString.value) →
        utils.ConvertToPointerStringSlice l = some ss := by
    intro l
    cases l with
    | none => simp [utils.ConvertToPointerStringSlice]
    | some xs =>
      refine ⟨by simp [utils.ConvertToPointerStringSlice], ?_⟩
      intro ss hss
      cases hss
      simp only [utils.ConvertToPointerStringSlice, ValueString_map_value]
  have hnum : ∀ t : TfNumber,
      (utils.ConvertToPointerFloat32 t = none ↔
        t = TfNumber.null ∨ t = TfNumber.unknown) ∧
      ∀ f, t = TfNumber.value f → utils.ConvertToPointerFloat32 t = some f.Float32 := by
    intro t
    cases t <;>
      simp [utils.ConvertToPointerFloat32, TfNumber.IsUnknown, TfNumber.IsNull,
        TfNumber.ValueBigFloat]
  have hbool : ∀ t : TfBool, t ≠ TfBool.unknown →
      (t.ValueBoolPointer = none ↔ t = TfBool.null) ∧
      ∀ b, t = TfBool.value b → t.ValueBoolPointer = some b := by
    intro t ht
    cases t with
    | null => simp [TfBool.ValueBoolPointer, TfBool.IsNull]
    | unknown => exact absurd rfl ht
    | value b => simp [TfBool.ValueBoolPointer, TfBool.IsNull, TfBool.ValueBool]
  exact ⟨hstr _ hName, hstr _ hCurrency, hnum _, hlist _, hlist _, hlist _,
    hstr _ hTaxCode, hbool _ hIncludesTax⟩

/-- Witness for C9 as amended: the update request of the sample region, whose tax code
and tax flag are null. -/
theorem toUpdateInput_absent_iff_not_set_witness :
    sampleRegion.toUpdateInput.Name = some "EU" ∧
    sampleRegion.toUpdateInput.Countries = some ["de", "fr"] ∧
    sampleRegion.toUpdateInput.TaxCode = none ∧
    sampleRegion.toUpdateInput.IncludesTax = none := by
  have h := toUpdateInput_absent_iff_not_set sampleRegion (by decide) (by decide)
    (by decide) (by decide)
  exact ⟨h.1.2 "EU" rfl, h.2.2.2.2.2.1.2 ["de", "fr"] rfl, h.2.2.2.2.2.2.1.1.mpr rfl,
    h.2.2.2.2.2.2.2.1.mpr rfl⟩


/-- For every store state, `toDeleteInput` is the request that `toUpdateInput` builds
for a model whose attributes are all null: every field is absent. -/
theorem toDeleteInput_is_empty_update (m : storeResourceModel) :
    m.toDeleteInput = storeResourceModel.toUpdateInput
      { ID := TfString.null, Name := TfString.null, DefaultCurrencyCode := TfString.null
        Currencies := none, SwapLinkTemplate := TfString.null
        PaymentLinkTemplate := TfString.null, InviteLinkTemplate := TfString.null } := rfl

/-- C10, at the failing input: `Delete` on a store whose link templates are set issues
one call, `PostStoreWithResponse`, and reports a diagnostic on a 404 answer, but the
request it sends leaves the three link templates absent, as an update that changes
nothing does, instead of setting them to empty values. -/
theorem store_Delete_sends_absent_templates :
    storeResource.Delete (plainCodec storeResourceModel) (some emptyOkClient)
        { State := sampleStore } { State := sampleStore, Diagnostics := [] }
      = Except.ok
        { resp := { State := sampleStore, Diagnostics := [] }
          calls := [{ Payload := medusa.AdminStoresRes
                      call := medusa.RemoteCall.PostStoreWithResponse
                        { Name := none, DefaultCurrencyCode := none, Currencies := none
                          SwapLinkTemplate := none, PaymentLinkTemplate := none
                          InviteLinkTemplate := none } }] } ∧
    sampleStore.toDeleteInput.SwapLinkTemplate ≠ some "" ∧
    sampleStore.toDeleteInput.PaymentLinkTemplate ≠ some "" ∧
    sampleStore.toDeleteInput.InviteLinkTemplate ≠ some "" ∧
    storeResource.Delete (plainCodec storeResourceModel) (some notFoundClient)
        { State := sampleStore } { State := sampleStore, Diagnostics := [] }
      = Except.ok
        { resp :=
            { State := sampleStore
              Diagnostics :=
                [{ severity := Severity.error
                   summary := "Error deleting store"
                   detail := "Could not delete store, status code: 404 (not found)" }] }
          calls := [{ Payload := medusa.AdminStoresRes
                      call := medusa.RemoteCall.PostStoreWithResponse
                        { Name := none, DefaultCurrencyCode := none, Currencies := none
                          SwapLinkTemplate := none, PaymentLinkTemplate := none
                          InviteLinkTemplate := none } }] } := by
  refine ⟨rfl, ?_, ?_, ?_, rfl⟩ <;> decide


/-- C11: `login` returns the transport error itself when the call fails at transport
level, the error `login failed: <status text>` when the status code is not 200, and the
access token of the success payload otherwise; it returns an error exactly in the first
two cases. -/
theorem login_error_iff (post : medusa.TokenEndpoint) (c : medusa.Client)
    (credentials : medusa.PostTokenJSONRequestBody) :
    (∀ err, (post c credentials).answer.2 = some err →
      login post (some c) credentials = Except.ok ("", some err)) ∧
    (∀ resp, (post c credentials).answer = (some resp, none) → resp.StatusCode ≠ 200 →
      login post (some c) credentials
        = Except.ok ("", some { Error := "login failed: " ++ resp.Status })) ∧
    (∀ resp payload token, (post c credentials).answer = (some resp, none) →
      resp.StatusCode = 200 → resp.JSON200 = some payload →
      payload.AccessToken = some token →
      login post (some c) credentials = Except.ok (token, none)) ∧
    ((∃ s e, login post (some c) credentials = Except.ok (s, some e)) ↔
      ((post c credentials).answer.2 ≠ none ∨
        ∃ resp, (post c credentials).answer.1 = some resp ∧ resp.StatusCode ≠ 200)) := by
  refine ⟨?_, ?_, ?_, ?_⟩
  · intro err h
    simp [login, h]
  · intro resp h hs
    simp [login, h, hs]
  · intro resp payload token h hs hp ht
    simp [login, h, hs, hp, ht]
  · cases h2 : (post c credentials).answer.2 with
    | some err => simp [login, h2]
    | none =>
      cases h1 : (post c credentials).answer.1 with
      | none => simp [login, h1, h2]
      | some resp =>
        by_cases hs : resp.StatusCode = 200
        · cases hp : resp.JSON200 with
          | none => simp [login, h1, h2, hs, hp]
          | some payload =>
            cases ht : payload.AccessToken <;> simp [login, h1, h2, hs, hp, ht]
        · simp [login, h1, h2, hs]

/-- Witness for C11: a login refused with status 401. -/
theorem login_error_iff_witness :
    login unauthorizedEndpoint (some sampleLoginClient)
        { Email := "admin@shop.test", Password := "secret" }
      = Except.ok ("", some { Error := "login failed: 401 Unauthorized" }) :=
  (login_error_iff unauthorizedEndpoint sampleLoginClient
    { Email := "admin@shop.test", Password := "secret" }).2.1 _ rfl (by decide)

/-- C12, at the failing inputs: on a status-200 answer whose success payload is absent,
and on one whose access token is absent, `login` dereferences a nil pointer and panics
instead of returning a token or an error. -/
theorem login_panics_without_token :
    login undecodedEndpoint (some sampleLoginClient)
        { Email := "admin@shop.test", Password := "secret" }
      = Except.error Panic.nilDereference ∧
    login tokenlessEndpoint (some sampleLoginClient)
        { Email := "admin@shop.test", Password := "secret" }
      = Except.error Panic.nilDereference := ⟨rfl, rfl⟩


/-- The client that `NewClientWithResponses` builds has the HTTP client `&http.Client{}`
unless an option sets one, and the request editors that the options add; its server is
the url, with a slash added when the url does not end in one. -/
theorem NewClientWithResponses_plain (url : String) :
    ∃ server, (server = url ∨ server = url ++ "/") ∧
      medusa.NewClientWithResponses url []
        = (some { Server := server, Client_ := some { Transport := RoundTripper.nil }
                  RequestEditors := [] }, none) := by
  by_cases h : url.data.getLast? = some '/'
  · exact ⟨url, Or.inl rfl, by simp [medusa.NewClientWithResponses, medusa.applyOptions, h]⟩
  · exact ⟨url ++ "/", Or.inr rfl,
      by simp [medusa.NewClientWithResponses, medusa.applyOptions, h]⟩

/-- The client that `NewClientWithResponses` builds with the bearer-token editor. -/
theorem NewClientWithResponses_bearer (url token : String) :
    ∃ server, medusa.NewClientWithResponses url
        [medusa.WithRequestEditorFn (securityprovider.Intercept token)]
      = (some { Server := server, Client_ := some { Transport := RoundTripper.nil }
                RequestEditors := [securityprovider.Intercept token] }, none) := by
  by_cases h : url.data.getLast? = some '/'
  · exact ⟨url, by
      simp [medusa.NewClientWithResponses, medusa.applyOptions, medusa.WithRequestEditorFn, h]⟩
  · exact ⟨url ++ "/", by
      simp [medusa.NewClientWithResponses, medusa.applyOptions, medusa.WithRequestEditorFn, h]⟩

/-- After `Header.Set`, the header holds exactly the value set. -/
theorem lookup_Set_Authorization (h : Header) (value : String) :
    Header.lookup (h.Set "Authorization" value) "Authorization" = some [value] := by
  have hcanon : CanonicalMIMEHeaderKey "Authorization" = "Authorization" := by decide
  have hfind : ∀ l : Header,
      (l.filter (fun entry => entry.1 != "Authorization")
          ++ [("Authorization", [value])]).find? (fun entry => entry.1 == "Authorization")
        = some ("Authorization", [value]) := by
    intro l
    induction l with
    | nil => simp
    | cons x rest ih =>
      by_cases hx : x.1 = "Authorization"
      · simp [List.filter, hx]
      · have hb : (x.1 != "Authorization") = true := by simpa using hx
        have hb2 : (x.1 == "Authorization") = false := by simpa using hx
        simp only [List.filter, hb, List.cons_append, List.find?_cons, hb2]
        exact ih
  simp only [Header.lookup, Header.Set, hcanon, hfind, Option.map_some']

/-- The method `Configure` does not read its receiver: two providers, whatever their
HTTP clients, configure alike. -/
theorem Configure_ignores_receiver (p q : medusaProvider) {Raw : Type}
    (env : String → String) (post : medusa.TokenEndpoint)
    (Get : Raw → List Diagnostic × medusaProviderModel)
    (req : provider.ConfigureRequest Raw) (resp : provider.ConfigureResponse) :
    p.Configure env post Get req resp = q.Configure env post Get req resp := rfl

/-- C13, at the failing input: when the login is refused with status 401, `Configure`
reports the error diagnostic but goes on, builds the second client with the empty token
and hands it to the data sources and to the resources. -/
theorem Configure_hands_client_after_failed_login :
    ∃ out handed,
      (New []).Configure emptyEnv unauthorizedEndpoint (fun raw => ([], raw))
          { Config := sampleConfig }
          { Diagnostics := [], DataSourceData := none, ResourceData := none }
        = Except.ok out ∧
      out.resp.Diagnostics =
        [{ severity := Severity.error
           summary := "Unable to Login to Medusa API"
           detail := "login failed: 401 Unauthorized" }] ∧
      out.resp.ResourceData = some handed ∧
      out.resp.DataSourceData = some handed ∧
      handed.Server = "https://shop.test/" ∧
      handed.editedHeaders [] = [("Authorization", ["Bearer "])] :=
  ⟨_, _, rfl, by decide, rfl, rfl, by decide, by decide⟩


/-- C14, at the failing input: for the provider that `main` builds, with the retry and the
debug option, the client that issues the login call and the client handed to the
resources both carry the HTTP client `&http.Client{}` of the SDK, not `p.httpClient` with
its debug and retry layers. -/
theorem Configure_bypasses_httpClient :
    (New [WithRetryableClient 10, WithDebugClient]).httpClient
      = { Transport := RoundTripper.LogTransport (RoundTripper.retryable 10) } ∧
    ∃ out first handed,
      (New [WithRetryableClient 10, WithDebugClient]).Configure emptyEnv grantingEndpoint
          (fun raw => ([], raw)) { Config := sampleConfig }
          { Diagnostics := [], DataSourceData := none, ResourceData := none }
        = Except.ok out ∧
      out.calls = [{ client := first
                     body := { Email := "admin@shop.test", Password := "secret" } }] ∧
      out.resp.ResourceData = some handed ∧
      first.Client_ = some { Transport := RoundTripper.nil } ∧
      handed.Client_ = some { Transport := RoundTripper.nil } ∧
      first.Client_ ≠ some (New [WithRetryableClient 10, WithDebugClient]).httpClient ∧
      handed.Client_ ≠ some (New [WithRetryableClient 10, WithDebugClient]).httpClient :=
  ⟨rfl, _, _, _, rfl, rfl, rfl, rfl, rfl, by decide, by decide⟩

/-- C15 fails as stated: `Configure` issues no remote call when the configuration fails
to decode, where it returns at once and hands no client on; and it issues none when the
SDK rejects the login request before sending it, as it does for an e-mail address that
does not validate, where it calls `PostTokenWithResponse` once, reports the error and
still hands a client on. -/
theorem Configure_issues_no_call :
    (∃ out,
      (New []).Configure emptyEnv grantingEndpoint (fun raw => ([invalidConfig], raw))
          { Config := sampleConfig }
          { Diagnostics := [], DataSourceData := none, ResourceData := none }
        = Except.ok out ∧
      out.calls = [] ∧ out.logins = [] ∧
      out.resp.Diagnostics = [invalidConfig] ∧
      out.resp.DataSourceData = none ∧ out.resp.ResourceData = none) ∧
    (∃ out first handed,
      (New []).Configure emptyEnv emailCheckingEndpoint (fun raw => ([], raw))
          { Config := { sampleConfig with Email := TfString.value "" } }
          { Diagnostics := [], DataSourceData := none, ResourceData := none }
        = Except.ok out ∧
      out.calls = [] ∧
      out.logins = [{ client := first, body := { Email := "", Password := "secret" } }] ∧
      out.resp.Diagnostics =
        [{ severity := Severity.error
           summary := "Unable to Login to Medusa API"
           detail := "json: error calling MarshalJSON for type types.Email: "
             ++ "email: failed to pass regex validation" }] ∧
      out.resp.ResourceData = some handed) :=
  ⟨⟨_, rfl, rfl, rfl, rfl, rfl, rfl⟩, ⟨_, _, _, rfl, rfl, rfl, by decide, rfl⟩⟩

/-- C15, amended: when the configuration decodes without error, the login request is sent
and `login` returns a token, `Configure` issues exactly one remote call, the login, through a
client that has no request editor and so leaves the headers of a request as they are; the
client it hands to the data sources and to the resources sets
`Authorization: Bearer <token>` on every outgoing request, with the token that `login`
returned. -/
theorem Configure_one_login_then_bearer (p : medusaProvider) {Raw : Type}
    (env : String → String) (post : medusa.TokenEndpoint)
    (Get : Raw → List Diagnostic × medusaProviderModel)
    (req : provider.ConfigureRequest Raw) (resp : provider.ConfigureResponse)
    (token : String)
    (hconfig : diag.HasError (diag.Append resp.Diagnostics (Get req.Config).1) = false)
    (hsent : ∀ client,
      (medusa.NewClientWithResponses (Configure.settings env (Get req.Config).2).1 []).1
        = some client →
      (post client
        { Email := (Configure.settings env (Get req.Config).2).2.1
          Password := (Configure.settings env (Get req.Config).2).2.2 }).isSent = true)
    (hlogin : login post
        (medusa.NewClientWithResponses (Configure.settings env (Get req.Config).2).1 []).1
        { Email := (Configure.settings env (Get req.Config).2).2.1
          Password := (Configure.settings env (Get req.Config).2).2.2 }
      = Except.ok (token, none)) :
    ∃ out first handed,
      p.Configure env post Get req resp = Except.ok out ∧
      out.calls = [{ client := first
                     body := { Email := (Configure.settings env (Get req.Config).2).2.1
                               Password := (Configure.settings env (Get req.Config).2).2.2 } }] ∧
      (∀ h : Header, first.editedHeaders h = h) ∧
      out.resp.DataSourceData = some handed ∧
      out.resp.ResourceData = some handed ∧
      ∀ h : Header,
        Header.lookup (handed.editedHeaders h) "Authorization" = some ["Bearer " ++ token] := by
  obtain ⟨s1, _, h1⟩ :=
    NewClientWithResponses_plain (Configure.settings env (Get req.Config).2).1
  obtain ⟨s2, h2⟩ :=
    NewClientWithResponses_bearer (Configure.settings env (Get req.Config).2).1 token
  have hs := hsent _ (by rw [h1])
  rw [h1] at hlogin
  apply Exists.intro
  refine ⟨{ Server := s1, Client_ := some { Transport := RoundTripper.nil }
            RequestEditors := [] },
    { Server := s2, Client_ := some { Transport := RoundTripper.nil }
      RequestEditors := [securityprovider.Intercept token] }, ?h1, ?h2, ?h3, ?h4, ?h5, ?h6⟩
  case h1 =>
    simp only [medusaProvider.Configure, hconfig, h1, h2, hlogin, Bool.false_eq_true,
      if_false]
    rfl
  case h2 => simp [List.filter, hs]
  case h4 => rfl
  case h5 => rfl
  case h3 =>
    intro h
    rfl
  case h6 =>
    intro h
    exact lookup_Set_Authorization h ("Bearer " ++ token)

/-- Witness for C15 as amended: configuring against a remote side that grants the token
`tok_1`. -/
theorem Configure_one_login_then_bearer_witness :
    ∃ out first handed,
      (New []).Configure emptyEnv grantingEndpoint (fun raw => ([], raw))
          { Config := sampleConfig }
          { Diagnostics := [], DataSourceData := none, ResourceData := none }
        = Except.ok out ∧
      out.calls = [{ client := first
                     body := { Email := "admin@shop.test", Password := "secret" } }] ∧
      (∀ h : Header, first.editedHeaders h = h) ∧
      out.resp.DataSourceData = some handed ∧
      out.resp.ResourceData = some handed ∧
      ∀ h : Header,
        Header.lookup (handed.editedHeaders h) "Authorization" = some ["Bearer " ++ "tok_1"] :=
  Configure_one_login_then_bearer (New []) emptyEnv grantingEndpoint (fun raw => ([], raw))
    { Config := sampleConfig }
    { Diagnostics := [], DataSourceData := none, ResourceData := none } "tok_1"
    (by decide) (fun _ _ => rfl) rfl

/-- C16: whenever the configuration decodes without error and `login` returns, `Configure`
calls the login with the email and the password, on a client for the url, and hands on a
client for the url, where each of url, email and password is the configuration's value
when that attribute is not null there (the empty string for a known empty string, and for
an unknown value) and the value of its environment variable when the attribute is null,
each depending on its own attribute and variable only. Without any condition, `Configure`
behaves as it does in an empty environment on the configuration that holds these three
values. -/
theorem Configure_settings_precedence (p : medusaProvider) {Raw : Type}
    (env : String → String) (post : medusa.TokenEndpoint)
    (Get : Raw → List Diagnostic × medusaProviderModel)
    (req : provider.ConfigureRequest Raw) (resp : provider.ConfigureResponse)
    (url email password : String)
    (hurl : url = if (Get req.Config).2.URL.IsNull then env "MEDUSA_URL"
      else (Get req.Config).2.URL.ValueString)
    (hemail : email = if (Get req.Config).2.Email.IsNull then env "MEDUSA_ADMIN_EMAIL"
      else (Get req.Config).2.Email.ValueString)
    (hpassword : password
      = if (Get req.Config).2.Password.IsNull then env "MEDUSA_ADMIN_PASSWORD"
        else (Get req.Config).2.Password.ValueString) :
    (∀ token loginErr,
      diag.HasError (diag.Append resp.Diagnostics (Get req.Config).1) = false →
      login post (medusa.NewClientWithResponses url []).1
          { Email := email, Password := password } = Except.ok (token, loginErr) →
      ∃ out first handed,
        p.Configure env post Get req resp = Except.ok out ∧
        out.logins = [{ client := first, body := { Email := email, Password := password } }] ∧
        (first.Server = url ∨ first.Server = url ++ "/") ∧
        out.resp.DataSourceData = some handed ∧
        out.resp.ResourceData = some handed ∧
        (handed.Server = url ∨ handed.Server = url ++ "/")) ∧
    p.Configure env post Get req resp
      = p.Configure (fun _ => "") post
          (fun raw => ((Get raw).1,
            { URL := TfString.value url, Email := TfString.value email
              Password := TfString.value password })) req resp ∧
    (∀ s, (Get req.Config).2.URL = TfString.value s → url = s) ∧
    (∀ s, (Get req.Config).2.Email = TfString.value s → email = s) ∧
    (∀ s, (Get req.Config).2.Password = TfString.value s → password = s) ∧
    ((Get req.Config).2.URL = TfString.null → url = env "MEDUSA_URL") ∧
    ((Get req.Config).2.Email = TfString.null → email = env "MEDUSA_ADMIN_EMAIL") ∧
    ((Get req.Config).2.Password = TfString.null → password = env "MEDUSA_ADMIN_PASSWORD") := by
  have hsettings : Configure.settings env (Get req.Config).2 = (url, email, password) := by
    rw [hurl, hemail, hpassword]
    cases hU : (Get req.Config).2.URL <;> cases hE : (Get req.Config).2.Email <;>
      cases hP : (Get req.Config).2.Password <;>
      simp [Configure.settings, hU, hE, hP, TfString.IsNull]
  refine ⟨?_, ?_, ?_, ?_, ?_, ?_, ?_, ?_⟩
  · intro token loginErr hconfig hlogin
    obtain ⟨s1, hs1, h1⟩ := NewClientWithResponses_plain url
    by_cases hslash : url.data.getLast? = some '/'
    · have h2 : medusa.NewClientWithResponses url
          [medusa.WithRequestEditorFn (securityprovider.Intercept token)]
          = (some { Server := url, Client_ := some { Transport := RoundTripper.nil }
                    RequestEditors := [securityprovider.Intercept token] }, none) := by
        simp [medusa.NewClientWithResponses, medusa.applyOptions,
          medusa.WithRequestEditorFn, hslash]
      rw [h1] at hlogin
      apply Exists.intro
      refine ⟨{ Server := s1, Client_ := some { Transport := RoundTripper.nil }
                RequestEditors := [] },
        { Server := url, Client_ := some { Transport := RoundTripper.nil }
          RequestEditors := [securityprovider.Intercept token] },
        ?h1, ?h2, hs1, ?h4, ?h5, Or.inl rfl⟩
      case h1 =>
        simp only [medusaProvider.Configure, hconfig, hsettings, h1, h2, hlogin,
          Bool.false_eq_true, if_false]
        rfl
      case h2 => rfl
      case h4 => rfl
      case h5 => rfl
    · have h2 : medusa.NewClientWithResponses url
          [medusa.WithRequestEditorFn (securityprovider.Intercept token)]
          = (some { Server := url ++ "/", Client_ := some { Transport := RoundTripper.nil }
                    RequestEditors := [securityprovider.Intercept token] }, none) := by
        simp [medusa.NewClientWithResponses, medusa.applyOptions,
          medusa.WithRequestEditorFn, hslash]
      rw [h1] at hlogin
      apply Exists.intro
      refine ⟨{ Server := s1, Client_ := some { Transport := RoundTripper.nil }
                RequestEditors := [] },
        { Server := url ++ "/", Client_ := some { Transport := RoundTripper.nil }
          RequestEditors := [securityprovider.Intercept token] },
        ?h1, ?h2, hs1, ?h4, ?h5, Or.inr rfl⟩
      case h1 =>
        simp only [medusaProvider.Configure, hconfig, hsettings, h1, h2, hlogin,
          Bool.false_eq_true, if_false]
        rfl
      case h2 => rfl
      case h4 => rfl
      case h5 => rfl
  · have hexplicit : Configure.settings (fun _ => "")
        { URL := TfString.value url, Email := TfString.value email
          Password := TfString.value password } = (url, email, password) := rfl
    simp only [medusaProvider.Configure, hsettings, hexplicit]
  · intro s h
    rw [hurl, h]; rfl
  · intro s h
    rw [hemail, h]; rfl
  · intro s h
    rw [hpassword, h]; rfl
  · intro h
    rw [hurl, h]; rfl
  · intro h
    rw [hemail, h]; rfl
  · intro h
    rw [hpassword, h]; rfl

/-- Witness for C16: with the url null in the configuration and `MEDUSA_URL` set,
`Configure` logs in with the email and the password of the configuration on a client for
the url of the environment, and hands on a client for that url. -/
theorem Configure_settings_precedence_witness :
    ∃ out first handed,
      (New []).Configure sampleEnv grantingEndpoint (fun raw => ([], raw))
          { Config := { sampleConfig with URL := TfString.null } }
          { Diagnostics := [], DataSourceData := none, ResourceData := none }
        = Except.ok out ∧
      out.logins = [{ client := first
                      body := { Email := "admin@shop.test", Password := "secret" } }] ∧
      (first.Server = "https://env.test" ∨ first.Server = "https://env.test" ++ "/") ∧
      out.resp.DataSourceData = some handed ∧
      out.resp.ResourceData = some handed ∧
      (handed.Server = "https://env.test" ∨ handed.Server = "https://env.test" ++ "/") :=
  (Configure_settings_precedence (New []) sampleEnv grantingEndpoint (fun raw => ([], raw))
    { Config := { sampleConfig with URL := TfString.null } }
    { Diagnostics := [], DataSourceData := none, ResourceData := none }
    "https://env.test" "admin@shop.test" "secret" rfl rfl rfl).1 "tok_1" none
    (by decide) rfl

/-- A `Create` whose remote call is answered with status 200 and whose payload decodes
reports the encoding of the decoded model. -/
theorem Create_of_decoded (K : ResourceKind) {Raw : Type} (codec : tfsdk.Codec Raw K.Model)
    (c : medusa.ClientWithResponsesInterface) (req : resource.CreateRequest Raw)
    (resp : resource.Response Raw) (r : medusa.ClientResponse K.CreatePayload)
    (decoded : K.Model)
    (hplan : diag.HasError (diag.Append resp.Diagnostics (codec.Get req.Plan).1) = false)
    (hanswer : c.send (K.createCall (codec.Get req.Plan).2) = (some r, none))
    (hstatus : r.StatusCode = 200)
    (hdecoded : K.fromCreate (codec.Get req.Plan).2 r.JSON200 = Except.ok (decoded, none)) :
    K.Create codec (some c) req resp = Except.ok
      { resp :=
          { State := (tfsdk.StateSet codec resp.State decoded).2
            Diagnostics := diag.Append (diag.Append resp.Diagnostics (codec.Get req.Plan).1)
              (tfsdk.StateSet codec resp.State decoded).1 }
        calls := [{ Payload := K.CreatePayload
                    call := K.createCall (codec.Get req.Plan).2 }] } := by
  simp only [ResourceKind.Create, hplan, hanswer, utils.CheckCreateError,
    medusa.asApiResponse, hstatus, hdecoded]
  rfl

/-- A `Read` whose remote call is answered with status 200 and whose payload decodes
reports the encoding of the decoded model. -/
theorem Read_of_decoded (K : ResourceKind) {Raw : Type} (codec : tfsdk.Codec Raw K.Model)
    (c : medusa.ClientWithResponsesInterface) (req : resource.ReadRequest Raw)
    (resp : resource.Response Raw) (r : medusa.ClientResponse K.ReadPayload)
    (decoded : K.Model)
    (hstate : diag.HasError (diag.Append resp.Diagnostics (codec.Get req.State).1) = false)
    (hanswer : c.send (K.readCall (codec.Get req.State).2) = (some r, none))
    (hstatus : r.StatusCode = 200)
    (hdecoded : K.fromRead (codec.Get req.State).2 r.JSON200 = Except.ok (decoded, none)) :
    K.Read codec (some c) req resp = Except.ok
      { resp :=
          { State := (tfsdk.StateSet codec resp.State decoded).2
            Diagnostics := diag.Append (diag.Append resp.Diagnostics (codec.Get req.State).1)
              (tfsdk.StateSet codec resp.State decoded).1 }
        calls := [{ Payload := K.ReadPayload
                    call := K.readCall (codec.Get req.State).2 }] } := by
  simp only [ResourceKind.Read, hstate, hanswer, utils.CheckGetError,
    medusa.asApiResponse, hstatus, hdecoded]
  rfl

/-- When a create payload and a read payload carry the same entity values, the decoder
of `Read` produces from the second, over any prior state, what the decoder of `Create`
produces from the first over any plan. -/
theorem fromRead_of_sameEntity (k : EntityKind) (plan state : k.resource.Model)
    (pc : k.resource.CreatePayload) (pr : k.resource.ReadPayload)
    (hsame : sameEntity k pc pr) :
    k.resource.fromRead state (some pr) = k.resource.fromCreate plan (some pc) := by
  cases k
  case region =>
    have h : pc = pr := hsame
    subst h
    show regionResourceModel.fromRemote state (some pc)
      = regionResourceModel.fromRemote plan (some pc)
    simp only [regionResourceModel.fromRemote]
  case store =>
    have h : medusa.AdminStoresRes.Store pc = medusa.AdminExtendedStoresRes.Store pr := hsame
    show Except.ok (storeResourceModel.fromGetRemote state (some pr))
      = Except.ok (storeResourceModel.fromUpdateRemote plan (some pc))
    simp only [storeResourceModel.fromGetRemote, storeResourceModel.fromUpdateRemote, h]
  case salesChannel =>
    have h : pc = pr := hsame
    subst h
    rfl
  case productCollection =>
    have h : pc = pr := hsame
    subst h
    rfl
  case productCategory =>
    have h : pc = pr := hsame
    subst h
    rfl
  case shippingProfile =>
    have h : pc = pr := hsame
    subst h
    rfl
  case customerGroup =>
    have h : pc = pr := hsame
    subst h
    rfl


/-- C17: for every entity kind, when the create call and the read call are both answered
with status 200 and with payloads that carry the same entity values, `Create` and `Read`
both return and report the same entity, the encoding of the model decoded from the
payload, whatever the plan and the prior state were. -/
theorem Read_reports_what_Create_reported (k : EntityKind) {Raw : Type}
    (codec : tfsdk.Codec Raw k.resource.Model)
    (cCreate cRead : medusa.ClientWithResponsesInterface)
    (reqCreate : resource.CreateRequest Raw) (respCreate : resource.Response Raw)
    (reqRead : resource.ReadRequest Raw) (respRead : resource.Response Raw)
    (rc : medusa.ClientResponse k.resource.CreatePayload)
    (rr : medusa.ClientResponse k.resource.ReadPayload)
    (pc : k.resource.CreatePayload) (pr : k.resource.ReadPayload)
    (decoded : k.resource.Model)
    (hplan : diag.HasError
      (diag.Append respCreate.Diagnostics (codec.Get reqCreate.Plan).1) = false)
    (hstate : diag.HasError
      (diag.Append respRead.Diagnostics (codec.Get reqRead.State).1) = false)
    (hcreate : cCreate.send (k.resource.createCall (codec.Get reqCreate.Plan).2)
      = (some rc, none))
    (hcreateStatus : rc.StatusCode = 200) (hcreatePayload : rc.JSON200 = some pc)
    (hread : cRead.send (k.resource.readCall (codec.Get reqRead.State).2) = (some rr, none))
    (hreadStatus : rr.StatusCode = 200) (hreadPayload : rr.JSON200 = some pr)
    (hsame : sameEntity k pc pr)
    (hdecoded : k.resource.fromCreate (codec.Get reqCreate.Plan).2 (some pc)
      = Except.ok (decoded, none))
    (hencoded : diag.HasError (codec.Set decoded).1 = false) :
    ∃ outCreate outRead,
      k.resource.Create codec (some cCreate) reqCreate respCreate = Except.ok outCreate ∧
      k.resource.Read codec (some cRead) reqRead respRead = Except.ok outRead ∧
      outCreate.resp.State = (codec.Set decoded).2 ∧
      outRead.resp.State = (codec.Set decoded).2 := by
  have hdecodedRead : k.resource.fromRead (codec.Get reqRead.State).2 rr.JSON200
      = Except.ok (decoded, none) := by
    rw [hreadPayload, fromRead_of_sameEntity k (codec.Get reqCreate.Plan).2 _ pc pr hsame]
    exact hdecoded
  rw [← hcreatePayload] at hdecoded
  refine ⟨_, _, Create_of_decoded k.resource codec cCreate reqCreate respCreate rc decoded
      hplan hcreate hcreateStatus hdecoded,
    Read_of_decoded k.resource codec cRead reqRead respRead rr decoded
      hstate hread hreadStatus hdecodedRead, ?_, ?_⟩
  · simp [tfsdk.StateSet, hencoded]
  · simp [tfsdk.StateSet, hencoded]

/-- Witness for C17: a region created from a plan named `Europe` and read over a prior
state, against a remote side that answers both calls with the region `reg_1`; both
operations report that region. -/
theorem Read_reports_what_Create_reported_witness :
    ∃ outCreate outRead,
      regionResource.Create (plainCodec regionResourceModel) (some regionEchoClient)
          { Plan := sampleRegionPlan } { State := sampleRegionPlan, Diagnostics := [] }
        = Except.ok outCreate ∧
      regionResource.Read (plainCodec regionResourceModel) (some regionEchoClient)
          { State := { sampleRegion with Name := TfString.value "Old" } }
          { State := { sampleRegion with Name := TfString.value "Old" }, Diagnostics := [] }
        = Except.ok outRead ∧
      outCreate.resp.State = sampleRegion ∧
      outRead.resp.State = sampleRegion :=
  Read_reports_what_Create_reported EntityKind.region (plainCodec regionResourceModel)
    regionEchoClient regionEchoClient
    { Plan := sampleRegionPlan } { State := sampleRegionPlan, Diagnostics := [] }
    { State := { sampleRegion with Name := TfString.value "Old" } }
    { State := { sampleRegion with Name := TfString.value "Old" }, Diagnostics := [] }
    { Body := "", HTTPResponse := some { StatusCode := 200, Status := "200 OK" }
      JSON200 := some sampleRegionPayload }
    { Body := "", HTTPResponse := some { StatusCode := 200, Status := "200 OK" }
      JSON200 := some sampleRegionPayload }
    sampleRegionPayload sampleRegionPayload sampleRegion
    (by decide) (by decide) rfl rfl rfl rfl rfl rfl rfl rfl (by decide)


/-- The elements of the result of `ExtractIDs` are the ids of the items, in order. -/
theorem ExtractIDs_getD {T : Type} (items : Option (List T)) (getID : T → String) :
    (utils.ExtractIDs items getID).getD [] = (items.getD []).map getID := by
  have hfold : ∀ (l : List T) (acc : Slice String),
      (l.foldl (fun ids item => some (ids.getD [] ++ [getID item])) acc).getD []
        = acc.getD [] ++ l.map getID := by
    intro l
    induction l with
    | nil => intro acc; simp
    | cons x rest ih =>
      intro acc
      rw [List.foldl_cons, ih]
      simp
  cases items with
  | none => rfl
  | some l => simpa [utils.ExtractIDs] using hfold l none

/-- Converting the ids extracted from remote items yields the known strings of these ids,
in order. -/
theorem ConvertToTerraformStringSlice_ExtractIDs {T : Type} (items : Option (List T))
    (getID : T → String) :
    utils.ConvertToTerraformStringSlice (utils.ExtractIDs items getID)
      = some (((items.getD []).map getID).map TfString.value) := by
  simp only [utils.ConvertToTerraformStringSlice, ExtractIDs_getD]
  rfl

/-- C18: for a region model `m` whose name, currency code, tax code, tax flag and three
lists are known, decoding with `fromRemote` a remote region that echoes `toCreateInput m`
in these attributes (providers and countries carrying the declared strings as ids and
ISO-2 codes, in the declared order) yields a model that agrees with `m` on them and holds
the remote id as its identifier. -/
theorem fromRemote_echo_of_toCreateInput (m prior : regionResourceModel) (r : medusa.Region)
    (name currency taxCode : String) (includesTax : Bool)
    (payment fulfillment countries : List String)
    (hName : m.Name = TfString.value name)
    (hCurrency : m.CurrencyCode = TfString.value currency)
    (hTaxCode : m.TaxCode = TfString.value taxCode)
    (hIncludesTax : m.IncludesTax = TfBool.value includesTax)
    (hPayment : m.PaymentProviders = some (payment.map TfString.value))
    (hFulfillment : m.FulfillmentProviders = some (fulfillment.map TfString.value))
    (hCountries : m.Countries = some (countries.map TfString.value))
    (hrName : r.Name = m.toCreateInput.Name)
    (hrCurrency : r.CurrencyCode = m.toCreateInput.CurrencyCode)
    (hrTaxCode : r.TaxCode = m.toCreateInput.TaxCode)
    (hrIncludesTax : r.IncludesTax = m.toCreateInput.IncludesTax)
    (hrPayment : (r.PaymentProviders.getD []).map (fun pp => pp.Id)
      = m.toCreateInput.PaymentProviders.getD [])
    (hrFulfillment : (r.FulfillmentProviders.getD []).map (fun fp => fp.Id)
      = m.toCreateInput.FulfillmentProviders.getD [])
    (hrCountries : (r.Countries.getD []).map (fun country => country.Iso2)
      = m.toCreateInput.Countries.getD [])
    (hrRate : r.TaxRate ≠ Float32.nan) :
    ∃ decoded,
      regionResourceModel.fromRemote prior (some { Region := r })
        = Except.ok (decoded, none) ∧
      decoded.ID = TfString.value r.Id ∧
      decoded.Name = m.Name ∧
      decoded.CurrencyCode = m.CurrencyCode ∧
      decoded.PaymentProviders = m.PaymentProviders ∧
      decoded.FulfillmentProviders = m.FulfillmentProviders ∧
      decoded.Countries = m.Countries ∧
      decoded.TaxCode = m.TaxCode ∧
      decoded.IncludesTax = m.IncludesTax := by
  have hrate : ∃ n, utils.ConvertToTerraformNumber r.TaxRate = Except.ok n := by
    cases h : r.TaxRate with
    | finite v => exact ⟨_, rfl⟩
    | inf negative => exact ⟨_, rfl⟩
    | nan => exact absurd h hrRate
  obtain ⟨n, hn⟩ := hrate
  simp only [regionResourceModel.toCreateInput, hName, hCurrency, TfString.ValueString]
    at hrName hrCurrency
  simp only [regionResourceModel.toCreateInput, hTaxCode, hIncludesTax,
    TfString.ValueString, TfString.ValueStringPointer, TfString.IsNull,
    TfBool.ValueBoolPointer, TfBool.IsNull, TfBool.ValueBool, Bool.false_eq_true,
    if_false] at hrTaxCode hrIncludesTax
  simp only [regionResourceModel.toCreateInput, hPayment, hFulfillment, hCountries,
    utils.ConvertToStringSlice, ValueString_map_value, Option.getD_some]
    at hrPayment hrFulfillment hrCountries
  apply Exists.intro
  refine ⟨?h1, ?h2⟩
  case h1 =>
    simp only [regionResourceModel.fromRemote, hn]
    rfl
  case h2 =>
    simp only [ConvertToTerraformStringSlice_ExtractIDs, hrPayment, hrFulfillment,
      hrCountries, hrName, hrCurrency, hrTaxCode, hrIncludesTax, hName, hCurrency, hTaxCode,
      hIncludesTax, hPayment, hFulfillment, hCountries]
    simp [types.StringValue, types.StringPointerValue, types.BoolPointerValue]

/-- Witness for C18: decoding the echo of `knownRegion` over an unrelated prior model. -/
theorem fromRemote_echo_of_toCreateInput_witness :
    ∃ decoded,
      regionResourceModel.fromRemote sampleRegionPlan (some { Region := knownRegionEcho })
        = Except.ok (decoded, none) ∧
      decoded.ID = TfString.value "reg_7" ∧
      decoded.Name = knownRegion.Name ∧
      decoded.CurrencyCode = knownRegion.CurrencyCode ∧
      decoded.PaymentProviders = knownRegion.PaymentProviders ∧
      decoded.FulfillmentProviders = knownRegion.FulfillmentProviders ∧
      decoded.Countries = knownRegion.Countries ∧
      decoded.TaxCode = knownRegion.TaxCode ∧
      decoded.IncludesTax = knownRegion.IncludesTax :=
  fromRemote_echo_of_toCreateInput knownRegion sampleRegionPlan knownRegionEcho
    "EU" "eur" "VAT" true ["manual"] ["manual"] ["de", "fr"]
    rfl rfl rfl rfl rfl rfl rfl rfl rfl rfl rfl rfl rfl rfl (by decide)


/-- The function `pow2` is the power of two with an integer exponent. -/
theorem pow2_eq_zpow (e : ℤ) : pow2 e = (2 : ℚ) ^ e := by
  unfold pow2
  split
  · rename_i h
    rw [Nat.cast_pow, Nat.cast_ofNat, ← zpow_natCast, Int.toNat_of_nonneg h]
  · rename_i h
    have h2 : 0 ≤ -e := by omega
    rw [Nat.cast_pow, Nat.cast_ofNat, ← zpow_natCast, Int.toNat_of_nonneg h2, zpow_neg, inv_inv]

/-- Rounding leaves an integer as it is. -/
theorem roundHalfEven_intCast (n : ℤ) : roundHalfEven (n : ℚ) = n := by
  simp [roundHalfEven]

/-- The exponent that `floorLog2` finds for a positive rational is not too large. -/
theorem zpow_floorLog2_le (a : ℚ) (ha : 0 < a) : (2 : ℚ) ^ floorLog2 a ≤ a := by
  have hnum : 0 < a.num := Rat.num_pos.mpr ha
  have hp : ((a.num.natAbs : ℕ) : ℚ) = (a.num : ℚ) := by
    rw [Nat.cast_natAbs, abs_of_pos hnum]
  have hpne : a.num.natAbs ≠ 0 := by
    intro h
    have := Int.natAbs_eq_zero.mp h
    omega
  have hlow : ((2 : ℚ) ^ (Nat.log2 a.num.natAbs)) ≤ a.num.natAbs := by
    exact_mod_cast Nat.log2_self_le hpne
  have hhigh : ((a.den : ℕ) : ℚ) ≤ (2 : ℚ) ^ (Nat.log2 a.den + 1) := by
    exact_mod_cast (Nat.lt_log2_self (n := a.den)).le
  have hden : (0 : ℚ) < a.den := by exact_mod_cast a.den_pos
  unfold floorLog2
  simp only
  split
  · have heq : (2 : ℚ) ^ ((Nat.log2 a.num.natAbs : ℤ) - (Nat.log2 a.den : ℤ) - 1)
        = (2 : ℚ) ^ (Nat.log2 a.num.natAbs) / (2 : ℚ) ^ (Nat.log2 a.den + 1) := by
      rw [show ((Nat.log2 a.num.natAbs : ℤ) - (Nat.log2 a.den : ℤ) - 1)
          = ((Nat.log2 a.num.natAbs : ℕ) : ℤ) - ((Nat.log2 a.den + 1 : ℕ) : ℤ) by push_cast; ring]
      rw [zpow_sub₀ (by norm_num : (2 : ℚ) ≠ 0), zpow_natCast, zpow_natCast]
    rw [heq]
    calc (2 : ℚ) ^ (Nat.log2 a.num.natAbs) / (2 : ℚ) ^ (Nat.log2 a.den + 1)
        ≤ (a.num.natAbs : ℚ) / (a.den : ℚ) :=
          div_le_div₀ (by positivity) hlow hden hhigh
      _ = a := by rw [hp]; exact Rat.num_div_den a
  · rename_i h
    rw [← pow2_eq_zpow]
    exact not_lt.mp h

/-- A value that a `float32` represents exactly is its own nearest `float32`. -/
theorem Float32_of_representable (v : ℚ) (m e : ℤ) (hm : |m| < 2 ^ 24) (he1 : -149 ≤ e)
    (he2 : e ≤ 104) (hv : v = m * pow2 e) :
    (BigFloat.finite v).Float32 = Float32.finite v := by
  by_cases h0 : v = 0
  · simp [BigFloat.Float32, h0]
  have hpos2 : ∀ k : ℤ, (0 : ℚ) < (2 : ℚ) ^ k := fun k => zpow_pos (by norm_num) k
  have hmne : m ≠ 0 := by
    intro h
    apply h0
    rw [hv, h]
    simp
  have ha : |v| = (|m| : ℤ) * (2 : ℚ) ^ e := by
    rw [hv, pow2_eq_zpow, abs_mul, abs_of_pos (hpos2 e), Int.cast_abs]
  have hapos : 0 < |v| := abs_pos.mpr h0
  have hlt : |v| < (2 : ℚ) ^ (24 + e) := by
    rw [ha, zpow_add₀ (by norm_num : (2 : ℚ) ≠ 0)]
    apply mul_lt_mul_of_pos_right _ (hpos2 e)
    have h24 : (2 : ℚ) ^ (24 : ℤ) = ((2 ^ 24 : ℤ) : ℚ) := by norm_num
    rw [h24]
    exact Int.cast_lt.mpr hm
  have hL : floorLog2 |v| - 23 ≤ e := by
    have h1 := lt_of_le_of_lt (zpow_floorLog2_le |v| hapos) hlt
    have h2 := (zpow_lt_zpow_iff_right₀ (by norm_num : (1 : ℚ) < 2)).mp h1
    omega
  have hu : max (floorLog2 |v| - 23) (-149) ≤ e := max_le hL he1
  simp only [BigFloat.Float32, h0, if_false]
  generalize max (floorLog2 |v| - 23) (-149) = u at hu ⊢
  obtain ⟨k, hk⟩ : ∃ k : ℕ, e - u = k :=
    ⟨(e - u).toNat, (Int.toNat_of_nonneg (by omega)).symm⟩
  have hscaled : |v| / pow2 u = ((|m| * 2 ^ k : ℤ) : ℚ) := by
    rw [pow2_eq_zpow, ha, mul_div_assoc, ← zpow_sub₀ (by norm_num : (2 : ℚ) ≠ 0), hk,
      zpow_natCast]
    push_cast
    rfl
  have hback : ((|m| * 2 ^ k : ℤ) : ℚ) * pow2 u = |v| := by
    rw [← hscaled, div_mul_cancel₀]
    rw [pow2_eq_zpow]
    exact (hpos2 _).ne'
  have hsmall : ¬ pow2 128 ≤ |v| := by
    rw [pow2_eq_zpow, not_le]
    apply lt_of_lt_of_le hlt
    apply zpow_le_zpow_right₀ (by norm_num)
    omega
  simp only [hscaled, roundHalfEven_intCast, hback, hsmall, if_false]
  by_cases hneg : v < 0
  · simp [hneg, abs_of_neg hneg]
  · simp [hneg, abs_of_nonneg (not_lt.mp hneg)]

/-- A finite result of `Float32()` is an integer multiple of `2 ^ -149`. -/
theorem Float32_finite_dyadic (v w : ℚ) (h : (BigFloat.finite v).Float32 = Float32.finite w) :
    ∃ z : ℤ, w * 2 ^ 149 = z := by
  by_cases h0 : v = 0
  · simp only [BigFloat.Float32, h0, if_true, Float32.finite.injEq] at h
    exact ⟨0, by rw [← h]; simp⟩
  simp only [BigFloat.Float32, h0, if_false] at h
  have hu : -149 ≤ max (floorLog2 |v| - 23) (-149) := le_max_right _ _
  generalize max (floorLog2 |v| - 23) (-149) = u at hu h
  generalize roundHalfEven (|v| / pow2 u) = n at h
  obtain ⟨k, hk⟩ : ∃ k : ℕ, u + 149 = k := ⟨(u + 149).toNat, (Int.toNat_of_nonneg (by omega)).symm⟩
  have hpow : pow2 u * 2 ^ 149 = ((2 ^ k : ℤ) : ℚ) := by
    rw [pow2_eq_zpow, ← zpow_natCast (2 : ℚ) 149, ← zpow_add₀ (by norm_num : (2 : ℚ) ≠ 0)]
    push_cast
    rw [hk, zpow_natCast]
  split at h
  · cases h
  · simp only [Float32.finite.injEq] at h
    rw [← h]
    split
    · exact ⟨-(n * 2 ^ k), by rw [neg_mul, mul_assoc, hpow]; push_cast; ring⟩
    · exact ⟨n * 2 ^ k, by rw [mul_assoc, hpow]; push_cast; ring⟩


/-- The `float32` nearest to one tenth is `13421773 / 2 ^ 27`. -/
theorem Float32_of_tenth :
    (BigFloat.finite (1 / 10)).Float32 = Float32.finite (13421773 / 134217728) := by
  have t3 : Int.toNat 3 = 3 := rfl
  have t27 : Int.toNat 27 = 27 := rfl
  have t128 : Int.toNat 128 = 128 := rfl
  have hp27 : pow2 (-27) = 1 / 134217728 := by norm_num [pow2, t27]
  have hp128 : pow2 128 = 2 ^ 128 := by norm_num [pow2, t128]
  have hlog : floorLog2 (1 / 10) = -4 := by
    norm_num [floorLog2, pow2, Nat.log2, t3]
  have habs : |(1 / 10 : ℚ)| = 1 / 10 := by norm_num
  have hfloor : ⌊(67108864 / 5 : ℚ)⌋ = 13421772 := by
    rw [Int.floor_eq_iff]
    norm_num
  have hround : roundHalfEven (67108864 / 5) = 13421773 := by
    norm_num [roundHalfEven, hfloor]
  have h0 : ¬ (1 / 10 : ℚ) = 0 := by norm_num
  simp only [BigFloat.Float32, h0, if_false, habs, hlog]
  norm_num [hp27, hp128, hround]

/-- A declared number that is not an integer multiple of `2 ^ -149` does not come back
from the conversion to `float32` and back. -/
theorem round_trip_changes_off_grid (v : ℚ) (hv : ¬ ∃ z : ℤ, v * 2 ^ 149 = z) :
    utils.ConvertToTerraformNumber
        (utils.ConvertToFloat32 (TfNumber.value (BigFloat.finite v)))
      ≠ Except.ok (TfNumber.value (BigFloat.finite v)) := by
  intro h
  apply hv
  simp only [utils.ConvertToFloat32, TfNumber.IsUnknown, TfNumber.IsNull,
    TfNumber.ValueBigFloat, Bool.or_self, Bool.false_eq_true, if_false,
    utils.ConvertToTerraformNumber, NewFloat, types.NumberValue] at h
  cases hf : (BigFloat.finite v).Float32 with
  | finite w =>
    rw [hf] at h
    simp only [Except.ok.injEq, TfNumber.value.injEq, BigFloat.finite.injEq] at h
    rw [h] at hf
    exact Float32_finite_dyadic v v hf
  | inf negative =>
    rw [hf] at h
    simp at h
  | nan =>
    rw [hf] at h
    simp at h

/-- C19 fails as stated: the declared tax rate one tenth comes back as
`13421773 / 2 ^ 27`, which is 0.100000001490116...; neither the number that the
configuration text `0.1` declares, nor 19.6, comes back as declared. -/
theorem tax_rate_round_trip_fails :
    utils.ConvertToTerraformNumber
        (utils.ConvertToFloat32 (TfNumber.value (BigFloat.finite (1 / 10))))
      = Except.ok (TfNumber.value (BigFloat.finite (13421773 / 134217728))) ∧
    utils.ConvertToTerraformNumber
        (utils.ConvertToFloat32 (TfNumber.value (BigFloat.finite (1 / 10))))
      ≠ Except.ok (TfNumber.value (BigFloat.finite (1 / 10))) ∧
    utils.ConvertToTerraformNumber
        (utils.ConvertToFloat32 (TfNumber.value (BigFloat.finite declaredTenth)))
      ≠ Except.ok (TfNumber.value (BigFloat.finite declaredTenth)) ∧
    utils.ConvertToTerraformNumber
        (utils.ConvertToFloat32 (TfNumber.value (BigFloat.finite (196 / 10))))
      ≠ Except.ok (TfNumber.value (BigFloat.finite (196 / 10))) := by
  refine ⟨?_, ?_, ?_, ?_⟩
  · simp only [utils.ConvertToFloat32, TfNumber.IsUnknown, TfNumber.IsNull,
      TfNumber.ValueBigFloat, Bool.or_self, Bool.false_eq_true, if_false, Float32_of_tenth,
      utils.ConvertToTerraformNumber, NewFloat, types.NumberValue]
  · apply round_trip_changes_off_grid
    rintro ⟨z, hz⟩
    have h := congrArg Rat.den hz
    rw [Rat.den_intCast] at h
    norm_num at h
  · apply round_trip_changes_off_grid
    rintro ⟨z, hz⟩
    have h := congrArg Rat.den hz
    rw [Rat.den_intCast] at h
    norm_num [declaredTenth] at h
  · apply round_trip_changes_off_grid
    rintro ⟨z, hz⟩
    have h := congrArg Rat.den hz
    rw [Rat.den_intCast] at h
    norm_num at h

/-- C19, amended: for every declared tax rate that a `float32` represents exactly,
`ConvertToTerraformNumber(ConvertToFloat32(r))` returns `r`. -/
theorem tax_rate_round_trip (v : ℚ) (hv : Float32.Represents v) :
    utils.ConvertToTerraformNumber
        (utils.ConvertToFloat32 (TfNumber.value (BigFloat.finite v)))
      = Except.ok (TfNumber.value (BigFloat.finite v)) := by
  obtain ⟨m, e, hm, he1, he2, hve⟩ := hv
  simp only [utils.ConvertToFloat32, TfNumber.IsUnknown, TfNumber.IsNull,
    TfNumber.ValueBigFloat, Bool.or_self, Bool.false_eq_true, if_false,
    Float32_of_representable v m e hm he1 he2 hve, utils.ConvertToTerraformNumber, NewFloat,
    types.NumberValue]

/-- Witness for C19 as amended: the tax rates 20 and 19 of the scenario. -/
theorem tax_rate_round_trip_witness :
    utils.ConvertToTerraformNumber
        (utils.ConvertToFloat32 (TfNumber.value (BigFloat.finite 20)))
      = Except.ok (TfNumber.value (BigFloat.finite 20)) ∧
    utils.ConvertToTerraformNumber
        (utils.ConvertToFloat32 (TfNumber.value (BigFloat.finite 19)))
      = Except.ok (TfNumber.value (BigFloat.finite 19)) :=
  ⟨tax_rate_round_trip 20 ⟨20, 0, by decide, by decide, by decide, by norm_num [pow2]⟩,
   tax_rate_round_trip 19 ⟨19, 0, by decide, by decide, by decide, by norm_num [pow2]⟩⟩


/-- Each decoder answers a nil payload with the error `<entity> is nil` and leaves the
model as it was. -/
theorem decode_nil (K : ResourceKind) (hK : K ∈ resourceKinds) (m : K.Model) :
    K.fromCreate m none = Except.ok (m, some { Error := K.name ++ " is nil" }) ∧
    K.fromRead m none = Except.ok (m, some { Error := K.name ++ " is nil" }) ∧
    K.fromUpdate m none = Except.ok (m, some { Error := K.name ++ " is nil" }) := by
  simp only [resourceKinds, List.mem_cons, List.mem_singleton, List.not_mem_nil,
    or_false] at hK
  rcases hK with h | h | h | h | h | h | h <;> subst h <;> exact ⟨rfl, rfl, rfl⟩

/-- C20 fails as stated: on a 200 answer without payload, `Create` and `Update` of the
region `reg_1` each report one error diagnostic and write no state, but its text, the
same for both, does not contain the identifier `reg_1`. -/
theorem nil_payload_diagnostic_lacks_identifier :
    regionResource.Update (plainCodec regionResourceModel) (some emptyOkClient)
        { Plan := sampleRegion, State := sampleRegion }
        { State := sampleRegion, Diagnostics := [] }
      = Except.ok
        { resp :=
            { State := sampleRegion
              Diagnostics :=
                [{ severity := Severity.error
                   summary := "Error creating region"
                   detail := "Could not create region, unexpected error: region is nil" }] }
          calls := [{ Payload := medusa.AdminRegionsRes
                      call := medusa.RemoteCall.PostRegionsRegionWithResponse "reg_1"
                        sampleRegion.toUpdateInput }] } ∧
    regionResource.Create (plainCodec regionResourceModel) (some emptyOkClient)
        { Plan := sampleRegion } { State := sampleRegion, Diagnostics := [] }
      = Except.ok
        { resp :=
            { State := sampleRegion
              Diagnostics :=
                [{ severity := Severity.error
                   summary := "Error creating region"
                   detail := "Could not create region, unexpected error: region is nil" }] }
          calls := [{ Payload := medusa.AdminRegionsRes
                      call := medusa.RemoteCall.PostRegionsWithResponse
                        sampleRegion.toCreateInput }] } ∧
    sampleRegion.ID.ValueString = "reg_1" ∧
    ¬ ("reg_1".toList <:+: "Error creating region".toList) ∧
    ¬ ("reg_1".toList <:+:
        "Could not create region, unexpected error: region is nil".toList) := by
  refine ⟨rfl, rfl, rfl, ?_, ?_⟩ <;> decide

/-- C20, amended: for each of the seven entity kinds, when the remote call is answered
with status 200 and a nil success payload, `Create`, `Read` and `Update` each issue that
one call, report exactly one error diagnostic and write no state; the text of the
diagnostic names the entity, as `<entity> is nil`, and that of `Read` also the entity's
identifier. -/
theorem nil_payload_reports_one_diagnostic (K : ResourceKind) (hK : K ∈ resourceKinds)
    {Raw : Type} (codec : tfsdk.Codec Raw K.Model) (c : medusa.ClientWithResponsesInterface)
    (resp : resource.Response Raw) :
    (∀ (req : resource.CreateRequest Raw) (r : medusa.ClientResponse K.CreatePayload),
      diag.HasError (diag.Append resp.Diagnostics (codec.Get req.Plan).1) = false →
      c.send (K.createCall (codec.Get req.Plan).2) = (some r, none) →
      r.StatusCode = 200 → r.JSON200 = none →
      K.Create codec (some c) req resp = Except.ok
        { resp :=
            { State := resp.State
              Diagnostics := diag.Append resp.Diagnostics (codec.Get req.Plan).1 ++
                [{ severity := Severity.error
                   summary := "Error creating " ++ K.name
                   detail := "Could not create " ++ K.name ++ ", unexpected error: "
                     ++ (K.name ++ " is nil") }] }
          calls := [{ Payload := K.CreatePayload
                      call := K.createCall (codec.Get req.Plan).2 }] }) ∧
    (∀ (req : resource.ReadRequest Raw) (r : medusa.ClientResponse K.ReadPayload),
      diag.HasError (diag.Append resp.Diagnostics (codec.Get req.State).1) = false →
      c.send (K.readCall (codec.Get req.State).2) = (some r, none) →
      r.StatusCode = 200 → r.JSON200 = none →
      K.Read codec (some c) req resp = Except.ok
        { resp :=
            { State := resp.State
              Diagnostics := diag.Append resp.Diagnostics (codec.Get req.State).1 ++
                [{ severity := Severity.error
                   summary := "Error reading " ++ K.title
                   detail := "Could not read " ++ K.title ++ " "
                     ++ (K.ID (codec.Get req.State).2).ValueString ++ ": "
                     ++ (K.name ++ " is nil") }] }
          calls := [{ Payload := K.ReadPayload
                      call := K.readCall (codec.Get req.State).2 }] }) ∧
    (∀ (req : resource.UpdateRequest Raw) (r : medusa.ClientResponse K.UpdatePayload),
      diag.HasError (diag.Append resp.Diagnostics (codec.Get req.Plan).1) = false →
      c.send (K.updateCall (codec.Get req.Plan).2) = (some r, none) →
      r.StatusCode = 200 → r.JSON200 = none →
      ∃ d before,
        d.severity = Severity.error ∧ d.detail = before ++ (K.name ++ " is nil") ∧
        K.Update codec (some c) req resp = Except.ok
          { resp :=
              { State := resp.State
                Diagnostics := diag.Append resp.Diagnostics (codec.Get req.Plan).1 ++ [d] }
            calls := [{ Payload := K.UpdatePayload
                        call := K.updateCall (codec.Get req.Plan).2 }] }) := by
  refine ⟨?_, ?_, ?_⟩
  · intro req r hno hsend hstatus hpayload
    have hdec := (decode_nil K hK (codec.Get req.Plan).2).1
    simp only [ResourceKind.Create, hno, hsend, utils.CheckCreateError, medusa.asApiResponse,
      hstatus, hpayload, hdec, diag.AddError,
      Append_error_of_no_error _ _ hno (rfl : (NewErrorDiagnostic _ _).severity = _)]
    rfl
  · intro req r hno hsend hstatus hpayload
    have hdec := (decode_nil K hK (codec.Get req.State).2).2.1
    simp only [ResourceKind.Read, hno, hsend, utils.CheckGetError, medusa.asApiResponse,
      hstatus, hpayload, hdec, diag.AddError,
      Append_error_of_no_error _ _ hno (rfl : (NewErrorDiagnostic _ _).severity = _)]
    rfl
  · intro req r hno hsend hstatus hpayload
    have hdec := (decode_nil K hK (codec.Get req.Plan).2).2.2
    refine ⟨NewErrorDiagnostic ("Error creating " ++ K.name)
      ("Could not create " ++ K.name ++ ", unexpected error: " ++ (K.name ++ " is nil")),
      "Could not create " ++ K.name ++ ", unexpected error: ", rfl, rfl, ?_⟩
    simp only [ResourceKind.Update, hno, hsend, utils.CheckUpdateError, medusa.asApiResponse,
      hstatus, hpayload, hdec, diag.AddError,
      Append_error_of_no_error _ _ hno (rfl : (NewErrorDiagnostic _ _).severity = _)]
    rfl

/-- Witness for C20 as amended: `Read` of the region `reg_1` against a client that
answers 200 without payload. -/
theorem nil_payload_reports_one_diagnostic_witness :
    regionResource.Read (plainCodec regionResourceModel) (some emptyOkClient)
        { State := sampleRegion } { State := sampleRegion, Diagnostics := [] }
      = Except.ok
        { resp :=
            { State := sampleRegion
              Diagnostics :=
                [{ severity := Severity.error
                   summary := "Error reading Region"
                   detail := "Could not read Region reg_1: region is nil" }] }
          calls := [{ Payload := medusa.AdminRegionsRes
                      call := medusa.RemoteCall.GetRegionsRegionWithResponse "reg_1" }] } :=
  (nil_payload_reports_one_diagnostic regionResource (by simp [resourceKinds])
    (plainCodec regionResourceModel) emptyOkClient
    { State := sampleRegion, Diagnostics := [] }).2.1
    { State := sampleRegion }
    { Body := "", HTTPResponse := some { StatusCode := 200, Status := "200 OK" }
      JSON200 := none }
    (by decide) rfl rfl rfl



/-- C24: the method `Resources` lists the constructor of the region resource and no
other: of the seven entity kinds that have a resource file, the store, the sales channel,
the product collection, the product category, the shipping profile and the customer group
are not registered. -/
theorem Resources_registers_region_only :
    (medusaProvider.Resources (New [])).map (fun K => K.name) = ["region"] ∧
    resourceKinds.map (fun K => K.name)
      = ["region", "store", "sales_channel", "product_collection", "product_category",
         "shipping_profile", "customer_group"] ∧
    storeResource.name ∉ (medusaProvider.Resources (New [])).map (fun K => K.name) ∧
    salesChannelResource.name ∉ (medusaProvider.Resources (New [])).map (fun K => K.name) ∧
    productCollectionResource.name
      ∉ (medusaProvider.Resources (New [])).map (fun K => K.name) ∧
    productCategoryResource.name
      ∉ (medusaProvider.Resources (New [])).map (fun K => K.name) ∧
    shippingProfileResource.name
      ∉ (medusaProvider.Resources (New [])).map (fun K => K.name) ∧
    customerGroupResource.name
      ∉ (medusaProvider.Resources (New [])).map (fun K => K.name) := by
  refine ⟨rfl, rfl, ?_, ?_, ?_, ?_, ?_, ?_⟩ <;> decide

/-- C25: `toDeleteInput` returns the same request for every store state; each of its six
fields is absent; it is the request that `toUpdateInput` builds for a store none of whose
attributes is set; and `toUpdateInput` leaves a field absent exactly when its attribute
is null. -/
theorem toDeleteInput_constant_and_absent (m m' : storeResourceModel) :
    m.toDeleteInput = m'.toDeleteInput ∧
    m.toDeleteInput.Name = none ∧
    m.toDeleteInput.DefaultCurrencyCode = none ∧
    m.toDeleteInput.Currencies = none ∧
    m.toDeleteInput.SwapLinkTemplate = none ∧
    m.toDeleteInput.PaymentLinkTemplate = none ∧
    m.toDeleteInput.InviteLinkTemplate = none ∧
    m.toDeleteInput
      = storeResourceModel.toUpdateInput
          { ID := m.ID, Name := TfString.null, DefaultCurrencyCode := TfString.null
            Currencies := none, SwapLinkTemplate := TfString.null
            PaymentLinkTemplate := TfString.null, InviteLinkTemplate := TfString.null } ∧
    (m.toUpdateInput.Name = none ↔ m.Name = TfString.null) ∧
    (m.toUpdateInput.DefaultCurrencyCode = none ↔ m.DefaultCurrencyCode = TfString.null) ∧
    (m.toUpdateInput.Currencies = none ↔ m.Currencies = none) ∧
    (m.toUpdateInput.SwapLinkTemplate = none ↔ m.SwapLinkTemplate = TfString.null) ∧
    (m.toUpdateInput.PaymentLinkTemplate = none ↔ m.PaymentLinkTemplate = TfString.null) ∧
    (m.toUpdateInput.InviteLinkTemplate = none ↔ m.InviteLinkTemplate = TfString.null) := by
  have hptr : ∀ s : TfString, s.ValueStringPointer = none ↔ s = TfString.null := by
    intro s
    cases s <;> simp [TfString.ValueStringPointer, TfString.IsNull, TfString.ValueString]
  refine ⟨rfl, rfl, rfl, rfl, rfl, rfl, rfl, rfl, hptr _, hptr _, ?_, hptr _, hptr _, hptr _⟩
  cases h : m.Currencies <;>
    simp [storeResourceModel.toUpdateInput, utils.ConvertToPointerStringSlice, h]

/-- The four classifiers and the generic one agree on whether a diagnostic is returned,
whatever the verb phrase and the subject. -/
theorem genericClassifier_isSome (gerund verb subject gerund' verb' subject' : String)
    (response : ApiResponse) (err : Option GoError) :
    (genericClassifier gerund verb subject response err).map Option.isSome
      = (genericClassifier gerund' verb' subject' response err).map Option.isSome := by
  cases err with
  | some e => rfl
  | none =>
    simp only [genericClassifier]
    cases response.StatusCode with
    | error p => rfl
    | ok code =>
      by_cases hcode : code = 200
      · simp [hcode]
      · simp only [ne_eq, hcode, not_false_eq_true, if_true]
        cases utils.readResponseBody response <;> rfl

/-- C26: each of the four classifiers of `errors.go` is the generic classifier at its own
verb phrase, `CheckGetError` naming the entity as `<name> with id <id>`; hence, for the
same name, response and transport error, the four agree on whether a diagnostic is
returned, and on a panic. -/
theorem classifiers_are_instances (name id : String) (response : ApiResponse)
    (err : Option GoError) :
    utils.CheckCreateError name response err
      = genericClassifier "creating" "create" name response err ∧
    utils.CheckUpdateError name response err
      = genericClassifier "updating" "update" name response err ∧
    utils.CheckDeleteError name response err
      = genericClassifier "deleting" "delete" name response err ∧
    utils.CheckGetError name id response err
      = genericClassifier "retrieving" "retrieve" (name ++ " with id " ++ id) response err ∧
    (utils.CheckCreateError name response err).map Option.isSome
      = (utils.CheckUpdateError name response err).map Option.isSome ∧
    (utils.CheckCreateError name response err).map Option.isSome
      = (utils.CheckDeleteError name response err).map Option.isSome ∧
    (utils.CheckCreateError name response err).map Option.isSome
      = (utils.CheckGetError name id response err).map Option.isSome := by
  have hc : utils.CheckCreateError name response err
      = genericClassifier "creating" "create" name response err := rfl
  have hu : utils.CheckUpdateError name response err
      = genericClassifier "updating" "update" name response err := rfl
  have hd : utils.CheckDeleteError name response err
      = genericClassifier "deleting" "delete" name response err := rfl
  have hg : utils.CheckGetError name id response err
      = genericClassifier "retrieving" "retrieve" (name ++ " with id " ++ id)
          response err := by
    have hs : ∀ s : String, "Error " ++ "retrieving" ++ " " ++ s = "Error retrieving " ++ s :=
      fun _ => rfl
    have hv : ∀ s : String,
        "Could not " ++ "retrieve" ++ " " ++ s = "Could not retrieve " ++ s := fun _ => rfl
    simp only [utils.CheckGetError, genericClassifier, hs, hv]
    simp only [String.append_assoc]
  refine ⟨hc, hu, hd, hg, ?_, ?_, ?_⟩
  · rw [hc, hu]; exact genericClassifier_isSome _ _ _ _ _ _ _ _
  · rw [hc, hd]; exact genericClassifier_isSome _ _ _ _ _ _ _ _
  · rw [hc, hg]; exact genericClassifier_isSome _ _ _ _ _ _ _ _

/-- C27: for a get payload and an update payload whose stores have the same id, name,
default currency code, currencies and link templates, `fromGetRemote` and
`fromUpdateRemote` produce equal models and no error, whatever the models were before;
and each returns the error `store is nil` exactly when its payload is nil, and no error
otherwise. -/
theorem store_decoders_agree (m₁ m₂ : storeResourceModel)
    (g : medusa.AdminExtendedStoresRes) (u : medusa.AdminStoresRes)
    (hid : g.Store.Id = u.Store.Id) (hname : g.Store.Name = u.Store.Name)
    (hcode : g.Store.DefaultCurrencyCode = u.Store.DefaultCurrencyCode)
    (hcurrencies : g.Store.Currencies = u.Store.Currencies)
    (hswap : g.Store.SwapLinkTemplate = u.Store.SwapLinkTemplate)
    (hpayment : g.Store.PaymentLinkTemplate = u.Store.PaymentLinkTemplate)
    (hinvite : g.Store.InviteLinkTemplate = u.Store.InviteLinkTemplate) :
    (m₁.fromGetRemote (some g)).1 = (m₂.fromUpdateRemote (some u)).1 ∧
    (m₁.fromGetRemote (some g)).2 = none ∧
    (m₂.fromUpdateRemote (some u)).2 = none ∧
    (∀ c, (m₁.fromGetRemote c).2 = some { Error := "store is nil" } ↔ c = none) ∧
    (∀ c, (m₂.fromUpdateRemote c).2 = some { Error := "store is nil" } ↔ c = none) ∧
    (∀ c, (m₁.fromGetRemote c).2 = none ↔ c ≠ none) ∧
    (∀ c, (m₂.fromUpdateRemote c).2 = none ↔ c ≠ none) := by
  refine ⟨?_, rfl, rfl, ?_, ?_, ?_, ?_⟩
  · simp only [storeResourceModel.fromGetRemote, storeResourceModel.fromUpdateRemote,
      hid, hname, hcode, hcurrencies, hswap, hpayment, hinvite]
  · intro c; cases c <;> simp [storeResourceModel.fromGetRemote]
  · intro c; cases c <;> simp [storeResourceModel.fromUpdateRemote]
  · intro c; cases c <;> simp [storeResourceModel.fromGetRemote]
  · intro c; cases c <;> simp [storeResourceModel.fromUpdateRemote]

/-- Witness for C27: a get payload and an update payload that carry the same store,
decoded over two different prior models. -/
theorem store_decoders_agree_witness :
    (sampleStore.fromGetRemote (some { Store := sampleRemoteStore })).1
      = (storeResourceModel.fromUpdateRemote { sampleStore with Name := TfString.unknown }
          (some { Store := sampleRemoteStore })).1 ∧
    (sampleStore.fromGetRemote (some { Store := sampleRemoteStore })).1.Currencies
      = some [TfString.value "eur", TfString.value "usd"] :=
  ⟨(store_decoders_agree sampleStore { sampleStore with Name := TfString.unknown }
      { Store := sampleRemoteStore } { Store := sampleRemoteStore }
      rfl rfl rfl rfl rfl rfl rfl).1, by decide⟩



/-- C28: for every entity kind, each decoder answers a nil payload with the error
`<entity> is nil` and returns the model as it was; on a non-nil payload it returns a
model and no error, the one exception being the region decoder on a tax rate that is not
a number, which panics and so returns nothing at all. -/
theorem decode_error_iff_nil (k : EntityKind) (m : k.resource.Model) :
    k.resource.fromCreate m none
      = Except.ok (m, some { Error := k.resource.name ++ " is nil" }) ∧
    k.resource.fromRead m none
      = Except.ok (m, some { Error := k.resource.name ++ " is nil" }) ∧
    k.resource.fromUpdate m none
      = Except.ok (m, some { Error := k.resource.name ++ " is nil" }) ∧
    (∀ p, (∃ decoded, k.resource.fromCreate m (some p) = Except.ok (decoded, none)) ∨
      (k = EntityKind.region ∧
        k.resource.fromCreate m (some p) = Except.error Panic.bigFloatNaN)) ∧
    (∀ p, (∃ decoded, k.resource.fromRead m (some p) = Except.ok (decoded, none)) ∨
      (k = EntityKind.region ∧
        k.resource.fromRead m (some p) = Except.error Panic.bigFloatNaN)) ∧
    (∀ p, (∃ decoded, k.resource.fromUpdate m (some p) = Except.ok (decoded, none)) ∨
      (k = EntityKind.region ∧
        k.resource.fromUpdate m (some p) = Except.error Panic.bigFloatNaN)) := by
  have hregion : ∀ (m : regionResourceModel) (p : medusa.AdminRegionsRes),
      (∃ decoded, m.fromRemote (some p) = Except.ok (decoded, none)) ∨
      m.fromRemote (some p) = Except.error Panic.bigFloatNaN := by
    intro m p
    cases h : p.Region.TaxRate with
    | finite v =>
      left
      simp only [regionResourceModel.fromRemote, utils.ConvertToTerraformNumber, NewFloat, h]
      exact ⟨_, rfl⟩
    | inf negative =>
      left
      simp only [regionResourceModel.fromRemote, utils.ConvertToTerraformNumber, NewFloat, h]
      exact ⟨_, rfl⟩
    | nan =>
      exact Or.inr (by
        simp only [regionResourceModel.fromRemote, utils.ConvertToTerraformNumber, NewFloat, h])
  cases k
  case region =>
    refine ⟨rfl, rfl, rfl, fun p => ?_, fun p => ?_, fun p => ?_⟩ <;>
      exact (hregion m p).imp id (fun h => ⟨rfl, h⟩)
  all_goals
    exact ⟨rfl, rfl, rfl, fun _ => Or.inl ⟨_, rfl⟩, fun _ => Or.inl ⟨_, rfl⟩,
      fun _ => Or.inl ⟨_, rfl⟩⟩

/-- C29: the result of `ExtractIDs` holds the ids of the items, `getID` mapped over the
list, in the same order and of the same length; it is the nil slice for a nil list; hence
the region decoder reports providers and countries, and the store decoders report
currencies, in the order of the remote payload. -/
theorem ExtractIDs_is_map {T : Type} (items : Option (List T)) (getID : T → String) :
    (utils.ExtractIDs items getID).getD [] = (items.getD []).map getID ∧
    ((utils.ExtractIDs items getID).getD []).length = (items.getD []).length ∧
    utils.ExtractIDs (none : Option (List T)) getID = none ∧
    (∀ (m decoded : regionResourceModel) (c : medusa.AdminRegionsRes) (e : Option GoError),
      m.fromRemote (some c) = Except.ok (decoded, e) →
      decoded.PaymentProviders
        = some ((c.Region.PaymentProviders.getD []).map (fun pp => TfString.value pp.Id)) ∧
      decoded.FulfillmentProviders
        = some ((c.Region.FulfillmentProviders.getD []).map
            (fun fp => TfString.value fp.Id)) ∧
      decoded.Countries
        = some ((c.Region.Countries.getD []).map (fun country => TfString.value country.Iso2))) ∧
    (∀ (m : storeResourceModel) (c : medusa.AdminExtendedStoresRes),
      (m.fromGetRemote (some c)).1.Currencies
        = some ((c.Store.Currencies.getD []).map
            (fun currency => TfString.value currency.Code))) ∧
    (∀ (m : storeResourceModel) (c : medusa.AdminStoresRes),
      (m.fromUpdateRemote (some c)).1.Currencies
        = some ((c.Store.Currencies.getD []).map
            (fun currency => TfString.value currency.Code))) := by
  refine ⟨ExtractIDs_getD items getID, ?_, rfl, ?_, ?_, ?_⟩
  · rw [ExtractIDs_getD, List.length_map]
  · intro m decoded c e h
    simp only [regionResourceModel.fromRemote] at h
    split at h
    · exact absurd h (by simp)
    · simp only [Except.ok.injEq, Prod.mk.injEq] at h
      rw [← h.1]
      simp only [ConvertToTerraformStringSlice_ExtractIDs, List.map_map]
      exact ⟨rfl, rfl, rfl⟩
  · intro m c
    simp only [storeResourceModel.fromGetRemote, ConvertToTerraformStringSlice_ExtractIDs,
      List.map_map]
    rfl
  · intro m c
    simp only [storeResourceModel.fromUpdateRemote, ConvertToTerraformStringSlice_ExtractIDs,
      List.map_map]
    rfl

/-- Witness for C29: the countries of the region `reg_1`, extracted and decoded in the
order of the payload. -/
theorem ExtractIDs_is_map_witness :
    (utils.ExtractIDs sampleRegionPayload.Region.Countries (fun c => c.Iso2)).getD []
      = ["de", "fr"] ∧
    sampleRegion.Countries = some [TfString.value "de", TfString.value "fr"] :=
  ⟨(ExtractIDs_is_map sampleRegionPayload.Region.Countries (fun c => c.Iso2)).1,
   ((ExtractIDs_is_map sampleRegionPayload.Region.Countries (fun c => c.Iso2)).2.2.2.1
      sampleRegionPlan sampleRegion sampleRegionPayload none rfl).2.2⟩

/-- C30 fails as stated: on the nil list each round trip returns the empty list that is
not nil, because `ConvertToTerraformStringSlice` makes its result with `make`; and the
two are told apart by `ConvertToPointerStringSlice`, which yields nil for the one and a
pointer to an empty list for the other. -/
theorem round_trip_of_nil_is_not_nil :
    utils.ConvertToStringSlice (utils.ConvertToTerraformStringSlice none) = some [] ∧
    utils.ConvertToStringSlice (utils.ConvertToTerraformStringSlice none) ≠ none ∧
    utils.ConvertToTerraformStringSlice (utils.ConvertToStringSlice none) = some [] ∧
    utils.ConvertToTerraformStringSlice (utils.ConvertToStringSlice none) ≠ none ∧
    utils.ConvertToPointerStringSlice none = none ∧
    utils.ConvertToPointerStringSlice
        (utils.ConvertToTerraformStringSlice (utils.ConvertToStringSlice none))
      = some [] := by
  decide

/-- C30, amended: for every list of strings that is not nil, converting it to Terraform
strings and back gives the same list, and for every list of known Terraform strings that
is not nil, converting it to strings and back gives the same list; on the nil list each
round trip gives the empty list, so the elements are the same for every list. Both
conversions keep length and order, and `ConvertToPointerStringSlice` yields nil exactly
for a nil list and otherwise the elements that `ConvertToStringSlice` yields. -/
theorem string_slice_round_trip (xs : Slice String) (ts : Slice TfString) :
    (utils.ConvertToStringSlice (utils.ConvertToTerraformStringSlice xs)).getD []
      = xs.getD [] ∧
    (xs ≠ none →
      utils.ConvertToStringSlice (utils.ConvertToTerraformStringSlice xs) = xs) ∧
    ((∀ t ∈ ts.getD [], t.IsNull = false ∧ t.IsUnknown = false) →
      (utils.ConvertToTerraformStringSlice (utils.ConvertToStringSlice ts)).getD []
          = ts.getD [] ∧
      (ts ≠ none →
        utils.ConvertToTerraformStringSlice (utils.ConvertToStringSlice ts) = ts)) ∧
    (utils.ConvertToTerraformStringSlice xs).getD []
      = (xs.getD []).map types.StringValue ∧
    (utils.ConvertToStringSlice ts).getD [] = (ts.getD []).map (fun t => t.ValueString) ∧
    ((utils.ConvertToTerraformStringSlice xs).getD []).length = (xs.getD []).length ∧
    ((utils.ConvertToStringSlice ts).getD []).length = (ts.getD []).length ∧
    (utils.ConvertToPointerStringSlice ts = none ↔ ts = none) ∧
    (utils.ConvertToPointerStringSlice ts).getD []
      = (utils.ConvertToStringSlice ts).getD [] ∧
    utils.ConvertToStringSlice (utils.ConvertToTerraformStringSlice none) = some [] ∧
    utils.ConvertToTerraformStringSlice (utils.ConvertToStringSlice none) = some [] := by
  have hback : ∀ l : List String,
      (l.map (fun v => types.StringValue v)).map (fun v => v.ValueString) = l := by
    intro l
    induction l with
    | nil => rfl
    | cons x rest ih => simpa [types.StringValue, TfString.ValueString] using ih
  have hforth : ∀ l : List TfString,
      (∀ t ∈ l, t.IsNull = false ∧ t.IsUnknown = false) →
      (l.map (fun v => v.ValueString)).map (fun v => types.StringValue v) = l := by
    intro l
    induction l with
    | nil => intro _; rfl
    | cons t rest ih =>
      intro hknown
      have ht := hknown t (List.mem_cons_self _ _)
      have hrest := ih (fun u hu => hknown u (List.mem_cons_of_mem _ hu))
      cases t with
      | null => simp [TfString.IsNull] at ht
      | unknown => simp [TfString.IsUnknown] at ht
      | value s =>
        simp only [List.map_cons, List.map_map] at hrest ⊢
        rw [hrest]
        rfl
  refine ⟨?_, ?_, ?_, ?_, ?_, ?_, ?_, ?_, ?_, rfl, rfl⟩
  · cases xs with
    | none => rfl
    | some l =>
      simp only [utils.ConvertToStringSlice, utils.ConvertToTerraformStringSlice,
        Option.getD_some, hback]
  · intro hxs
    cases xs with
    | none => exact absurd rfl hxs
    | some l =>
      simp only [utils.ConvertToStringSlice, utils.ConvertToTerraformStringSlice,
        Option.getD_some, hback]
  · intro hknown
    cases ts with
    | none => exact ⟨rfl, fun h => absurd rfl h⟩
    | some l =>
      have h := hforth l hknown
      simp only [utils.ConvertToStringSlice, utils.ConvertToTerraformStringSlice,
        Option.getD_some, h]
      exact ⟨trivial, fun _ => trivial⟩
  · rfl
  · cases ts <;> rfl
  · simp [utils.ConvertToTerraformStringSlice]
  · cases ts <;> simp [utils.ConvertToStringSlice]
  · cases ts <;> simp [utils.ConvertToPointerStringSlice]
  · cases ts <;> rfl

/-- Witness for C30 as amended: the two round trips on a list of two strings and on the two known
Terraform strings of the countries of `sampleRegion`. -/
theorem string_slice_round_trip_witness :
    utils.ConvertToStringSlice (utils.ConvertToTerraformStringSlice (some ["de", "fr"]))
      = some ["de", "fr"] ∧
    utils.ConvertToTerraformStringSlice (utils.ConvertToStringSlice sampleRegion.Countries)
      = sampleRegion.Countries :=
  ⟨(string_slice_round_trip (some ["de", "fr"]) sampleRegion.Countries).2.1 (by decide),
   ((string_slice_round_trip (some ["de", "fr"]) sampleRegion.Countries).2.2.1
      (by decide)).2 (by decide)⟩



/-- Dumping a request whose body reads to the end gives its text and leaves the request
as it was. -/
theorem DumpRequestOut_of_readable (req : http.Request) (h : req.Body.failure = none) :
    httputil.DumpRequestOut req = (Except.ok (req.head ++ req.Body.unread), req) := by
  obtain ⟨head, ⟨unread, failure⟩⟩ := req
  simp only at h
  subst h
  rfl

/-- Dumping a response whose body reads to the end gives its text and leaves the response
as it was. -/
theorem DumpResponse_of_readable (resp : http.Response) (h : resp.Body.failure = none) :
    httputil.DumpResponse resp = (Except.ok (resp.head ++ resp.Body.unread), resp) := by
  obtain ⟨head, ⟨unread, failure⟩⟩ := resp
  simp only at h
  subst h
  rfl

/-- A round trip through the debug transport, for a request whose body reads to the end
and an inner transport that answers with an error or with a response whose body reads to
the end, returns that answer after one call of the inner transport with the request;
without `SB_DEBUG` nothing is written. -/
theorem RoundTrip_of_answer (env : String → String)
    (inner : http.Request → Option http.Response × Option GoError) (request : http.Request)
    (hrequest : request.Body.failure = none)
    (hanswer : (inner request).2 ≠ none ∨
      ∃ r, (inner request).1 = some r ∧ r.Body.failure = none) :
    ∃ log, LogTransport.RoundTrip env (some inner) request
        = Except.ok { response := (inner request).1, err := (inner request).2
                      innerCalls := [request], log := log } ∧
      (env "SB_DEBUG" = "" → log = []) := by
  by_cases hdebug : env "SB_DEBUG" = ""
  · exact ⟨[], by simp [LogTransport.RoundTrip, hdebug], fun _ => rfl⟩
  · have hreq : logRequest request
        = ([LogEntry.tflogInfo (logRequestTemplate (request.head ++ request.Body.unread)),
            LogEntry.logPrintf (logRequestTemplate (request.head ++ request.Body.unread))],
           request) := by
      simp [logRequest, DumpRequestOut_of_readable request hrequest]
    have hlog : ∃ more, logResponse (inner request).1 (inner request).2
        = Except.ok (more, (inner request).1) := by
      cases herr : (inner request).2 with
      | some e => exact ⟨_, rfl⟩
      | none =>
        rcases hanswer with h | ⟨r, hr, hbody⟩
        · exact absurd herr h
        · rw [hr]
          exact ⟨[LogEntry.tflogInfo (logResponseTemplate (r.head ++ r.Body.unread)),
            LogEntry.logPrintf (logResponseTemplate (r.head ++ r.Body.unread))],
            by simp [logResponse, DumpResponse_of_readable r hbody]⟩
    obtain ⟨more, hmore⟩ := hlog
    exact ⟨(logRequest request).1 ++ more,
      by simp [LogTransport.RoundTrip, hdebug, hreq, hmore], fun h => absurd h hdebug⟩

/-- C23 fails as stated. An inner transport that returns a nil response with a nil error
gets that answer passed on without `SB_DEBUG`, while with `SB_DEBUG` set `logResponse`
dereferences the nil response and `RoundTrip` panics. And for an inner transport whose
response has a body that breaks off, `RoundTrip` returns the response as it came without
`SB_DEBUG`, and with `SB_DEBUG` set the response with its body read away by the dump. -/
theorem RoundTrip_depends_on_debug :
    LogTransport.RoundTrip emptyEnv (some silentInner) sampleRequest
      = Except.ok { response := none, err := none, innerCalls := [sampleRequest], log := [] } ∧
    LogTransport.RoundTrip debugEnv (some silentInner) sampleRequest
      = Except.error Panic.nilDereference ∧
    LogTransport.RoundTrip emptyEnv (some brokenInner) sampleRequest
      = Except.ok { response := (brokenInner sampleRequest).1, err := none
                    innerCalls := [sampleRequest], log := [] } ∧
    (∃ out, LogTransport.RoundTrip debugEnv (some brokenInner) sampleRequest = Except.ok out ∧
      out.response
        = some { head := "HTTP/1.1 200 OK\r\n\r\n"
                 Body := { unread := "", failure := some { Error := "unexpected EOF" } } } ∧
      out.response ≠ (brokenInner sampleRequest).1) := by
  refine ⟨rfl, rfl, rfl, _, rfl, rfl, ?_⟩
  decide

/-- C23, amended: for every request whose body reads to the end and every inner transport
that answers it with an error, or with a response whose body reads to the end,
`LogTransport.RoundTrip` returns, under any two environments, with `SB_DEBUG` set or not,
the response and the error of the inner transport after calling it exactly once with the
request; the environment bears on the messages written only, and without `SB_DEBUG` none
is written. -/
theorem RoundTrip_returns_inner_answer (env env' : String → String)
    (inner : http.Request → Option http.Response × Option GoError) (request : http.Request)
    (hrequest : request.Body.failure = none)
    (hanswer : (inner request).2 ≠ none ∨
      ∃ r, (inner request).1 = some r ∧ r.Body.failure = none) :
    ∃ out out',
      LogTransport.RoundTrip env (some inner) request = Except.ok out ∧
      LogTransport.RoundTrip env' (some inner) request = Except.ok out' ∧
      out.response = (inner request).1 ∧ out.err = (inner request).2 ∧
      out.innerCalls = [request] ∧
      out'.response = out.response ∧ out'.err = out.err ∧
      out'.innerCalls = out.innerCalls ∧
      (env "SB_DEBUG" = "" → out.log = []) := by
  obtain ⟨log, h, hlog⟩ := RoundTrip_of_answer env inner request hrequest hanswer
  obtain ⟨log', h', _⟩ := RoundTrip_of_answer env' inner request hrequest hanswer
  exact ⟨_, _, h, h', rfl, rfl, rfl, rfl, rfl, rfl, hlog⟩

/-- Witness for C23 as amended: a request sent through the debug transport with and
without `SB_DEBUG`. -/
theorem RoundTrip_returns_inner_answer_witness :
    ∃ out out',
      LogTransport.RoundTrip debugEnv (some sampleInner) sampleRequest = Except.ok out ∧
      LogTransport.RoundTrip emptyEnv (some sampleInner) sampleRequest = Except.ok out' ∧
      out.response = (sampleInner sampleRequest).1 ∧ out.err = (sampleInner sampleRequest).2 ∧
      out.innerCalls = [sampleRequest] ∧
      out'.response = out.response ∧ out'.err = out.err ∧
      out'.innerCalls = out.innerCalls ∧
      (debugEnv "SB_DEBUG" = "" → out.log = []) :=
  RoundTrip_returns_inner_answer debugEnv emptyEnv sampleInner sampleRequest rfl
    (Or.inr ⟨_, rfl, rfl⟩)

/-- The provider that `New` builds from a list of options that ends in `o` is `o` applied
to the provider built from the options before it. -/
theorem New_concat (opts : List ProviderOption) (o : ProviderOption) :
    New ((opts ++ [o]).map ProviderOption.apply)
      = o.apply (New (opts.map ProviderOption.apply)) := by
  simp [New, List.foldl_append]

/-- An option `x` stands in `l ++ [o]` with no replacing option after it exactly when it
is `o` itself, or `o` does not replace and `x` stands so in `l`. -/
theorem unreplaced_concat (l : List ProviderOption) (o x : ProviderOption) :
    (∃ pre post, l ++ [o] = pre ++ x :: post ∧ ∀ a ∈ post, a.replaces = false) ↔
      (o = x ∨ (o.replaces = false ∧
        ∃ pre post, l = pre ++ x :: post ∧ ∀ a ∈ post, a.replaces = false)) := by
  constructor
  · rintro ⟨pre, post, h, hpost⟩
    rcases List.eq_nil_or_concat post with rfl | ⟨post', b, hcat⟩
    · have h2 := List.append_inj' h rfl
      left
      simpa using h2.2
    · rw [List.concat_eq_append] at hcat
      subst hcat
      have h1 : l ++ [o] = (pre ++ x :: post') ++ [b] := by simpa using h
      have h2 := List.append_inj' h1 rfl
      have hb : o = b := by simpa using h2.2
      subst hb
      right
      exact ⟨hpost o (by simp), pre, post', h2.1,
        fun a ha => hpost a (List.mem_append_left _ ha)⟩
  · rintro (rfl | ⟨ho, pre, post, rfl, hpost⟩)
    · exact ⟨l, [], rfl, by simp⟩
    · refine ⟨pre, post ++ [o], by simp, ?_⟩
      intro a ha
      rcases List.mem_append.mp ha with h | h
      · exact hpost a h
      · rw [List.mem_singleton.mp h]; exact ho

/-- C22 fails as stated: `New(WithDebugClient(), WithRetryableClient(10))` yields a client
whose transport is the retrying round tripper alone, without the debug-logging layer,
although the debug option is in the list; the other order yields both layers. -/
theorem debug_before_retry_loses_debug :
    (New [WithDebugClient, WithRetryableClient 10]).httpClient.Transport
      = RoundTripper.retryable 10 ∧
    (New [WithDebugClient, WithRetryableClient 10]).httpClient.Transport.logs = false ∧
    (New [WithDebugClient, WithRetryableClient 10]).httpClient.Transport.retries = true ∧
    (New [WithRetryableClient 10, WithDebugClient]).httpClient.Transport
      = RoundTripper.LogTransport (RoundTripper.retryable 10) ∧
    (New [WithRetryableClient 10, WithDebugClient]).httpClient.Transport.logs = true ∧
    (New [WithRetryableClient 10, WithDebugClient]).httpClient.Transport.retries = true := by
  decide

/-- C22, amended: for every list of options passed to `New`, each of retry, debug logging
and recording is present in the resulting HTTP client exactly when its option stands in
the list with no retry or recorder option after it, these two options putting a new
client in place of the one built so far; in particular
`New(WithRetryableClient(n), WithDebugClient())` yields a client that has both the
debug-logging layer and the retry layer, and `New(WithDebugClient(),
WithRetryableClient(n))` one that has the retry layer alone. -/
theorem layers_follow_option_order (opts : List ProviderOption) :
    ((New (opts.map ProviderOption.apply)).httpClient.Transport.logs = true ↔
      ∃ pre post, opts = pre ++ ProviderOption.WithDebugClient :: post ∧
        ∀ a ∈ post, a.replaces = false) ∧
    ((New (opts.map ProviderOption.apply)).httpClient.Transport.retries = true ↔
      ∃ n pre post, opts = pre ++ ProviderOption.WithRetryableClient n :: post ∧
        ∀ a ∈ post, a.replaces = false) ∧
    ((New (opts.map ProviderOption.apply)).httpClient.Transport.records = true ↔
      ∃ file mode pre post, opts = pre ++ ProviderOption.WithRecorderClient file mode :: post ∧
        ∀ a ∈ post, a.replaces = false) ∧
    (∀ n, (New [WithRetryableClient n, WithDebugClient]).httpClient.Transport
      = RoundTripper.LogTransport (RoundTripper.retryable n)) ∧
    (∀ n, (New [WithDebugClient, WithRetryableClient n]).httpClient.Transport
      = RoundTripper.retryable n) := by
  refine ⟨?_, ?_, ?_, fun _ => rfl, fun _ => rfl⟩
  · induction opts using List.reverseRecOn with
    | nil => simp [New, RoundTripper.logs]
    | append_singleton l o ih =>
      rw [New_concat, unreplaced_concat]
      cases o <;>
        simp [ProviderOption.apply, Medusa.WithRetryableClient, Medusa.WithDebugClient,
          Medusa.WithRecorderClient, NewDebugTransport, RoundTripper.logs,
          ProviderOption.replaces]
  · induction opts using List.reverseRecOn with
    | nil => simp [New, RoundTripper.retries]
    | append_singleton l o ih =>
      rw [New_concat]
      simp only [unreplaced_concat]
      cases o <;>
        simp [ProviderOption.apply, Medusa.WithRetryableClient, Medusa.WithDebugClient,
          Medusa.WithRecorderClient, NewDebugTransport, RoundTripper.retries,
          ProviderOption.replaces, ih]
  · induction opts using List.reverseRecOn with
    | nil => simp [New, RoundTripper.records]
    | append_singleton l o ih =>
      rw [New_concat]
      simp only [unreplaced_concat]
      cases o <;>
        simp [ProviderOption.apply, Medusa.WithRetryableClient, Medusa.WithDebugClient,
          Medusa.WithRecorderClient, NewDebugTransport, RoundTripper.records,
          ProviderOption.replaces, ih]

/-- Witness for C22 as amended: in the list of `main.go`, retry and then debug, the debug
option stands last and the retry option has only the debug option after it, so both
layers are present. -/
theorem layers_follow_option_order_witness :
    (New ([ProviderOption.WithRetryableClient 10, ProviderOption.WithDebugClient].map
      ProviderOption.apply)).httpClient.Transport.logs = true ∧
    (New ([ProviderOption.WithRetryableClient 10, ProviderOption.WithDebugClient].map
      ProviderOption.apply)).httpClient.Transport.retries = true :=
  ⟨(layers_follow_option_order
      [ProviderOption.WithRetryableClient 10, ProviderOption.WithDebugClient]).1.2
      ⟨[ProviderOption.WithRetryableClient 10], [], rfl, by simp⟩,
   (layers_follow_option_order
      [ProviderOption.WithRetryableClient 10, ProviderOption.WithDebugClient]).2.1.2
      ⟨10, [], [ProviderOption.WithDebugClient], rfl, by simp [ProviderOption.replaces]⟩⟩



/-- An `Update` whose remote call is answered with status 200 and whose payload decodes
reports the encoding of the decoded model. -/
theorem Update_of_decoded (K : ResourceKind) {Raw : Type} (codec : tfsdk.Codec Raw K.Model)
    (c : medusa.ClientWithResponsesInterface) (req : resource.UpdateRequest Raw)
    (resp : resource.Response Raw) (r : medusa.ClientResponse K.UpdatePayload)
    (decoded : K.Model)
    (hplan : diag.HasError (diag.Append resp.Diagnostics (codec.Get req.Plan).1) = false)
    (hanswer : c.send (K.updateCall (codec.Get req.Plan).2) = (some r, none))
    (hstatus : r.StatusCode = 200)
    (hdecoded : K.fromUpdate (codec.Get req.Plan).2 r.JSON200 = Except.ok (decoded, none)) :
    K.Update codec (some c) req resp = Except.ok
      { resp :=
          { State := (tfsdk.StateSet codec resp.State decoded).2
            Diagnostics := diag.Append (diag.Append resp.Diagnostics (codec.Get req.Plan).1)
              (tfsdk.StateSet codec resp.State decoded).1 }
        calls := [{ Payload := K.UpdatePayload
                    call := K.updateCall (codec.Get req.Plan).2 }] } := by
  simp only [ResourceKind.Update, hplan, hanswer, utils.CheckUpdateError,
    medusa.asApiResponse, hstatus, hdecoded]
  rfl

/-- A `Delete` whose remote call is answered with status 200 issues that one call and
leaves the state it was handed. -/
theorem Delete_of_ok (K : ResourceKind) {Raw : Type} (codec : tfsdk.Codec Raw K.Model)
    (c : medusa.ClientWithResponsesInterface) (req : resource.DeleteRequest Raw)
    (resp : resource.Response Raw) (r : medusa.ClientResponse K.DeletePayload)
    (hstate : diag.HasError (diag.Append resp.Diagnostics (codec.Get req.State).1) = false)
    (hanswer : c.send (K.deleteCall (codec.Get req.State).2) = (some r, none))
    (hstatus : r.StatusCode = 200) :
    K.Delete codec (some c) req resp = Except.ok
      { resp :=
          { State := resp.State
            Diagnostics := diag.Append resp.Diagnostics (codec.Get req.State).1 }
        calls := [{ Payload := K.DeletePayload
                    call := K.deleteCall (codec.Get req.State).2 }] } := by
  simp only [ResourceKind.Delete, hstate, hanswer, utils.CheckDeleteError,
    medusa.asApiResponse, hstatus]
  rfl

/-- A region that `fromRemote` returns for a payload holds the identifier of the payload,
and comes without error. -/
theorem region_decoded_identifier (m decoded : regionResourceModel)
    (q : medusa.AdminRegionsRes) (e : Option GoError)
    (h : m.fromRemote (some q) = Except.ok (decoded, e)) :
    e = none ∧ decoded.ID = TfString.value q.Region.Id := by
  simp only [regionResourceModel.fromRemote] at h
  split at h
  · cases h
  · simp only [Except.ok.injEq, Prod.mk.injEq] at h
    refine ⟨h.2.symm, ?_⟩
    rw [← h.1]
    rfl

/-- For every entity kind, a model that a decoder of the kind returns for a payload holds
the identifier of that payload, and comes without error. -/
theorem decoded_identifier (k : EntityKind) (m decoded : k.resource.Model)
    (e : Option GoError) :
    (∀ q, k.resource.fromCreate m (some q) = Except.ok (decoded, e) →
      e = none ∧ k.resource.ID decoded = TfString.value (k.createdId q)) ∧
    (∀ q, k.resource.fromRead m (some q) = Except.ok (decoded, e) →
      e = none ∧ k.resource.ID decoded = TfString.value (k.readId q)) ∧
    (∀ q, k.resource.fromUpdate m (some q) = Except.ok (decoded, e) →
      e = none ∧ k.resource.ID decoded = TfString.value (k.updatedId q)) := by
  cases k
  case region =>
    exact ⟨fun q h => region_decoded_identifier m decoded q e h,
      fun q h => region_decoded_identifier m decoded q e h,
      fun q h => region_decoded_identifier m decoded q e h⟩
  case store =>
    refine ⟨fun q h => ?_, fun q h => ?_, fun q h => ?_⟩
    · have h' : storeResourceModel.fromUpdateRemote m (some q) = (decoded, e) :=
        Except.ok.inj h
      simp only [storeResourceModel.fromUpdateRemote, Prod.mk.injEq] at h'
      refine ⟨h'.2.symm, ?_⟩
      rw [← h'.1]; rfl
    · have h' : storeResourceModel.fromGetRemote m (some q) = (decoded, e) :=
        Except.ok.inj h
      simp only [storeResourceModel.fromGetRemote, Prod.mk.injEq] at h'
      refine ⟨h'.2.symm, ?_⟩
      rw [← h'.1]; rfl
    · have h' : storeResourceModel.fromUpdateRemote m (some q) = (decoded, e) :=
        Except.ok.inj h
      simp only [storeResourceModel.fromUpdateRemote, Prod.mk.injEq] at h'
      refine ⟨h'.2.symm, ?_⟩
      rw [← h'.1]; rfl
  case salesChannel =>
    have key : ∀ q, salesChannelResourceModel.fromRemote m (some q) = (decoded, e) →
        e = none ∧ decoded.ID = TfString.value q.SalesChannel.Id := by
      intro q h'
      simp only [salesChannelResourceModel.fromRemote, Prod.mk.injEq] at h'
      refine ⟨h'.2.symm, ?_⟩
      rw [← h'.1]; rfl
    exact ⟨fun q h => key q (Except.ok.inj h), fun q h => key q (Except.ok.inj h),
      fun q h => key q (Except.ok.inj h)⟩
  case productCollection =>
    have key : ∀ q, productCollectionResourceModel.fromRemote m (some q) = (decoded, e) →
        e = none ∧ decoded.ID = TfString.value q.Collection.Id := by
      intro q h'
      simp only [productCollectionResourceModel.fromRemote, Prod.mk.injEq] at h'
      refine ⟨h'.2.symm, ?_⟩
      rw [← h'.1]; rfl
    exact ⟨fun q h => key q (Except.ok.inj h), fun q h => key q (Except.ok.inj h),
      fun q h => key q (Except.ok.inj h)⟩
  case productCategory =>
    have key : ∀ q, productCategoryResourceModel.fromRemote m (some q) = (decoded, e) →
        e = none ∧ decoded.ID = TfString.value q.ProductCategory.Id := by
      intro q h'
      simp only [productCategoryResourceModel.fromRemote, Prod.mk.injEq] at h'
      refine ⟨h'.2.symm, ?_⟩
      rw [← h'.1]; rfl
    exact ⟨fun q h => key q (Except.ok.inj h), fun q h => key q (Except.ok.inj h),
      fun q h => key q (Except.ok.inj h)⟩
  case shippingProfile =>
    have key : ∀ q, shippingProfileResourceModel.fromRemote m (some q) = (decoded, e) →
        e = none ∧ decoded.ID = TfString.value q.ShippingProfile.Id := by
      intro q h'
      simp only [shippingProfileResourceModel.fromRemote, Prod.mk.injEq] at h'
      refine ⟨h'.2.symm, ?_⟩
      rw [← h'.1]; rfl
    exact ⟨fun q h => key q (Except.ok.inj h), fun q h => key q (Except.ok.inj h),
      fun q h => key q (Except.ok.inj h)⟩
  case customerGroup =>
    have key : ∀ q, customerGroupResourceModel.fromRemote m (some q) = (decoded, e) →
        e = none ∧ decoded.ID = TfString.value q.CustomerGroup.Id := by
      intro q h'
      simp only [customerGroupResourceModel.fromRemote, Prod.mk.injEq] at h'
      refine ⟨h'.2.symm, ?_⟩
      rw [← h'.1]; rfl
    exact ⟨fun q h => key q (Except.ok.inj h), fun q h => key q (Except.ok.inj h),
      fun q h => key q (Except.ok.inj h)⟩

/-- C21 fails as stated: `Read`, `Update` and `Delete` of the store pass no identifier to
the remote call. The store `store_1` is read with `GetStoreWithResponse`, which takes no
identifier, and its three calls are those of a store whose state holds another
identifier. -/
theorem store_calls_pass_no_identifier :
    sampleStore.ID.ValueString = "store_1" ∧
    (∃ out, storeResource.Read (plainCodec storeResourceModel) (some notFoundClient)
        { State := sampleStore } { State := sampleStore, Diagnostics := [] } = Except.ok out ∧
      out.calls = [{ Payload := medusa.AdminExtendedStoresRes
                     call := medusa.RemoteCall.GetStoreWithResponse }]) ∧
    (storeResource.readCall sampleStore).id? = none ∧
    (storeResource.updateCall sampleStore).id? = none ∧
    (storeResource.deleteCall sampleStore).id? = none ∧
    storeResource.readCall { sampleStore with ID := TfString.value "store_2" }
      = storeResource.readCall sampleStore ∧
    storeResource.updateCall { sampleStore with ID := TfString.value "store_2" }
      = storeResource.updateCall sampleStore ∧
    storeResource.deleteCall { sampleStore with ID := TfString.value "store_2" }
      = storeResource.deleteCall sampleStore :=
  ⟨rfl, ⟨_, rfl, rfl⟩, rfl, rfl, rfl, rfl, rfl, rfl⟩

/-- C21, amended: for every entity kind, the identifier is never derived from declared
attributes. A `Create`, `Read` or `Update` that succeeds, its plan or state decoding
without error, its call answered with status 200 and a payload, and the decoder returning a
model, issues that one call and reports the encoding of the decoded model, whose
identifier is the identifier in the payload whatever the plan or state held; a `Delete`
answered with status 200 issues its one call. The create and update request bodies do
not depend on the identifier attribute, and no create call takes an identifier. For the
six kinds other than the store, the read, update and delete calls take exactly the
identifier held in the state or plan; the calls of the store take no identifier. -/
theorem identifier_comes_from_remote (k : EntityKind) {Raw : Type}
    (codec : tfsdk.Codec Raw k.resource.Model) (c : medusa.ClientWithResponsesInterface)
    (resp : resource.Response Raw) :
    (∀ (req : resource.CreateRequest Raw) r q decoded e,
      diag.HasError (diag.Append resp.Diagnostics (codec.Get req.Plan).1) = false →
      c.send (k.resource.createCall (codec.Get req.Plan).2) = (some r, none) →
      r.StatusCode = 200 → r.JSON200 = some q →
      k.resource.fromCreate (codec.Get req.Plan).2 (some q) = Except.ok (decoded, e) →
      k.resource.Create codec (some c) req resp = Except.ok
        { resp :=
            { State := (tfsdk.StateSet codec resp.State decoded).2
              Diagnostics := diag.Append (diag.Append resp.Diagnostics (codec.Get req.Plan).1)
                (tfsdk.StateSet codec resp.State decoded).1 }
          calls := [{ Payload := k.resource.CreatePayload
                      call := k.resource.createCall (codec.Get req.Plan).2 }] } ∧
      k.resource.ID decoded = TfString.value (k.createdId q) ∧
      (diag.HasError (codec.Set decoded).1 = false →
        (tfsdk.StateSet codec resp.State decoded).2 = (codec.Set decoded).2)) ∧
    (∀ (req : resource.ReadRequest Raw) r q decoded e,
      diag.HasError (diag.Append resp.Diagnostics (codec.Get req.State).1) = false →
      c.send (k.resource.readCall (codec.Get req.State).2) = (some r, none) →
      r.StatusCode = 200 → r.JSON200 = some q →
      k.resource.fromRead (codec.Get req.State).2 (some q) = Except.ok (decoded, e) →
      k.resource.Read codec (some c) req resp = Except.ok
        { resp :=
            { State := (tfsdk.StateSet codec resp.State decoded).2
              Diagnostics := diag.Append (diag.Append resp.Diagnostics (codec.Get req.State).1)
                (tfsdk.StateSet codec resp.State decoded).1 }
          calls := [{ Payload := k.resource.ReadPayload
                      call := k.resource.readCall (codec.Get req.State).2 }] } ∧
      k.resource.ID decoded = TfString.value (k.readId q) ∧
      (diag.HasError (codec.Set decoded).1 = false →
        (tfsdk.StateSet codec resp.State decoded).2 = (codec.Set decoded).2)) ∧
    (∀ (req : resource.UpdateRequest Raw) r q decoded e,
      diag.HasError (diag.Append resp.Diagnostics (codec.Get req.Plan).1) = false →
      c.send (k.resource.updateCall (codec.Get req.Plan).2) = (some r, none) →
      r.StatusCode = 200 → r.JSON200 = some q →
      k.resource.fromUpdate (codec.Get req.Plan).2 (some q) = Except.ok (decoded, e) →
      k.resource.Update codec (some c) req resp = Except.ok
        { resp :=
            { State := (tfsdk.StateSet codec resp.State decoded).2
              Diagnostics := diag.Append (diag.Append resp.Diagnostics (codec.Get req.Plan).1)
                (tfsdk.StateSet codec resp.State decoded).1 }
          calls := [{ Payload := k.resource.UpdatePayload
                      call := k.resource.updateCall (codec.Get req.Plan).2 }] } ∧
      k.resource.ID decoded = TfString.value (k.updatedId q) ∧
      (diag.HasError (codec.Set decoded).1 = false →
        (tfsdk.StateSet codec resp.State decoded).2 = (codec.Set decoded).2)) ∧
    (∀ (req : resource.DeleteRequest Raw) r,
      diag.HasError (diag.Append resp.Diagnostics (codec.Get req.State).1) = false →
      c.send (k.resource.deleteCall (codec.Get req.State).2) = (some r, none) →
      r.StatusCode = 200 →
      k.resource.Delete codec (some c) req resp = Except.ok
        { resp :=
            { State := resp.State
              Diagnostics := diag.Append resp.Diagnostics (codec.Get req.State).1 }
          calls := [{ Payload := k.resource.DeletePayload
                      call := k.resource.deleteCall (codec.Get req.State).2 }] }) ∧
    (∀ m, (k.resource.createCall m).id? = none) ∧
    (k ≠ EntityKind.store → ∀ m,
      (k.resource.readCall m).id? = some (k.resource.ID m).ValueString ∧
      (k.resource.updateCall m).id? = some (k.resource.ID m).ValueString ∧
      (k.resource.deleteCall m).id? = some (k.resource.ID m).ValueString) ∧
    (k = EntityKind.store → ∀ m,
      (k.resource.readCall m).id? = none ∧
      (k.resource.updateCall m).id? = none ∧
      (k.resource.deleteCall m).id? = none) ∧
    (∀ (m : regionResourceModel) (id : TfString),
      ({ m with ID := id }).toCreateInput = m.toCreateInput ∧
      ({ m with ID := id }).toUpdateInput = m.toUpdateInput) ∧
    (∀ (m : storeResourceModel) (id : TfString),
      ({ m with ID := id }).toUpdateInput = m.toUpdateInput ∧
      ({ m with ID := id }).toDeleteInput = m.toDeleteInput) ∧
    (∀ (m : salesChannelResourceModel) (id : TfString),
      ({ m with ID := id }).toCreateInput = m.toCreateInput ∧
      ({ m with ID := id }).toUpdateInput = m.toUpdateInput) ∧
    (∀ (m : productCollectionResourceModel) (id : TfString),
      ({ m with ID := id }).toCreateInput = m.toCreateInput ∧
      ({ m with ID := id }).toUpdateInput = m.toUpdateInput) ∧
    (∀ (m : productCategoryResourceModel) (id : TfString),
      ({ m with ID := id }).toCreateInput = m.toCreateInput ∧
      ({ m with ID := id }).toUpdateInput = m.toUpdateInput) ∧
    (∀ (m : shippingProfileResourceModel) (id : TfString),
      ({ m with ID := id }).toCreateInput = m.toCreateInput ∧
      ({ m with ID := id }).toUpdateInput = m.toUpdateInput) ∧
    (∀ (m : customerGroupResourceModel) (id : TfString),
      ({ m with ID := id }).toCreateInput = m.toCreateInput ∧
      ({ m with ID := id }).toUpdateInput = m.toUpdateInput) := by
  have hset : ∀ decoded : k.resource.Model, diag.HasError (codec.Set decoded).1 = false →
      (tfsdk.StateSet codec resp.State decoded).2 = (codec.Set decoded).2 := by
    intro decoded h
    simp [tfsdk.StateSet, h]
  refine ⟨?_, ?_, ?_, ?_, ?_, ?_, ?_, fun _ _ => ⟨rfl, rfl⟩, fun _ _ => ⟨rfl, rfl⟩,
    fun _ _ => ⟨rfl, rfl⟩, fun _ _ => ⟨rfl, rfl⟩, fun _ _ => ⟨rfl, rfl⟩,
    fun _ _ => ⟨rfl, rfl⟩, fun _ _ => ⟨rfl, rfl⟩⟩
  · intro req r q decoded e hplan hsend hstatus hpayload hdecoded
    obtain ⟨he, hid⟩ := (decoded_identifier k _ decoded e).1 q hdecoded
    subst he
    rw [← hpayload] at hdecoded
    exact ⟨Create_of_decoded k.resource codec c req resp r decoded hplan hsend hstatus
      hdecoded, hid, hset decoded⟩
  · intro req r q decoded e hstate hsend hstatus hpayload hdecoded
    obtain ⟨he, hid⟩ := (decoded_identifier k _ decoded e).2.1 q hdecoded
    subst he
    rw [← hpayload] at hdecoded
    exact ⟨Read_of_decoded k.resource codec c req resp r decoded hstate hsend hstatus
      hdecoded, hid, hset decoded⟩
  · intro req r q decoded e hplan hsend hstatus hpayload hdecoded
    obtain ⟨he, hid⟩ := (decoded_identifier k _ decoded e).2.2 q hdecoded
    subst he
    rw [← hpayload] at hdecoded
    exact ⟨Update_of_decoded k.resource codec c req resp r decoded hplan hsend hstatus
      hdecoded, hid, hset decoded⟩
  · intro req r hstate hsend hstatus
    exact Delete_of_ok k.resource codec c req resp r hstate hsend hstatus
  · intro m
    cases k <;> rfl
  · intro hk m
    cases k
    case store => exact absurd rfl hk
    all_goals exact ⟨rfl, rfl, rfl⟩
  · intro hk m
    subst hk
    exact ⟨rfl, rfl, rfl⟩

/-- Witness for C21 as amended: the create of a region from a plan whose identifier is
unknown, against a remote side that answers with the region `reg_1`, issues the one
create call and reports the region with the identifier of the payload; the read call of
the region `reg_1` takes that identifier. -/
theorem identifier_comes_from_remote_witness :
    regionResource.Create (plainCodec regionResourceModel) (some regionEchoClient)
        { Plan := sampleRegionPlan } { State := sampleRegionPlan, Diagnostics := [] }
      = Except.ok
        { resp := { State := sampleRegion, Diagnostics := [] }
          calls := [{ Payload := medusa.AdminRegionsRes
                      call := medusa.RemoteCall.PostRegionsWithResponse
                        sampleRegionPlan.toCreateInput }] } ∧
    sampleRegionPlan.ID = TfString.unknown ∧
    sampleRegion.ID = TfString.value sampleRegionPayload.Region.Id ∧
    (regionResource.readCall sampleRegion).id? = some "reg_1" :=
  ⟨((identifier_comes_from_remote EntityKind.region (plainCodec regionResourceModel)
      regionEchoClient { State := sampleRegionPlan, Diagnostics := [] }).1
      { Plan := sampleRegionPlan }
      { Body := "", HTTPResponse := some { StatusCode := 200, Status := "200 OK" }
        JSON200 := some sampleRegionPayload }
      sampleRegionPayload sampleRegion none (by decide) rfl rfl rfl rfl).1,
   rfl,
   ((identifier_comes_from_remote EntityKind.region (plainCodec regionResourceModel)
      regionEchoClient { State := sampleRegionPlan, Diagnostics := [] }).1
      { Plan := sampleRegionPlan }
      { Body := "", HTTPResponse := some { StatusCode := 200, Status := "200 OK" }
        JSON200 := some sampleRegionPayload }
      sampleRegionPayload sampleRegion none (by decide) rfl rfl rfl rfl).2.1,
   ((identifier_comes_from_remote EntityKind.region (plainCodec regionResourceModel)
      regionEchoClient { State := sampleRegionPlan, Diagnostics := [] }).2.2.2.2.2.1
      (by decide) sampleRegion).1⟩


end Medusa
